import Mathlib

/-!
# KMBox interface: ring-buffered UART / PIO-UART byte pipe

A shallow embedding of `src/kmbox_interface.c` and of the report queues of
`src/usb_hid_reports.c`.  The global `g_interface` (and the file-scope state of
the report queues) becomes an explicit state value that every entry point takes
and returns.
Calls into the Pico SDK are not part of the repository: what they return is
taken as an argument (the hardware responses), and the calls that matter to
the outside world are recorded in the order in which the C code issues them.

Machine integers are natural numbers reduced modulo `2^16` / `2^32` where the
C type wraps.  Bytes are natural numbers; the code only ever copies them.
-/

namespace KMBox

/-! ## Constants -/

/-- Size of the receive ring, `#define RX_BUFFER_SIZE 512`. -/
def RX_BUFFER_SIZE : Nat := 512

/-- Size of the transmit ring, `#define TX_BUFFER_SIZE 256`. -/
def TX_BUFFER_SIZE : Nat := 256

/-- Index mask of the receive ring, `RX_BUFFER_SIZE - 1`. -/
def RX_BUFFER_MASK : Nat := RX_BUFFER_SIZE - 1

/-- Index mask of the transmit ring, `TX_BUFFER_SIZE - 1`. -/
def TX_BUFFER_MASK : Nat := TX_BUFFER_SIZE - 1

/-- Truncation of a value stored into a `uint16_t`. -/
def u16 (x : Nat) : Nat := x % 65536

/-- Truncation of a value stored into a `uint32_t`. -/
def u32 (x : Nat) : Nat := x % 4294967296

/-- Bit pattern of a 32-bit `int` (two's complement), as used by `&` on a
possibly negative intermediate result. -/
def int32_bits (v : Int) : Nat := (v % 4294967296).toNat

/-! ## Data model (kmbox_interface.h) -/

/-- The transport tag.  `KMBOX_TRANSPORT_PIO_UART` only exists in the enum when
`KMBOX_PIO_AVAILABLE` is set; the entry points take that flag as an argument. -/
inductive kmbox_transport_type_t where
  | KMBOX_TRANSPORT_NONE
  | KMBOX_TRANSPORT_UART
  | KMBOX_TRANSPORT_PIO_UART
  deriving DecidableEq, Repr

open kmbox_transport_type_t

/-- The interface configuration.  The C type is a tag plus a union of
`kmbox_uart_config_t` and `kmbox_pio_uart_config_t`; both start with the same
four members, so the union is flattened and `use_interrupts` is the one member
only the PIO variant has.  `on_command_received` records whether the callback
pointer is non-null. -/
structure kmbox_interface_config_t where
  transport_type : kmbox_transport_type_t
  baudrate : Nat
  tx_pin : Nat
  rx_pin : Nat
  use_dma : Bool
  use_interrupts : Bool
  on_command_received : Bool
  deriving DecidableEq, Repr

/-- The statistics block (six `uint32_t` counters). -/
structure kmbox_interface_stats_t where
  bytes_received : Nat
  bytes_sent : Nat
  packets_received : Nat
  packets_sent : Nat
  errors : Nat
  commands_processed : Nat
  deriving DecidableEq, Repr

/-- The PIO member of the `instance` union. -/
structure pio_uart_handle_t where
  pio : Nat
  sm_rx : Nat
  sm_tx : Nat
  offset_rx : Nat
  offset_tx : Nat
  deriving DecidableEq, Repr

/-- The interface state `kmbox_interface_state_t`.  `uart` is the UART member
of the `instance` union (`none` is the null pointer, `some 0` is `uart0`,
`some 1` is `uart1`); the buffers map an index to the byte stored there. -/
structure kmbox_interface_state_t where
  config : kmbox_interface_config_t
  uart : Option Nat
  pio_uart : pio_uart_handle_t
  rx_buffer : Nat → Nat
  tx_buffer : Nat → Nat
  rx_head : Nat
  rx_tail : Nat
  tx_head : Nat
  tx_tail : Nat
  dma_rx_chan : Int
  dma_tx_chan : Int
  stats : kmbox_interface_stats_t
  initialized : Bool
  tx_in_progress : Bool

/-- The all-zero configuration (what `memset` leaves). -/
def zero_config : kmbox_interface_config_t :=
  { transport_type := KMBOX_TRANSPORT_NONE, baudrate := 0, tx_pin := 0, rx_pin := 0,
    use_dma := false, use_interrupts := false, on_command_received := false }

/-- The all-zero statistics block. -/
def zero_stats : kmbox_interface_stats_t :=
  { bytes_received := 0, bytes_sent := 0, packets_received := 0, packets_sent := 0,
    errors := 0, commands_processed := 0 }

/-- The all-zero PIO handle. -/
def zero_pio : pio_uart_handle_t :=
  { pio := 0, sm_rx := 0, sm_tx := 0, offset_rx := 0, offset_tx := 0 }

/-- The state after `memset(&g_interface, 0, sizeof(g_interface))`. -/
def zero_state : kmbox_interface_state_t :=
  { config := zero_config, uart := none, pio_uart := zero_pio,
    rx_buffer := fun _ => 0, tx_buffer := fun _ => 0,
    rx_head := 0, rx_tail := 0, tx_head := 0, tx_tail := 0,
    dma_rx_chan := 0, dma_tx_chan := 0, stats := zero_stats,
    initialized := false, tx_in_progress := false }

/-- The static initialiser of `g_interface`: both DMA channels unclaimed,
everything else zero. -/
def g_interface : kmbox_interface_state_t :=
  { zero_state with dma_rx_chan := -1, dma_tx_chan := -1, initialized := false }

/-! ## kmbox_interface_send / kmbox_interface_is_ready -/

/-- The free space computed by `send` and `is_ready`:
`(tail - head - 1) & TX_BUFFER_MASK`, the subtraction done in `int`. -/
def tx_available (s : kmbox_interface_state_t) : Nat :=
  int32_bits ((s.tx_tail : Int) - (s.tx_head : Int) - 1) &&& TX_BUFFER_MASK

/-- The copy loop of `kmbox_interface_send`,
`for (i = 0; i < len; i++) { tx_buffer[head] = data[i]; head = (head + 1) & MASK; }`.
The first argument is the number of iterations left, the second is `i`. -/
def send_copy (data : Nat → Nat) : Nat → Nat → (Nat → Nat) → Nat → (Nat → Nat) × Nat
  | 0, _, buf, head => (buf, head)
  | n + 1, i, buf, head =>
    send_copy data n (i + 1) (Function.update buf head (data i)) ((head + 1) &&& TX_BUFFER_MASK)

/-- The function `kmbox_interface_send(data, len)`.  `data = none` is the null
pointer, `some d` a buffer whose `i`-th byte is `d i`.  Returns the C return
value and the state afterwards. -/
def kmbox_interface_send (s : kmbox_interface_state_t) (data : Option (Nat → Nat))
    (len : Nat) : Bool × kmbox_interface_state_t :=
  if !s.initialized || data.isNone || len == 0 then
    (false, s)
  else
    match data with
    | none => (false, s)
    | some d =>
      let head := s.tx_head
      let available := tx_available s
      if available < len then
        (false, { s with stats := { s.stats with errors := u32 (s.stats.errors + 1) } })
      else
        let r := send_copy d len 0 s.tx_buffer head
        (true, { s with
          tx_buffer := r.1
          tx_head := r.2
          stats := { s.stats with bytes_sent := u32 (s.stats.bytes_sent + len) }
          tx_in_progress := if !s.tx_in_progress then true else s.tx_in_progress })

/-- The function `kmbox_interface_is_ready()`. -/
def kmbox_interface_is_ready (s : kmbox_interface_state_t) : Bool :=
  if !s.initialized then false
  else decide (tx_available s > 0)

/-- The function `kmbox_interface_get_stats(stats)`: `out` is what the caller's
block holds before the call (`none` for a null pointer); the result is what it
holds afterwards. -/
def kmbox_interface_get_stats (s : kmbox_interface_state_t)
    (out : Option kmbox_interface_stats_t) : Option kmbox_interface_stats_t :=
  match out with
  | none => none
  | some _ => some s.stats

/-- The function `kmbox_interface_get_transport_type()`. -/
def kmbox_interface_get_transport_type (s : kmbox_interface_state_t) : kmbox_transport_type_t :=
  if s.initialized then s.config.transport_type else KMBOX_TRANSPORT_NONE

/-! ## kmbox_interface_process -/

/-- One invocation `on_command_received(&rx_buffer[start], len)`: the offset of
the span in `rx_buffer`, its length, and the bytes the callback finds there. -/
structure callback_span where
  start : Nat
  len : Nat
  bytes : List Nat
  deriving DecidableEq, Repr

/-- The span `&rx_buffer[start]`, `len` as the callback sees it. -/
def span_of (buf : Nat → Nat) (start len : Nat) : callback_span :=
  { start := start, len := len, bytes := (List.range len).map (fun i => buf (start + i)) }

/-- What the hardware answers during one `process` call.
`write_addr` is `dma_channel_hw_addr(chan)->write_addr` and `buffer_start` is
`(uint32_t)g_interface.rx_buffer` (both `uint32_t`); `rx_memory` is the content
of `rx_buffer` as the DMA engine has left it; `rx_fifo` lists the bytes that
`uart_getc` / `uart_rx_mini_program_getc` hand out while the FIFO reports
data; `tx_room` is the number of bytes the PIO TX FIFO takes before
`pio_sm_is_tx_fifo_full` reports full. -/
structure process_hw_t where
  write_addr : Nat
  buffer_start : Nat
  rx_memory : Nat → Nat
  rx_fifo : List Nat
  tx_room : Nat

/-- What one `process` call does to the outside: the callback invocations in
order, the bytes pushed with `uart_tx_program_putc` in order, and the DMA
transfers started on the TX channel as (offset in `tx_buffer`, length). -/
structure process_out_t where
  spans : List callback_span
  putc : List Nat
  dma_tx : List (Nat × Nat)
  deriving DecidableEq, Repr

/-- A `process` call that touches nothing outside. -/
def no_output : process_out_t := { spans := [], putc := [], dma_tx := [] }

/-- The polled ingest loop (`while (uart_is_readable(..))` and its PIO twin):
one iteration per byte the FIFO hands out.  Arguments after the FIFO content:
`rx_buffer`, the local `head`, `stats.errors`. -/
def rx_poll (tail : Nat) : List Nat → (Nat → Nat) → Nat → Nat → (Nat → Nat) × Nat × Nat
  | [], buf, head, errors => (buf, head, errors)
  | b :: rest, buf, head, errors =>
    let next_head := (head + 1) &&& RX_BUFFER_MASK
    if next_head != tail then
      rx_poll tail rest (Function.update buf head b) next_head errors
    else
      rx_poll tail rest buf head (u32 (errors + 1))

/-- The head computed on the DMA path,
`(write_addr - buffer_start) & RX_BUFFER_MASK` in `uint32_t` arithmetic. -/
def dma_head (hw : process_hw_t) : Nat :=
  u32 (hw.write_addr + 4294967296 - hw.buffer_start) &&& RX_BUFFER_MASK

/-- The size of the next chunk in the consumption loop (a `uint16_t`). -/
def rx_chunk_size (head tail : Nat) : Nat :=
  if head > tail then u16 (head - tail) else u16 (RX_BUFFER_SIZE + 65536 - tail)

/-- The consumption loop `while (tail != head) { .. }`.  The first numeric
argument bounds the number of iterations (`none`: the bound was too small);
then the local `tail` and `stats.bytes_received`.  Returns the final `tail`,
the final counter and the callback invocations in order. -/
def rx_consume (cb : Bool) (buf : Nat → Nat) (head : Nat) :
    Nat → Nat → Nat → Option (Nat × Nat × List callback_span)
  | 0, tail, received => if tail != head then none else some (tail, received, [])
  | fuel + 1, tail, received =>
    if tail != head then
      let chunk_size := rx_chunk_size head tail
      let deliver := cb && decide (chunk_size > 0)
      let received1 := if deliver then u32 (received + chunk_size) else received
      let tail1 := (tail + chunk_size) &&& RX_BUFFER_MASK
      match rx_consume cb buf head fuel tail1 received1 with
      | none => none
      | some (t, r, spans) =>
        some (t, r, if deliver then span_of buf tail chunk_size :: spans else spans)
    else some (tail, received, [])

/-- The receive half of `process_uart` (lines 365-405), which
`process_pio_uart` repeats word for word (lines 412-457) with the PIO FIFO in
place of the UART FIFO: update the head (DMA or polled), then deliver. -/
def process_rx (fuel : Nat) (s : kmbox_interface_state_t) (hw : process_hw_t) :
    Option (kmbox_interface_state_t × List callback_span) :=
  let head := s.rx_head
  let tail := s.rx_tail
  let s1 : kmbox_interface_state_t :=
    if s.config.use_dma && decide (s.dma_rx_chan ≥ 0) then
      { s with rx_buffer := hw.rx_memory }
    else
      let r := rx_poll tail hw.rx_fifo s.rx_buffer head s.stats.errors
      { s with rx_buffer := r.1, rx_head := r.2.1, stats := { s.stats with errors := r.2.2 } }
  let head1 :=
    if s.config.use_dma && decide (s.dma_rx_chan ≥ 0) then dma_head hw else s1.rx_head
  match rx_consume s1.config.on_command_received s1.rx_buffer head1 fuel tail
      s1.stats.bytes_received with
  | none => none
  | some (t, r, spans) =>
    some ({ s1 with rx_tail := t, stats := { s1.stats with bytes_received := r } }, spans)

/-- The function `process_uart()`. -/
def process_uart (fuel : Nat) (s : kmbox_interface_state_t) (hw : process_hw_t) :
    Option (kmbox_interface_state_t × process_out_t) :=
  match process_rx fuel s hw with
  | none => none
  | some (s1, spans) => some (s1, { no_output with spans := spans })

/-- The polled egress loop of `process_pio_uart`,
`while (tx_tail != tx_head && !pio_sm_is_tx_fifo_full(..)) { putc; tx_tail++ }`.
The first numeric argument is the room left in the FIFO, the second the local
`tx_tail`.  Returns the final `tx_tail` and the bytes pushed. -/
def pio_tx_poll (buf : Nat → Nat) (tx_head : Nat) : Nat → Nat → Nat × List Nat
  | 0, tx_tail => (tx_tail, [])
  | room + 1, tx_tail =>
    if tx_tail != tx_head then
      let r := pio_tx_poll buf tx_head room ((tx_tail + 1) &&& TX_BUFFER_MASK)
      (r.1, buf tx_tail :: r.2)
    else (tx_tail, [])

/-- The transmit half of `process_pio_uart` (lines 459-508). -/
def process_pio_tx (s : kmbox_interface_state_t) (hw : process_hw_t) :
    kmbox_interface_state_t × process_out_t :=
  if s.tx_head != s.tx_tail && !s.tx_in_progress then
    let tx_tail := s.tx_tail
    let tx_head := s.tx_head
    if s.config.use_dma && decide (s.dma_tx_chan ≥ 0) then
      let tx_size :=
        if tx_head > tx_tail then u16 (tx_head - tx_tail) else u16 (TX_BUFFER_SIZE + 65536 - tx_tail)
      if tx_size > 0 then
        ({ s with tx_in_progress := true, tx_tail := (tx_tail + tx_size) &&& TX_BUFFER_MASK },
         { no_output with dma_tx := [(tx_tail, tx_size)] })
      else (s, no_output)
    else
      let r := pio_tx_poll s.tx_buffer tx_head hw.tx_room tx_tail
      ({ s with tx_tail := r.1,
                tx_in_progress := if r.1 == tx_head then false else s.tx_in_progress },
       { no_output with putc := r.2 })
  else (s, no_output)

/-- The function `process_pio_uart()`. -/
def process_pio_uart (fuel : Nat) (s : kmbox_interface_state_t) (hw : process_hw_t) :
    Option (kmbox_interface_state_t × process_out_t) :=
  match process_rx fuel s hw with
  | none => none
  | some (s1, spans) =>
    let r := process_pio_tx s1 hw
    some (r.1, { r.2 with spans := spans })

/-- The function `kmbox_interface_process()`.  `pio_available` is the
compile-time flag `KMBOX_PIO_AVAILABLE` (its header is not in the sources). -/
def kmbox_interface_process (pio_available : Bool) (fuel : Nat) (s : kmbox_interface_state_t)
    (hw : process_hw_t) : Option (kmbox_interface_state_t × process_out_t) :=
  if !s.initialized then some (s, no_output)
  else
    match s.config.transport_type with
    | KMBOX_TRANSPORT_UART => process_uart fuel s hw
    | KMBOX_TRANSPORT_PIO_UART =>
      if pio_available then process_pio_uart fuel s hw else some (s, no_output)
    | KMBOX_TRANSPORT_NONE => some (s, no_output)

/-! ## kmbox_interface_init / kmbox_interface_deinit -/

/-- Result of one `pio_claim_free_sm_and_add_program_for_gpio_range` call: the
return value and what the three out-parameters hold when it returns. -/
structure pio_claim_t where
  ok : Bool
  pio : Nat
  sm : Nat
  offset : Nat
  deriving DecidableEq, Repr

/-- What the SDK answers during `init` / `deinit`.  `rx_chan`, `tx_chan` are
the channels `dma_claim_unused_channel(true)` returns (with `required = true`
the SDK call either returns a channel or does not return);
`pio_instance` is `KMBOX_PIO_INSTANCE`; `rx_claim`, `tx_claim` are the results
of the two PIO claims; `irq_shared` is what `irq_has_shared_handler` returns
in `deinit`. -/
structure sdk_hw_t where
  rx_chan : Nat
  tx_chan : Nat
  pio_instance : Nat
  rx_claim : pio_claim_t
  tx_claim : pio_claim_t
  irq_shared : Bool
  deriving DecidableEq, Repr

/-- The SDK calls issued by `init` and `deinit`, recorded in program order.
The two PIO programs are told apart by a flag (`true` for
`uart_rx_mini_program`, `false` for `uart_tx_program`). -/
inductive sdk_call where
  | uart_init (uart : Option Nat) (baudrate : Nat)
  | gpio_set_function (pin : Nat)
  | uart_set_format (uart : Option Nat)
  | uart_set_fifo_enabled (uart : Option Nat)
  | uart_deinit (uart : Option Nat)
  | dma_claim_unused_channel (chan : Nat)
  | dma_channel_configure (chan : Int)
  | dma_channel_set_irq1_enabled (chan : Int)
  | irq_set_exclusive_handler_dma
  | irq_set_enabled_dma
  | dma_channel_abort (chan : Int)
  | dma_channel_unclaim (chan : Int)
  | pio_claim_program (rx : Bool) (pin : Nat) (result : pio_claim_t)
  | pio_remove_program_and_unclaim_sm (rx : Bool) (pio sm offset : Nat)
  | pio_program_init (rx : Bool) (pio sm offset pin baudrate : Nat)
  | irq_add_shared_handler (pio : Nat)
  | irq_remove_handler (pio : Nat)
  | pio_set_irqn_source_enabled (pio sm : Nat) (enabled : Bool)
  | irq_set_enabled_pio (pio : Nat) (enabled : Bool)
  deriving DecidableEq, Repr

open sdk_call

/-- The function `uart_dma_rx_setup()`, and equally `pio_uart_dma_rx_setup()`,
which differs only in the DREQ and the read address it programs. -/
def uart_dma_rx_setup (s : kmbox_interface_state_t) (hw : sdk_hw_t) :
    kmbox_interface_state_t × List sdk_call :=
  let s1 := { s with dma_rx_chan := (hw.rx_chan : Int) }
  (s1, [dma_claim_unused_channel hw.rx_chan, dma_channel_configure s1.dma_rx_chan,
        dma_channel_set_irq1_enabled s1.dma_rx_chan, irq_set_exclusive_handler_dma,
        irq_set_enabled_dma])

/-- The function `pio_uart_dma_tx_setup()`: claims the channel; the transfer
itself is configured per transfer. -/
def pio_uart_dma_tx_setup (s : kmbox_interface_state_t) (hw : sdk_hw_t) :
    kmbox_interface_state_t × List sdk_call :=
  ({ s with dma_tx_chan := (hw.tx_chan : Int) }, [dma_claim_unused_channel hw.tx_chan])

/-- The function `init_uart(config)`. -/
def init_uart (s : kmbox_interface_state_t) (config : kmbox_interface_config_t)
    (hw : sdk_hw_t) : Bool × kmbox_interface_state_t × List sdk_call :=
  let pick : Option (Option Nat) :=
    if config.tx_pin == 0 && config.rx_pin == 1 then some (some 0)
    else if config.tx_pin == 4 && config.rx_pin == 5 then some (some 1)
    else none
  match pick with
  | none => (false, s, [])
  | some u =>
    let s1 := { s with uart := u }
    let calls := [uart_init s1.uart config.baudrate, gpio_set_function config.tx_pin,
                  gpio_set_function config.rx_pin, uart_set_format s1.uart,
                  uart_set_fifo_enabled s1.uart]
    if config.use_dma then
      let r := uart_dma_rx_setup s1 hw
      (true, r.1, calls ++ r.2)
    else (true, s1, calls)

/-- The function `init_pio_uart(config)`. -/
def init_pio_uart (s : kmbox_interface_state_t) (config : kmbox_interface_config_t)
    (hw : sdk_hw_t) : Bool × kmbox_interface_state_t × List sdk_call :=
  let s0 := { s with pio_uart := { s.pio_uart with pio := hw.pio_instance } }
  let s1 := { s0 with pio_uart := { s0.pio_uart with
                pio := hw.rx_claim.pio, sm_rx := hw.rx_claim.sm, offset_rx := hw.rx_claim.offset } }
  let c1 := [pio_claim_program true config.rx_pin hw.rx_claim]
  if !hw.rx_claim.ok then (false, s1, c1)
  else
    let s2 := { s1 with pio_uart := { s1.pio_uart with
                  pio := hw.tx_claim.pio, sm_tx := hw.tx_claim.sm, offset_tx := hw.tx_claim.offset } }
    let c2 := c1 ++ [pio_claim_program false config.tx_pin hw.tx_claim]
    if !hw.tx_claim.ok then
      (false, s2, c2 ++ [pio_remove_program_and_unclaim_sm true s2.pio_uart.pio
                           s2.pio_uart.sm_rx s2.pio_uart.offset_rx])
    else
      let h := s2.pio_uart
      let c3 := c2 ++ [pio_program_init true h.pio h.sm_rx h.offset_rx config.rx_pin config.baudrate,
                       pio_program_init false h.pio h.sm_tx h.offset_tx config.tx_pin config.baudrate]
      let r4 : kmbox_interface_state_t × List sdk_call :=
        if config.use_dma then
          let a := uart_dma_rx_setup s2 hw
          let b := pio_uart_dma_tx_setup a.1 hw
          (b.1, c3 ++ a.2 ++ b.2)
        else (s2, c3)
      if config.use_interrupts then
        (true, r4.1, r4.2 ++ [irq_add_shared_handler h.pio,
                              pio_set_irqn_source_enabled h.pio h.sm_rx true,
                              irq_set_enabled_pio h.pio true])
      else (true, r4.1, r4.2)

/-- The state after the first three statements of `kmbox_interface_init`:
`memset` to zero, both DMA channels set to -1, the configuration copied in. -/
def cleared_state (cfg : kmbox_interface_config_t) : kmbox_interface_state_t :=
  { zero_state with dma_rx_chan := -1, dma_tx_chan := -1, config := cfg }

/-- The function `kmbox_interface_init(config)`; `config = none` is the null
pointer.  Returns the C return value, the state afterwards and the SDK calls
made.  `pio_available` is the compile-time flag `KMBOX_PIO_AVAILABLE`. -/
def kmbox_interface_init (pio_available : Bool) (s : kmbox_interface_state_t)
    (config : Option kmbox_interface_config_t) (hw : sdk_hw_t) :
    Bool × kmbox_interface_state_t × List sdk_call :=
  match config with
  | none => (false, s, [])
  | some cfg =>
    if s.initialized then (false, s, [])
    else
      let s1 := cleared_state cfg
      let r : Option (Bool × kmbox_interface_state_t × List sdk_call) :=
        match cfg.transport_type with
        | KMBOX_TRANSPORT_UART => some (init_uart s1 cfg hw)
        | KMBOX_TRANSPORT_PIO_UART => if pio_available then some (init_pio_uart s1 cfg hw) else none
        | KMBOX_TRANSPORT_NONE => none
      match r with
      | none => (false, s1, [])
      | some (success, s2, calls) =>
        if success then (success, { s2 with initialized := true }, calls)
        else (success, s2, calls)

/-- The function `kmbox_interface_deinit()`. -/
def kmbox_interface_deinit (pio_available : Bool) (s : kmbox_interface_state_t)
    (hw : sdk_hw_t) : kmbox_interface_state_t × List sdk_call :=
  if !s.initialized then (s, [])
  else
    let c1 := if s.dma_rx_chan ≥ 0 then
        [dma_channel_abort s.dma_rx_chan, dma_channel_unclaim s.dma_rx_chan] else []
    let c2 := if s.dma_tx_chan ≥ 0 then
        [dma_channel_abort s.dma_tx_chan, dma_channel_unclaim s.dma_tx_chan] else []
    let h := s.pio_uart
    let c3 :=
      match s.config.transport_type with
      | KMBOX_TRANSPORT_UART => [uart_deinit s.uart]
      | KMBOX_TRANSPORT_PIO_UART =>
        if pio_available then
          (if s.config.use_interrupts then
            [pio_set_irqn_source_enabled h.pio h.sm_rx false, irq_remove_handler h.pio] ++
              (if !hw.irq_shared then [irq_set_enabled_pio h.pio false] else [])
           else []) ++
          [pio_remove_program_and_unclaim_sm true h.pio h.sm_rx h.offset_rx,
           pio_remove_program_and_unclaim_sm false h.pio h.sm_tx h.offset_tx]
        else []
      | KMBOX_TRANSPORT_NONE => []
    ({ s with initialized := false }, c1 ++ c2 ++ c3)

/-! ## Sequences of API calls -/

/-- One call of the public API together with what the hardware answers. -/
inductive api_call where
  | init (config : Option kmbox_interface_config_t) (hw : sdk_hw_t)
  | send (data : Option (Nat → Nat)) (len : Nat)
  | process (hw : process_hw_t)
  | deinit (hw : sdk_hw_t)

/-- The interface state together with a count kept for the analysis only:
`pending` is the number of bytes that `send` has accepted into the TX ring and
that `process` has not yet handed to the hardware.  Clearing the state in
`init` empties the ring, so it sets the count back to zero. -/
structure tracked_t where
  st : kmbox_interface_state_t
  pending : Nat

/-- The state at program start. -/
def boot : tracked_t := { st := g_interface, pending := 0 }

/-- One API call on a tracked state (`none`: the iteration bound of `process`
was too small). -/
def api_step (pio_available : Bool) (fuel : Nat) (t : tracked_t) : api_call → Option tracked_t
  | api_call.init config hw =>
    let r := kmbox_interface_init pio_available t.st config hw
    some { st := r.2.1,
           pending := if config.isSome && !t.st.initialized then 0 else t.pending }
  | api_call.send data len =>
    let r := kmbox_interface_send t.st data len
    some { st := r.2, pending := if r.1 then t.pending + len else t.pending }
  | api_call.process hw =>
    match kmbox_interface_process pio_available fuel t.st hw with
    | none => none
    | some (s1, out) =>
      some { st := s1,
             pending := t.pending - (out.putc.length + (out.dma_tx.map Prod.snd).sum) }
  | api_call.deinit hw =>
    some { st := (kmbox_interface_deinit pio_available t.st hw).1, pending := t.pending }

/-- A sequence of API calls, run from a tracked state. -/
def api_run (pio_available : Bool) (fuel : Nat) : List api_call → tracked_t → Option tracked_t
  | [], t => some t
  | c :: rest, t =>
    match api_step pio_available fuel t c with
    | none => none
    | some t1 => api_run pio_available fuel rest t1

/-- The occupancy of the TX ring, `(tx_head - tx_tail) & TX_BUFFER_MASK`. -/
def tx_occupancy (s : kmbox_interface_state_t) : Nat :=
  int32_bits ((s.tx_head : Int) - (s.tx_tail : Int)) &&& TX_BUFFER_MASK

/-! ## Worked-example inputs and outcome predicates -/

/-- A buffer used in the worked examples: byte `i` is `i + 1`. -/
def sample_data : Nat → Nat := fun i => i + 1

/-- An initialised UART state whose TX ring has exactly ten free bytes
(`tx_head = 245`, `tx_tail = 0`). -/
def sample_state_free10 : kmbox_interface_state_t :=
  { zero_state with
    config := { zero_config with transport_type := KMBOX_TRANSPORT_UART, tx_pin := 4, rx_pin := 5 }
    uart := some 1, dma_rx_chan := -1, dma_tx_chan := -1
    tx_head := 245, initialized := true, tx_in_progress := true }

/-- Outcome (a) of a send: exactly the `len` bytes of `d` are enqueued behind
the old head of `s` (nothing else in the ring changes, the head advances by
`len`) and the error counter is as before. -/
def send_outcome_all (s s1 : kmbox_interface_state_t) (d : Nat → Nat) (len : Nat) : Prop :=
  (∀ i, i < len → s1.tx_buffer ((s.tx_head + i) &&& TX_BUFFER_MASK) = d i) ∧
  (∀ k, (∀ i, i < len → k ≠ (s.tx_head + i) &&& TX_BUFFER_MASK) → s1.tx_buffer k = s.tx_buffer k) ∧
  s1.tx_head = (s.tx_head + len) &&& TX_BUFFER_MASK ∧
  s1.stats.errors = s.stats.errors

/-- Outcome (b) of a send: nothing is enqueued (`tx_head` and `tx_buffer` as
before) and the `uint32_t` error counter has been incremented once. -/
def send_outcome_none (s s1 : kmbox_interface_state_t) : Prop :=
  s1.tx_head = s.tx_head ∧ s1.tx_buffer = s.tx_buffer ∧
  s1.stats.errors = u32 (s.stats.errors + 1)

/-- The bytes handed to the callback by a list of invocations, in order. -/
def delivered (spans : List callback_span) : List Nat :=
  (spans.map callback_span.bytes).flatten

/-- A receive buffer for the wrap-around example: `A B` in the last two slots,
`C D` in the first two. -/
def sample_rx_buffer : Nat → Nat :=
  fun i => if i = 510 then 65 else if i = 511 then 66 else if i = 0 then 67
    else if i = 1 then 68 else 0

/-- A run of `process` calls, one per hardware answer, collecting the callback
invocations in order (`none`: the iteration bound was too small). -/
def process_run (pio_available : Bool) (fuel : Nat) :
    List process_hw_t → kmbox_interface_state_t →
      Option (kmbox_interface_state_t × List callback_span)
  | [], s => some (s, [])
  | hw :: rest, s =>
    match kmbox_interface_process pio_available fuel s hw with
    | none => none
    | some (s1, out) =>
      match process_run pio_available fuel rest s1 with
      | none => none
      | some (s2, spans) => some (s2, out.spans ++ spans)

/-- The polled UART receive path at rest: the interface is initialised on the
UART transport, the head is not taken from DMA (`use_dma` off or no channel
claimed), the receive ring is empty with an in-range cursor, and the two
counters touched by `process` hold `uint32_t` values. -/
def polled_uart_idle (s : kmbox_interface_state_t) : Prop :=
  s.initialized = true ∧ s.config.transport_type = KMBOX_TRANSPORT_UART ∧
  (s.config.use_dma && decide (s.dma_rx_chan ≥ 0)) = false ∧
  s.rx_head = s.rx_tail ∧ s.rx_tail < RX_BUFFER_SIZE ∧
  s.stats.errors < 4294967296 ∧ s.stats.bytes_received < 4294967296

/-- The bytes of a run of polled `process` calls that are kept: per call, the
first 511 bytes the FIFO hands out. -/
def rx_kept (hws : List process_hw_t) : List Nat :=
  (hws.map (fun hw => hw.rx_fifo.take 511)).flatten

/-- The bytes of a run of polled `process` calls that overflow the ring: per
call, everything after the first 511 bytes. -/
def rx_dropped (hws : List process_hw_t) : List Nat :=
  (hws.map (fun hw => hw.rx_fifo.drop 511)).flatten

/-- An initialised UART interface on the polled path with a callback, as left
by `init`. -/
def sample_polled_state : kmbox_interface_state_t :=
  { zero_state with
    config := { zero_config with transport_type := KMBOX_TRANSPORT_UART, tx_pin := 4, rx_pin := 5,
                                 baudrate := 250000, on_command_received := true }
    uart := some 1, dma_rx_chan := -1, dma_tx_chan := -1, initialized := true }

/-- Hardware answers for one `process` call that finds the given bytes in the
FIFO. -/
def hw_with_fifo (fifo : List Nat) : process_hw_t :=
  { write_addr := 0, buffer_start := 0, rx_memory := fun _ => 0, rx_fifo := fifo, tx_room := 0 }

/-- Six hundred bytes, the `i`-th being `i mod 256`. -/
def sample_fifo600 : List Nat := (List.range 600).map (fun i => i % 256)

/-- Two hardware answers, three bytes in the FIFO and then two. -/
def sample_two_polls : List process_hw_t := [hw_with_fifo [1, 2, 3], hw_with_fifo [4, 5]]

/-- A UART configuration whose pin pair selects a hardware instance:
`(tx_pin, rx_pin)` is `(0, 1)` or `(4, 5)`. -/
def valid_uart_config (cfg : kmbox_interface_config_t) : Prop :=
  cfg.transport_type = KMBOX_TRANSPORT_UART ∧
  ((cfg.tx_pin = 0 ∧ cfg.rx_pin = 1) ∨ (cfg.tx_pin = 4 ∧ cfg.rx_pin = 5))

/-- The part of the state that the backend initialisers do not touch: stored
configuration, ring cursors, statistics and the two flags. -/
def same_core (s s1 : kmbox_interface_state_t) : Prop :=
  s1.config = s.config ∧ s1.rx_head = s.rx_head ∧ s1.rx_tail = s.rx_tail ∧
  s1.tx_head = s.tx_head ∧ s1.tx_tail = s.tx_tail ∧ s1.stats = s.stats ∧
  s1.initialized = s.initialized ∧ s1.tx_in_progress = s.tx_in_progress ∧
  s1.rx_buffer = s.rx_buffer ∧ s1.tx_buffer = s.tx_buffer

/-- The default UART configuration `KMBOX_UART_DEFAULT_CONFIG` (250000 baud,
pins 4 and 5, DMA on), wrapped as an interface configuration without callback. -/
def KMBOX_UART_DEFAULT_CONFIG : kmbox_interface_config_t :=
  { transport_type := KMBOX_TRANSPORT_UART, baudrate := 250000, tx_pin := 4, rx_pin := 5,
    use_dma := true, use_interrupts := false, on_command_received := false }

/-- SDK answers used in the worked examples: DMA channels 0 and 1, PIO block 2,
both PIO claims granted. -/
def sample_sdk : sdk_hw_t :=
  { rx_chan := 0, tx_chan := 1, pio_instance := 2,
    rx_claim := { ok := true, pio := 2, sm := 0, offset := 0 },
    tx_claim := { ok := true, pio := 2, sm := 1, offset := 8 },
    irq_shared := false }

/-- What the interface looks like right after a successful `init`: marked
initialised, all four ring cursors zero, all statistics zero, no transmission in
progress. -/
def freshly_initialized (s : kmbox_interface_state_t) : Prop :=
  s.initialized = true ∧ s.rx_head = 0 ∧ s.rx_tail = 0 ∧ s.tx_head = 0 ∧ s.tx_tail = 0 ∧
  s.stats = zero_stats ∧ s.tx_in_progress = false

/-- The invariant of the tracked state: all four cursors are ring indices and
`pending` equals the distance from `tx_tail` to `tx_head` around the TX ring. -/
def ring_inv (t : tracked_t) : Prop :=
  t.st.tx_head < 256 ∧ t.st.tx_tail < 256 ∧ t.st.rx_head < 512 ∧ t.st.rx_tail < 512 ∧
  t.pending = (t.st.tx_head + 256 - t.st.tx_tail) % 256

/-- The number of bytes one `process` call hands to the hardware. -/
def drained (out : process_out_t) : Nat :=
  out.putc.length + (out.dma_tx.map Prod.snd).sum

/-- A short session: `init` with the default UART configuration, a five-byte
send, one `process` pass, a three-byte send. -/
def sample_session : List api_call :=
  [api_call.init (some KMBOX_UART_DEFAULT_CONFIG) sample_sdk,
   api_call.send (some sample_data) 5,
   api_call.process (hw_with_fifo []),
   api_call.send (some sample_data) 3]

/-! ## HID report queues (usb_hid_reports.c) -/

/-- Constants of the headers that are not among the sources (`defines.h`):
the two activity throttles, the two report ids, whether `RP2350` is defined,
the lengths of the two report arrays, and the two DMA channel numbers. -/
structure hid_defines_t where
  KEYBOARD_ACTIVITY_THROTTLE : Nat
  MOUSE_ACTIVITY_THROTTLE : Nat
  REPORT_ID_KEYBOARD : Nat
  REPORT_ID_MOUSE : Nat
  RP2350 : Bool
  KBD_BUFFER_SIZE : Nat
  MOUSE_BUFFER_SIZE : Nat
  DMA_CHANNEL_KEYBOARD : Int
  DMA_CHANNEL_MOUSE : Int
  deriving DecidableEq, Repr

/-- A boot keyboard report (`hid_keyboard_report_t` of the USB stack). -/
structure hid_keyboard_report_t where
  modifier : Nat
  reserved : Nat
  keycode : List Nat
  deriving DecidableEq, Repr

/-- A boot mouse report (`hid_mouse_report_t` of the USB stack): the button
byte and four signed bytes. -/
structure hid_mouse_report_t where
  buttons : Nat
  x : Int
  y : Int
  wheel : Int
  pan : Int
  deriving DecidableEq, Repr

/-- The control block `dma_circular_buffer_t` of one report queue, without the
pointer to its storage. -/
structure dma_circular_buffer_t where
  read_idx : Nat
  write_idx : Nat
  size : Nat
  mask : Nat
  deriving DecidableEq, Repr

/-- The file-scope state of `usb_hid_reports.c`: the two control blocks, the
mouse slots, the two function-local static activity counters, the two DMA
channel handles and the two spinlock pointers (`none` is the null pointer).
The keyboard slots `kbd_buffer` are left out: no function of the file reads or
writes them. -/
structure hid_state_t where
  kbd_circular_buffer : dma_circular_buffer_t
  mouse_circular_buffer : dma_circular_buffer_t
  mouse_buffer : Nat → hid_mouse_report_t
  kbd_activity_counter : Nat
  mouse_activity_counter : Nat
  kbd_dma_channel : Int
  mouse_dma_channel : Int
  kbd_spinlock : Option Nat
  mouse_spinlock : Option Nat

/-- What the collaborators answer during one report call: `hw_accel_is_enabled()`,
the return value of `hw_accel_process_*_report`, and the return value of
`tud_hid_report` / `tud_hid_mouse_report`. -/
structure hid_hw_t where
  hw_accel_enabled : Bool
  hw_accel_handled : Bool
  tud_ok : Bool
  deriving DecidableEq, Repr

/-- The calls into the collaborators, recorded in program order. -/
inductive hid_call where
  | neopixel_trigger_keyboard_activity
  | neopixel_trigger_mouse_activity
  | hw_accel_process_keyboard_report (r : hid_keyboard_report_t)
  | hw_accel_process_mouse_report (r : hid_mouse_report_t)
  | tud_hid_report (report_id : Nat) (r : hid_keyboard_report_t)
  | tud_hid_mouse_report (report_id buttons : Nat) (x y vertical horizontal : Int)
  deriving DecidableEq, Repr

/-- The function `is_mouse_buffer_empty()`. -/
def is_mouse_buffer_empty (st : hid_state_t) : Bool :=
  st.mouse_circular_buffer.read_idx == st.mouse_circular_buffer.write_idx

/-- The function `is_kbd_buffer_empty()`. -/
def is_kbd_buffer_empty (st : hid_state_t) : Bool :=
  st.kbd_circular_buffer.read_idx == st.kbd_circular_buffer.write_idx

/-- The function `process_keyboard_report_internal(report)`; `none` is the null
pointer.  Returns the C return value and the calls made. -/
def process_keyboard_report_internal (defs : hid_defines_t)
    (report : Option hid_keyboard_report_t) (hw : hid_hw_t) : Bool × List hid_call :=
  match report with
  | none => (false, [])
  | some r => (hw.tud_ok, [hid_call.tud_hid_report defs.REPORT_ID_KEYBOARD r])

/-- The function `process_mouse_report_internal(report)`; `none` is the null
pointer.  Returns the C return value and the calls made. -/
def process_mouse_report_internal (defs : hid_defines_t)
    (report : Option hid_mouse_report_t) (hw : hid_hw_t) : Bool × List hid_call :=
  match report with
  | none => (false, [])
  | some r =>
    let valid_buttons := r.buttons &&& 0x07
    (hw.tud_ok,
     [hid_call.tud_hid_mouse_report defs.REPORT_ID_MOUSE valid_buttons r.x r.y r.wheel 0])

/-- The function `dequeue_and_process_mouse_report()`. -/
def dequeue_and_process_mouse_report (defs : hid_defines_t) (st : hid_state_t) (hw : hid_hw_t) :
    hid_state_t × List hid_call :=
  if is_mouse_buffer_empty st then (st, [])
  else
    let read_idx := st.mouse_circular_buffer.read_idx
    let report := st.mouse_buffer read_idx
    let r := process_mouse_report_internal defs (some report) hw
    ({ st with mouse_circular_buffer :=
         { st.mouse_circular_buffer with
           read_idx := u32 (read_idx + 1) &&& st.mouse_circular_buffer.mask } }, r.2)

/-- The function `process_kbd_report(report)`. -/
def process_kbd_report (defs : hid_defines_t) (st : hid_state_t)
    (report : Option hid_keyboard_report_t) (hw : hid_hw_t) : hid_state_t × List hid_call :=
  match report with
  | none => (st, [])
  | some r =>
    let counter := u32 (st.kbd_activity_counter + 1)
    let st1 := { st with kbd_activity_counter := counter }
    let c1 := if counter % defs.KEYBOARD_ACTIVITY_THROTTLE == 0 then
        [hid_call.neopixel_trigger_keyboard_activity] else []
    if defs.RP2350 then
      if hw.hw_accel_enabled then
        if hw.hw_accel_handled then
          (st1, c1 ++ [hid_call.hw_accel_process_keyboard_report r])
        else
          (st1, c1 ++ [hid_call.hw_accel_process_keyboard_report r] ++
            (process_keyboard_report_internal defs report hw).2)
      else (st1, c1 ++ (process_keyboard_report_internal defs report hw).2)
    else (st1, c1 ++ (process_keyboard_report_internal defs report hw).2)

/-- The function `process_mouse_report(report)`. -/
def process_mouse_report (defs : hid_defines_t) (st : hid_state_t)
    (report : Option hid_mouse_report_t) (hw : hid_hw_t) : hid_state_t × List hid_call :=
  match report with
  | none => (st, [])
  | some r =>
    let counter := u32 (st.mouse_activity_counter + 1)
    let st1 := { st with mouse_activity_counter := counter }
    let c1 := if counter % defs.MOUSE_ACTIVITY_THROTTLE == 0 then
        [hid_call.neopixel_trigger_mouse_activity] else []
    let c2 :=
      if defs.RP2350 then
        if hw.hw_accel_enabled then
          if hw.hw_accel_handled then [hid_call.hw_accel_process_mouse_report r]
          else [hid_call.hw_accel_process_mouse_report r] ++
            (process_mouse_report_internal defs report hw).2
        else (process_mouse_report_internal defs report hw).2
      else (process_mouse_report_internal defs report hw).2
    if !is_mouse_buffer_empty st1 then
      let d := dequeue_and_process_mouse_report defs st1 hw
      (d.1, c1 ++ c2 ++ d.2)
    else (st1, c1 ++ c2)

/-- The first loop of `process_queued_reports`,
`while (!is_kbd_buffer_empty()) { }`: its body is empty.  The numeric argument
bounds the number of iterations (`none`: the bound was too small). -/
def kbd_drain_loop : Nat → hid_state_t → Option hid_state_t
  | 0, st => if !is_kbd_buffer_empty st then none else some st
  | fuel + 1, st => if !is_kbd_buffer_empty st then kbd_drain_loop fuel st else some st

/-- The second loop of `process_queued_reports`,
`while (!is_mouse_buffer_empty()) dequeue_and_process_mouse_report();`. -/
def mouse_drain_loop (defs : hid_defines_t) (hw : hid_hw_t) :
    Nat → hid_state_t → Option (hid_state_t × List hid_call)
  | 0, st => if !is_mouse_buffer_empty st then none else some (st, [])
  | fuel + 1, st =>
    if !is_mouse_buffer_empty st then
      let d := dequeue_and_process_mouse_report defs st hw
      match mouse_drain_loop defs hw fuel d.1 with
      | none => none
      | some (st2, calls) => some (st2, d.2 ++ calls)
    else some (st, [])

/-- The function `process_queued_reports()`. -/
def process_queued_reports (defs : hid_defines_t) (hw : hid_hw_t) (fuel : Nat)
    (st : hid_state_t) : Option (hid_state_t × List hid_call) :=
  match kbd_drain_loop fuel st with
  | none => none
  | some st1 => mouse_drain_loop defs hw fuel st1

/-- What the collaborators answer during `init_hid_dma`: the return values of
the two `dma_manager_request_channel` calls and the lock numbers that the two
`spin_lock_claim_unused(true)` calls hand out. -/
structure hid_init_hw_t where
  kbd_channel_ok : Bool
  mouse_channel_ok : Bool
  kbd_lock : Nat
  mouse_lock : Nat
  deriving DecidableEq, Repr

/-- The interrupt handlers that `init_hid_dma` installs. -/
inductive hid_irq_handler where
  | dma_handler
  | dma_kbd_irq_handler
  | dma_mouse_irq_handler
  deriving DecidableEq, Repr

/-- The calls that `init_hid_dma` makes into its collaborators, recorded in
program order.  `irq` is the index `n` of `DMA_IRQ_n`; `transfer_words` is the
transfer count passed to `dma_channel_configure`. -/
inductive hid_init_call where
  | dma_manager_request_channel (channel : Int)
  | dma_manager_release_channel (channel : Int)
  | LOG_ERROR
  | spin_lock_claim_unused
  | spin_lock_init (lock : Nat)
  | dma_channel_configure (channel : Int) (transfer_words : Nat)
  | dma_channel_set_irq0_enabled (channel : Int)
  | irq_set_exclusive_handler (irq : Nat) (handler : hid_irq_handler)
  | irq_set_priority (irq : Nat)
  | irq_set_enabled (irq : Nat)
  | LOG_INIT
  deriving DecidableEq, Repr

/-- The value `sizeof(hid_keyboard_report_t)`: modifier, reserved and six
keycodes, one byte each. -/
def sizeof_hid_keyboard_report_t : Nat := 8

/-- The value `sizeof(hid_mouse_report_t)`: buttons, x, y, wheel and pan, one
byte each. -/
def sizeof_hid_mouse_report_t : Nat := 5

/-- The interrupt set-up at the end of `init_hid_dma`: one shared handler on an
`RP2350` build, one handler per queue otherwise. -/
def init_hid_irq (defs : hid_defines_t) : List hid_init_call :=
  if defs.RP2350 then
    [hid_init_call.irq_set_exclusive_handler 0 hid_irq_handler.dma_handler,
     hid_init_call.irq_set_priority 0,
     hid_init_call.irq_set_enabled 0,
     hid_init_call.irq_set_exclusive_handler 1 hid_irq_handler.dma_handler,
     hid_init_call.irq_set_priority 1,
     hid_init_call.irq_set_enabled 1]
  else
    [hid_init_call.irq_set_exclusive_handler 0 hid_irq_handler.dma_kbd_irq_handler,
     hid_init_call.irq_set_priority 0,
     hid_init_call.irq_set_enabled 0,
     hid_init_call.irq_set_exclusive_handler 1 hid_irq_handler.dma_mouse_irq_handler,
     hid_init_call.irq_set_priority 1,
     hid_init_call.irq_set_enabled 1]

/-- The function `init_hid_dma()`.  Both control blocks are written first
(cursors zero, `size` the array length, `mask` the length minus one as a
`uint32_t`); the two channel requests follow, each with its early return. -/
def init_hid_dma (defs : hid_defines_t) (st : hid_state_t) (hw : hid_init_hw_t) :
    hid_state_t × List hid_init_call :=
  let st1 : hid_state_t :=
    { st with
      kbd_circular_buffer :=
        { read_idx := 0, write_idx := 0, size := defs.KBD_BUFFER_SIZE,
          mask := u32 (defs.KBD_BUFFER_SIZE + 4294967296 - 1) }
      mouse_circular_buffer :=
        { read_idx := 0, write_idx := 0, size := defs.MOUSE_BUFFER_SIZE,
          mask := u32 (defs.MOUSE_BUFFER_SIZE + 4294967296 - 1) } }
  if !hw.kbd_channel_ok then
    (st1, [hid_init_call.dma_manager_request_channel defs.DMA_CHANNEL_KEYBOARD,
           hid_init_call.LOG_ERROR])
  else
    let st2 := { st1 with kbd_dma_channel := defs.DMA_CHANNEL_KEYBOARD }
    if !hw.mouse_channel_ok then
      (st2, [hid_init_call.dma_manager_request_channel defs.DMA_CHANNEL_KEYBOARD,
             hid_init_call.dma_manager_request_channel defs.DMA_CHANNEL_MOUSE,
             hid_init_call.LOG_ERROR,
             hid_init_call.dma_manager_release_channel defs.DMA_CHANNEL_KEYBOARD])
    else
      let st3 := { st2 with mouse_dma_channel := defs.DMA_CHANNEL_MOUSE,
                            kbd_spinlock := some hw.kbd_lock,
                            mouse_spinlock := some hw.mouse_lock }
      (st3, [hid_init_call.dma_manager_request_channel defs.DMA_CHANNEL_KEYBOARD,
             hid_init_call.dma_manager_request_channel defs.DMA_CHANNEL_MOUSE,
             hid_init_call.spin_lock_claim_unused,
             hid_init_call.spin_lock_init hw.kbd_lock,
             hid_init_call.spin_lock_claim_unused,
             hid_init_call.spin_lock_init hw.mouse_lock,
             hid_init_call.dma_channel_configure st3.kbd_dma_channel
               (sizeof_hid_keyboard_report_t / 4),
             hid_init_call.dma_channel_configure st3.mouse_dma_channel
               (sizeof_hid_mouse_report_t / 4),
             hid_init_call.dma_channel_set_irq0_enabled st3.kbd_dma_channel,
             hid_init_call.dma_channel_set_irq0_enabled st3.mouse_dma_channel] ++
            init_hid_irq defs ++ [hid_init_call.LOG_INIT])

/-- The file-scope state at program start: every static object is
zero-initialised. -/
def hid_boot : hid_state_t :=
  { kbd_circular_buffer := { read_idx := 0, write_idx := 0, size := 0, mask := 0 },
    mouse_circular_buffer := { read_idx := 0, write_idx := 0, size := 0, mask := 0 },
    mouse_buffer := fun _ => { buttons := 0, x := 0, y := 0, wheel := 0, pan := 0 },
    kbd_activity_counter := 0, mouse_activity_counter := 0,
    kbd_dma_channel := 0, mouse_dma_channel := 0,
    kbd_spinlock := none, mouse_spinlock := none }

/-- One call of a function of `usb_hid_reports.c` that other files can make,
with the answers of the collaborators during that call.  The state is made of
`static` objects whose addresses are not handed out, so these calls are the
only way it changes.  (`find_key_in_report` has no access to the state.) -/
inductive hid_api_call where
  | init_hid_dma (hw : hid_init_hw_t)
  | process_kbd_report (report : Option hid_keyboard_report_t) (hw : hid_hw_t)
  | process_mouse_report (report : Option hid_mouse_report_t) (hw : hid_hw_t)
  | is_mouse_buffer_empty
  | is_kbd_buffer_empty
  | process_queued_reports (hw : hid_hw_t)

/-- The state after one call (`none`: a loop of `process_queued_reports` did
not end within `fuel` iterations). -/
def hid_step (defs : hid_defines_t) (fuel : Nat) (st : hid_state_t) :
    hid_api_call → Option hid_state_t
  | hid_api_call.init_hid_dma hw => some (init_hid_dma defs st hw).1
  | hid_api_call.process_kbd_report report hw => some (process_kbd_report defs st report hw).1
  | hid_api_call.process_mouse_report report hw =>
    some (process_mouse_report defs st report hw).1
  | hid_api_call.is_mouse_buffer_empty => some st
  | hid_api_call.is_kbd_buffer_empty => some st
  | hid_api_call.process_queued_reports hw =>
    match process_queued_reports defs hw fuel st with
    | none => none
    | some r => some r.1

/-- The state after a sequence of calls. -/
def hid_run (defs : hid_defines_t) (fuel : Nat) : List hid_api_call → hid_state_t →
    Option hid_state_t
  | [], st => some st
  | c :: rest, st =>
    match hid_step defs fuel st c with
    | none => none
    | some st1 => hid_run defs fuel rest st1

/-! ## Inputs and predicates for the lifecycle properties -/

/-- All six counters hold `uint32_t` values. -/
def stats_in_range (a : kmbox_interface_stats_t) : Prop :=
  a.bytes_received < 4294967296 ∧ a.bytes_sent < 4294967296 ∧
  a.packets_received < 4294967296 ∧ a.packets_sent < 4294967296 ∧
  a.errors < 4294967296 ∧ a.commands_processed < 4294967296

/-- The statistics block `b` is `a` with `bytes_received`, `bytes_sent` and
`errors` advanced by `kr`, `ks`, `ke` in `uint32_t` arithmetic, and the three
other counters untouched. -/
def stats_advanced_by (a b : kmbox_interface_stats_t) (kr ks ke : Nat) : Prop :=
  b.bytes_received = u32 (a.bytes_received + kr) ∧
  b.bytes_sent = u32 (a.bytes_sent + ks) ∧
  b.errors = u32 (a.errors + ke) ∧
  b.packets_received = a.packets_received ∧
  b.packets_sent = a.packets_sent ∧
  b.commands_processed = a.commands_processed

/-- The ring with ten free bytes, its error counter at `UINT32_MAX`. -/
def sample_state_errors_max : kmbox_interface_state_t :=
  { sample_state_free10 with stats := { zero_stats with errors := 4294967295 } }

/-- The state after `init` with the default UART configuration, a 300-byte
send (rejected for lack of space) and `deinit`. -/
def after_rejected_send : kmbox_interface_state_t :=
  (kmbox_interface_deinit false
    (kmbox_interface_send
      (kmbox_interface_init false g_interface (some KMBOX_UART_DEFAULT_CONFIG) sample_sdk).2.1
      (some sample_data) 300).2
    sample_sdk).1

/-- A UART configuration whose pin pair (2, 3) selects no hardware instance. -/
def bad_pins_config : kmbox_interface_config_t :=
  { KMBOX_UART_DEFAULT_CONFIG with tx_pin := 2, rx_pin := 3 }

/-! ## One init/deinit cycle of data-path calls -/

/-- One call of the data path: `send` or `process`, with what the hardware
answers. -/
inductive io_call where
  | send (data : Option (Nat → Nat)) (len : Nat)
  | process (hw : process_hw_t)

/-- The interface state during one init/deinit cycle, with three records kept
for the analysis only: the number of bytes `send` has accepted, the number of
bytes `process` has handed to the TX hardware, and all callback invocations
made so far. -/
structure session_t where
  st : kmbox_interface_state_t
  accepted : Nat
  pushed : Nat
  spans : List callback_span

/-- The session right after `init`. -/
def session_start (s : kmbox_interface_state_t) : session_t :=
  { st := s, accepted := 0, pushed := 0, spans := [] }

/-- One data-path call on a session (`none`: the iteration bound of `process`
was too small). -/
def session_step (pio_available : Bool) (fuel : Nat) (c : session_t) : io_call → Option session_t
  | io_call.send data len =>
    let r := kmbox_interface_send c.st data len
    some { c with st := r.2, accepted := if r.1 then c.accepted + len else c.accepted }
  | io_call.process hw =>
    match kmbox_interface_process pio_available fuel c.st hw with
    | none => none
    | some (s1, out) =>
      some { c with st := s1, pushed := c.pushed + drained out, spans := c.spans ++ out.spans }

/-- A sequence of data-path calls, run from a session. -/
def session_run (pio_available : Bool) (fuel : Nat) : List io_call → session_t → Option session_t
  | [], c => some c
  | call :: rest, c =>
    match session_step pio_available fuel c call with
    | none => none
    | some c1 => session_run pio_available fuel rest c1

/-- The invariant of a session: the interface is initialised, the TX tail is
still 0, the TX head is a ring index and equals the number of accepted bytes,
nothing has been handed to the TX hardware, the RX cursors are ring indices, a
non-empty TX ring has `tx_in_progress` set, and every callback span so far lies
inside `rx_buffer`. -/
def session_inv (c : session_t) : Prop :=
  c.st.initialized = true ∧ c.st.tx_tail = 0 ∧ c.st.tx_head < 256 ∧
  c.accepted = c.st.tx_head ∧ c.pushed = 0 ∧
  c.st.rx_head < 512 ∧ c.st.rx_tail < 512 ∧
  (c.st.tx_head ≠ 0 → c.st.tx_in_progress = true) ∧
  (∀ sp, sp ∈ c.spans → 0 < sp.len ∧ sp.start + sp.len ≤ 512)

/-- A PIO-UART configuration with DMA and interrupts off (polled ingress and
egress), pins 4 and 5. -/
def sample_pio_config : kmbox_interface_config_t :=
  { transport_type := KMBOX_TRANSPORT_PIO_UART, baudrate := 250000, tx_pin := 4, rx_pin := 5,
    use_dma := false, use_interrupts := false, on_command_received := false }

/-- Hardware answers for one `process` call: nothing to read, room for eight
bytes in the TX FIFO. -/
def hw_tx_room8 : process_hw_t :=
  { write_addr := 0, buffer_start := 0, rx_memory := fun _ => 0, rx_fifo := [], tx_room := 8 }

/-- The PIO-UART interface after `init` and a successful three-byte send. -/
def pio_after_send3 : kmbox_interface_state_t :=
  (kmbox_interface_send
    (kmbox_interface_init true g_interface (some sample_pio_config) sample_sdk).2.1
    (some sample_data) 3).2

/-- A session of three calls: a 5-byte send, a `process` pass that reads three
bytes, a 251-byte send. -/
def sample_io_calls : List io_call :=
  [io_call.send (some sample_data) 5, io_call.process (hw_with_fifo [7, 8, 9]),
   io_call.send (some sample_data) 251]

/-! ## Inputs and predicates for the PIO rollback and the HID queues -/

/-- One PIO resource as the SDK hands it out: which program (`true` for
`uart_rx_mini_program`), on which PIO block, which state machine, at which
program offset. -/
structure pio_resource_t where
  rx : Bool
  pio : Nat
  sm : Nat
  offset : Nat
  deriving DecidableEq, Repr

/-- The PIO resources held after a sequence of SDK calls, starting from the
set `held`: a granted claim adds the resource it reports, and
`pio_remove_program_and_unclaim_sm` releases the resource it names (nothing, if
that one is not held); the other calls do not claim or release PIO resources. -/
def pio_held_after : List sdk_call → List pio_resource_t → List pio_resource_t
  | [], held => held
  | sdk_call.pio_claim_program rx _ result :: rest, held =>
    pio_held_after rest
      (if result.ok then
        { rx := rx, pio := result.pio, sm := result.sm, offset := result.offset } :: held
       else held)
  | sdk_call.pio_remove_program_and_unclaim_sm rx pio sm offset :: rest, held =>
    pio_held_after rest (held.erase { rx := rx, pio := pio, sm := sm, offset := offset })
  | _ :: rest, held => pio_held_after rest held

/-- SDK answers for a PIO initialisation whose RX claim is granted on block 2
(state machine 0, offset 0) and whose TX claim fails, the search having left
the shared `pio` handle at block 0. -/
def sdk_tx_claim_fails : sdk_hw_t :=
  { sample_sdk with tx_claim := { ok := false, pio := 0, sm := 0, offset := 0 } }

/-- Example values for the constants of the missing `defines.h`. -/
def sample_hid_defines : hid_defines_t :=
  { KEYBOARD_ACTIVITY_THROTTLE := 20, MOUSE_ACTIVITY_THROTTLE := 50,
    REPORT_ID_KEYBOARD := 1, REPORT_ID_MOUSE := 2, RP2350 := false,
    KBD_BUFFER_SIZE := 16, MOUSE_BUFFER_SIZE := 16,
    DMA_CHANNEL_KEYBOARD := 2, DMA_CHANNEL_MOUSE := 3 }

/-- Collaborator answers for the examples: no hardware acceleration, the USB
stack accepts every report. -/
def sample_hid_hw : hid_hw_t :=
  { hw_accel_enabled := false, hw_accel_handled := false, tud_ok := true }

/-- Mouse slots for the examples: slot `i` holds a report with button byte
`0xF8 + i` and movement `(i, -i)`. -/
def sample_mouse_slots : Nat → hid_mouse_report_t :=
  fun i => { buttons := 0xF8 + i, x := i, y := -i, wheel := 0, pan := 0 }

/-- A state written down directly to exercise the dequeue path (no function of
the file produces it): two 16-slot queues with the sizes and masks of
`init_hid_dma`, the keyboard queue empty, and the mouse cursors at 0 and 2 over
the slots `sample_mouse_slots`. -/
def sample_hid_state : hid_state_t :=
  { kbd_circular_buffer := { read_idx := 0, write_idx := 0, size := 16, mask := 15 },
    mouse_circular_buffer := { read_idx := 0, write_idx := 2, size := 16, mask := 15 },
    mouse_buffer := sample_mouse_slots,
    kbd_activity_counter := 0, mouse_activity_counter := 0,
    kbd_dma_channel := 2, mouse_dma_channel := 3,
    kbd_spinlock := some 0, mouse_spinlock := some 1 }

/-- Collaborator answers for `init_hid_dma` in the examples: both channels
granted, spinlocks 0 and 1. -/
def sample_hid_init_hw : hid_init_hw_t :=
  { kbd_channel_ok := true, mouse_channel_ok := true, kbd_lock := 0, mouse_lock := 1 }

/-- A short run of the report functions from program start: a mouse report
before `init_hid_dma`, the initialisation, a keyboard and a mouse report, a
null mouse report, and a drain. -/
def sample_hid_calls : List hid_api_call :=
  [hid_api_call.process_mouse_report (some (sample_mouse_slots 1)) sample_hid_hw,
   hid_api_call.init_hid_dma sample_hid_init_hw,
   hid_api_call.process_kbd_report
     (some { modifier := 2, reserved := 0, keycode := [4, 0, 0, 0, 0, 0] }) sample_hid_hw,
   hid_api_call.process_mouse_report (some (sample_mouse_slots 3)) sample_hid_hw,
   hid_api_call.process_mouse_report none sample_hid_hw,
   hid_api_call.process_queued_reports sample_hid_hw]

/-- Both report queues are empty with all four cursors at zero, which is how
program start and `init_hid_dma` leave them. -/
def hid_queues_idle (st : hid_state_t) : Prop :=
  st.kbd_circular_buffer.read_idx = 0 ∧ st.kbd_circular_buffer.write_idx = 0 ∧
  st.mouse_circular_buffer.read_idx = 0 ∧ st.mouse_circular_buffer.write_idx = 0

/-- The call by which the software path forwards mouse report `r` to the
device stack: buttons masked to the three low bits, no horizontal wheel. -/
def mouse_forward (defs : hid_defines_t) (r : hid_mouse_report_t) : hid_call :=
  hid_call.tud_hid_mouse_report defs.REPORT_ID_MOUSE (r.buttons &&& 0x07) r.x r.y r.wheel 0

/-- The software path of `process_mouse_report` is taken: not an `RP2350`
build, or acceleration is off, or the accelerator declined the report. -/
def software_path (defs : hid_defines_t) (hw : hid_hw_t) : Prop :=
  defs.RP2350 = false ∨ hw.hw_accel_enabled = false ∨ hw.hw_accel_handled = false

/-- A report queue as `init_hid_dma` sets it up and with both cursors inside:
the size is a power of two that fits 32 bits, the mask is the size minus one. -/
def queue_in_range (q : dma_circular_buffer_t) : Prop :=
  (∃ k, k ≤ 32 ∧ q.size = 2 ^ k) ∧ q.mask + 1 = q.size ∧
  q.read_idx < q.size ∧ q.write_idx < q.size

/-! ## Arithmetic of the masks -/

theorem and_tx_mask (x : Nat) : x &&& TX_BUFFER_MASK = x % 256 :=
  Nat.and_pow_two_sub_one_eq_mod x 8

theorem and_rx_mask (x : Nat) : x &&& RX_BUFFER_MASK = x % 512 :=
  Nat.and_pow_two_sub_one_eq_mod x 9

theorem tx_available_eq (s : kmbox_interface_state_t) :
    tx_available s = (s.tx_tail + 256 * s.tx_head + 255 - s.tx_head) % 256 := by
  unfold tx_available int32_bits
  rw [and_tx_mask]
  omega

theorem tx_available_le (s : kmbox_interface_state_t) : tx_available s ≤ 255 := by
  rw [tx_available_eq]; omega

theorem u32_succ_ne (e : Nat) : u32 (e + 1) ≠ e := by
  unfold u32; omega

/-! ## The copy loop of send -/

theorem send_copy_head (d : Nat → Nat) (n : Nat) :
    ∀ (i : Nat) (buf : Nat → Nat) (head : Nat), head < 256 →
      (send_copy d n i buf head).2 = (head + n) % 256 := by
  induction n with
  | zero => intro i buf head h; simp [send_copy]; omega
  | succ n ih =>
    intro i buf head h
    rw [send_copy, and_tx_mask, ih _ _ _ (Nat.mod_lt _ (by decide))]
    omega

theorem send_copy_other (d : Nat → Nat) (n : Nat) :
    ∀ (i : Nat) (buf : Nat → Nat) (head k : Nat), head < 256 →
      (∀ j, j < n → k ≠ (head + j) % 256) →
      (send_copy d n i buf head).1 k = buf k := by
  induction n with
  | zero => intro i buf head k _ _; simp [send_copy]
  | succ n ih =>
    intro i buf head k h hk
    rw [send_copy, and_tx_mask, ih _ _ _ _ (Nat.mod_lt _ (by decide))]
    · have h0 := hk 0 (by omega)
      have : k ≠ head := by
        intro e; apply h0; rw [e]; simp; omega
      simp [Function.update, this]
    · intro j hj e
      apply hk (j + 1) (by omega)
      rw [e]; omega

theorem send_copy_get (d : Nat → Nat) (n : Nat) :
    ∀ (i : Nat) (buf : Nat → Nat) (head j : Nat), head < 256 → n ≤ 256 → j < n →
      (send_copy d n i buf head).1 ((head + j) % 256) = d (i + j) := by
  induction n with
  | zero => intro i buf head j _ _ hj; omega
  | succ n ih =>
    intro i buf head j h hn hj
    rw [send_copy, and_tx_mask]
    cases j with
    | zero =>
      rw [send_copy_other d n _ _ _ _ (Nat.mod_lt _ (by decide))]
      · have e0 : (head + 0) % 256 = head := by omega
        rw [e0]; simp
      · intro j hj; omega
    | succ j =>
      have e : (head + (j + 1)) % 256 = ((head + 1) % 256 + j) % 256 := by omega
      rw [e, ih _ _ _ _ (Nat.mod_lt _ (by decide)) (by omega) (by omega)]
      congr 1; omega

/-! ## Properties of send and is_ready -/

/-- C2.  Capacity rejection: on an initialised interface, a send from a
non-null buffer whose length exceeds the free space
`(tx_tail - tx_head - 1) & 255` returns false, leaves `tx_head`, `tx_tail`,
`tx_buffer`, `stats.bytes_sent` and `tx_in_progress` as they were, and adds
one to the `uint32_t` counter `stats.errors` (which is `errors + 1` unless the
counter stands at its maximum). -/
theorem send_capacity_rejection (s : kmbox_interface_state_t) (d : Nat → Nat) (len : Nat)
    (hinit : s.initialized = true) (hlen : tx_available s < len) :
    (kmbox_interface_send s (some d) len).1 = false ∧
    (kmbox_interface_send s (some d) len).2.tx_head = s.tx_head ∧
    (kmbox_interface_send s (some d) len).2.tx_tail = s.tx_tail ∧
    (kmbox_interface_send s (some d) len).2.tx_buffer = s.tx_buffer ∧
    (kmbox_interface_send s (some d) len).2.stats.bytes_sent = s.stats.bytes_sent ∧
    (kmbox_interface_send s (some d) len).2.tx_in_progress = s.tx_in_progress ∧
    (kmbox_interface_send s (some d) len).2.stats.errors = u32 (s.stats.errors + 1) ∧
    (s.stats.errors < 4294967295 →
      (kmbox_interface_send s (some d) len).2.stats.errors = s.stats.errors + 1) := by
  have hl : len ≠ 0 := by omega
  have e : kmbox_interface_send s (some d) len =
      (false, { s with stats := { s.stats with errors := u32 (s.stats.errors + 1) } }) := by
    simp [kmbox_interface_send, hinit, hl, hlen]
  rw [e]
  refine ⟨rfl, rfl, rfl, rfl, rfl, rfl, rfl, ?_⟩
  intro h
  show u32 (s.stats.errors + 1) = s.stats.errors + 1
  unfold u32; omega

/-- C2, worked example of the specification: free space 10, `len = 11`. -/
theorem send_capacity_rejection_witness :
    tx_available sample_state_free10 = 10 ∧
    (kmbox_interface_send sample_state_free10 (some sample_data) 11).1 = false ∧
    (kmbox_interface_send sample_state_free10 (some sample_data) 11).2.stats.bytes_sent = 0 ∧
    (kmbox_interface_send sample_state_free10 (some sample_data) 11).2.stats.errors = 1 := by
  have h := send_capacity_rejection sample_state_free10 sample_data 11 rfl (by decide)
  refine ⟨by decide, h.1, h.2.2.2.2.1, ?_⟩
  exact h.2.2.2.2.2.2.2 (by decide)

/-- The success condition of send, read off the two guards. -/
theorem send_true_iff (s : kmbox_interface_state_t) (data : Option (Nat → Nat)) (len : Nat) :
    (kmbox_interface_send s data len).1 = true ↔
      (s.initialized = true ∧ data.isSome = true ∧ 0 < len ∧ len ≤ tx_available s) := by
  cases data with
  | none => simp [kmbox_interface_send]
  | some d =>
    by_cases hi : s.initialized = true
    · by_cases hl : len = 0
      · simp [kmbox_interface_send, hi, hl]
      · by_cases ha : tx_available s < len
        · simp [kmbox_interface_send, hi, hl, ha]
        · simp [kmbox_interface_send, hi, hl, ha]
          omega
    · simp [kmbox_interface_send, hi]

/-- C3.  `kmbox_interface_send(data, len)` returns true exactly when the
interface is initialised, `data` is non-null, `len > 0` and
`len <= (tx_tail - tx_head - 1) & 255`; the free space is at most 255, so every
request longer than 255 bytes fails. -/
theorem send_succeeds_iff (s : kmbox_interface_state_t) (data : Option (Nat → Nat)) (len : Nat) :
    ((kmbox_interface_send s data len).1 = true ↔
      (s.initialized = true ∧ data.isSome = true ∧ 0 < len ∧ len ≤ tx_available s)) ∧
    (255 < len → (kmbox_interface_send s data len).1 = false) := by
  have key := send_true_iff s data len
  refine ⟨key, ?_⟩
  intro h
  cases hr : (kmbox_interface_send s data len).1 with
  | false => rfl
  | true =>
    have := (key.mp hr).2.2.2
    have := tx_available_le s
    omega

/-- What a successful send returns. -/
theorem send_success_eq (s : kmbox_interface_state_t) (data : Option (Nat → Nat)) (len : Nat)
    (h : (kmbox_interface_send s data len).1 = true) :
    ∃ d, data = some d ∧ s.initialized = true ∧ 0 < len ∧ len ≤ tx_available s ∧
      (kmbox_interface_send s data len).2 =
        { s with
          tx_buffer := (send_copy d len 0 s.tx_buffer s.tx_head).1
          tx_head := (send_copy d len 0 s.tx_buffer s.tx_head).2
          stats := { s.stats with bytes_sent := u32 (s.stats.bytes_sent + len) }
          tx_in_progress := true } := by
  cases data with
  | none => simp [kmbox_interface_send] at h
  | some d =>
    refine ⟨d, rfl, ?_⟩
    by_cases hi : s.initialized = true
    · by_cases hl : len = 0
      · simp [kmbox_interface_send, hi, hl] at h
      · by_cases ha : tx_available s < len
        · simp [kmbox_interface_send, hi, hl, ha] at h
        · refine ⟨hi, by omega, by omega, ?_⟩
          simp [kmbox_interface_send, hi, hl, ha]
    · simp [kmbox_interface_send, hi] at h

/-- What an unsuccessful send returns: either nothing changes, or only the
error counter does. -/
theorem send_failure_eq (s : kmbox_interface_state_t) (data : Option (Nat → Nat)) (len : Nat)
    (h : (kmbox_interface_send s data len).1 = false) :
    (kmbox_interface_send s data len).2 = s ∨
    (kmbox_interface_send s data len).2 =
      { s with stats := { s.stats with errors := u32 (s.stats.errors + 1) } } := by
  cases data with
  | none => left; simp [kmbox_interface_send]
  | some d =>
    by_cases hi : s.initialized = true
    · by_cases hl : len = 0
      · left; simp [kmbox_interface_send, hi, hl]
      · by_cases ha : tx_available s < len
        · right; simp [kmbox_interface_send, hi, hl, ha]
        · simp [kmbox_interface_send, hi, hl, ha] at h
    · left; simp [kmbox_interface_send, hi]

/-- C4.  Successful send postcondition: from a state whose TX head `h` is a
ring index (`h < 256`), a send that returns true leaves
`tx_buffer[(h + i) & 255] = data[i]` for every `i < len`, every other slot as it
was, `tx_head = (h + len) & 255`, `tx_tail` as it was, `stats.bytes_sent`
increased by `len` (as a `uint32_t`), and `tx_in_progress` true. -/
theorem send_success_post (s : kmbox_interface_state_t) (d : Nat → Nat) (len : Nat)
    (hh : s.tx_head < TX_BUFFER_SIZE)
    (hok : (kmbox_interface_send s (some d) len).1 = true) :
    (∀ i, i < len →
      (kmbox_interface_send s (some d) len).2.tx_buffer ((s.tx_head + i) &&& TX_BUFFER_MASK) = d i) ∧
    (∀ k, (∀ i, i < len → k ≠ (s.tx_head + i) &&& TX_BUFFER_MASK) →
      (kmbox_interface_send s (some d) len).2.tx_buffer k = s.tx_buffer k) ∧
    (kmbox_interface_send s (some d) len).2.tx_head = (s.tx_head + len) &&& TX_BUFFER_MASK ∧
    (kmbox_interface_send s (some d) len).2.tx_tail = s.tx_tail ∧
    (kmbox_interface_send s (some d) len).2.stats.bytes_sent = u32 (s.stats.bytes_sent + len) ∧
    (s.stats.bytes_sent + len < 4294967296 →
      (kmbox_interface_send s (some d) len).2.stats.bytes_sent = s.stats.bytes_sent + len) ∧
    (kmbox_interface_send s (some d) len).2.tx_in_progress = true := by
  obtain ⟨d1, hd, _, _, hle, e⟩ := send_success_eq s (some d) len hok
  cases hd
  have hh1 : s.tx_head < 256 := hh
  have hlen : len ≤ 256 := by have := tx_available_le s; omega
  rw [e]
  refine ⟨?_, ?_, ?_, rfl, rfl, ?_, rfl⟩
  · intro i hi
    rw [and_tx_mask]
    have := send_copy_get d len 0 s.tx_buffer s.tx_head i hh1 hlen hi
    simpa using this
  · intro k hk
    exact send_copy_other d len 0 s.tx_buffer s.tx_head k hh1
      (fun j hj => by have := hk j hj; rwa [and_tx_mask] at this)
  · rw [and_tx_mask]
    exact send_copy_head d len 0 s.tx_buffer s.tx_head hh1
  · intro hb
    show u32 (s.stats.bytes_sent + len) = s.stats.bytes_sent + len
    unfold u32; omega

/-- C4, worked example: three bytes sent into the ring with ten free bytes. -/
theorem send_success_post_witness :
    (kmbox_interface_send sample_state_free10 (some sample_data) 3).2.tx_head = 248 ∧
    (kmbox_interface_send sample_state_free10 (some sample_data) 3).2.tx_buffer 247 = 3 ∧
    (kmbox_interface_send sample_state_free10 (some sample_data) 3).2.stats.bytes_sent = 3 := by
  have h := send_success_post sample_state_free10 sample_data 3 (by decide) (by decide)
  refine ⟨h.2.2.1, ?_, h.2.2.2.2.2.1 (by decide)⟩
  exact h.1 2 (by decide)

/-- C6.  `kmbox_interface_is_ready()` is true exactly when the interface is
initialised and the free space `(tx_tail - tx_head - 1) & 255` is nonzero, which
is exactly when a one-byte send from a non-null buffer succeeds in the same
state.  (The C function assigns nothing; its embedding is a function of the
state that returns only the result.) -/
theorem is_ready_iff (s : kmbox_interface_state_t) :
    (kmbox_interface_is_ready s = true ↔ (s.initialized = true ∧ tx_available s ≠ 0)) ∧
    (∀ d : Nat → Nat, kmbox_interface_is_ready s = (kmbox_interface_send s (some d) 1).1) := by
  have key : kmbox_interface_is_ready s = true ↔ (s.initialized = true ∧ tx_available s ≠ 0) := by
    by_cases hi : s.initialized = true
    · simp [kmbox_interface_is_ready, hi]; omega
    · simp [kmbox_interface_is_ready, hi]
  refine ⟨key, ?_⟩
  intro d
  have h3 := send_true_iff s (some d) 1
  cases hr : kmbox_interface_is_ready s with
  | true =>
    symm; apply h3.mpr
    have := key.mp hr
    exact ⟨this.1, rfl, by decide, by omega⟩
  | false =>
    cases hs : (kmbox_interface_send s (some d) 1).1 with
    | false => rfl
    | true =>
      have := h3.mp hs
      have : kmbox_interface_is_ready s = true := key.mpr ⟨this.1, by omega⟩
      rw [hr] at this; cases this

/-- C1, counterexample.  On the uninitialised interface a five-byte send from
a non-null buffer returns false with the state untouched: neither are five
bytes enqueued, nor is the error counter incremented, so neither of the two
outcomes of the all-or-nothing property holds. -/
theorem send_all_or_nothing_counterexample :
    (kmbox_interface_send g_interface (some sample_data) 5).1 = false ∧
    ¬ (send_outcome_all g_interface (kmbox_interface_send g_interface (some sample_data) 5).2
          sample_data 5 ∨
       send_outcome_none g_interface (kmbox_interface_send g_interface (some sample_data) 5).2) := by
  have e : kmbox_interface_send g_interface (some sample_data) 5 = (false, g_interface) := rfl
  rw [e]
  refine ⟨rfl, ?_⟩
  rintro (⟨_, _, hh, _⟩ | ⟨_, _, he⟩)
  · revert hh; decide
  · revert he; decide

/-- C1, as amended.  From a state whose TX head is a ring index: on an
initialised interface, for non-null data and `len > 0`, exactly one of the two
outcomes holds, (a) all `len` bytes enqueued and the error counter unchanged, or
(b) nothing enqueued and the error counter incremented once; on an
uninitialised interface, or for null data, or for `len = 0`, the call returns
false and the state, error counter included, is unchanged.  No call enqueues a
partial prefix. -/
theorem send_all_or_nothing (s : kmbox_interface_state_t) (data : Option (Nat → Nat)) (len : Nat)
    (hh : s.tx_head < TX_BUFFER_SIZE) :
    (∀ d, s.initialized = true → data = some d → 0 < len →
      Xor' (send_outcome_all s (kmbox_interface_send s data len).2 d len)
           (send_outcome_none s (kmbox_interface_send s data len).2)) ∧
    ((s.initialized = false ∨ data = none ∨ len = 0) →
      kmbox_interface_send s data len = (false, s)) := by
  constructor
  · intro d hi hd hl
    subst hd
    have hh1 : s.tx_head < 256 := hh
    cases hr : (kmbox_interface_send s (some d) len).1 with
    | true =>
      obtain ⟨d1, hd, _, _, hle, e⟩ := send_success_eq s (some d) len hr
      cases hd
      have hlen : len ≤ 256 := by have := tx_available_le s; omega
      left
      constructor
      · rw [e]
        refine ⟨?_, ?_, ?_, rfl⟩
        · intro i hi
          rw [and_tx_mask]
          have := send_copy_get d len 0 s.tx_buffer s.tx_head i hh1 hlen hi
          simpa using this
        · intro k hk
          exact send_copy_other d len 0 s.tx_buffer s.tx_head k hh1
            (fun j hj => by have := hk j hj; rwa [and_tx_mask] at this)
        · rw [and_tx_mask]
          exact send_copy_head d len 0 s.tx_buffer s.tx_head hh1
      · rintro ⟨_, _, he⟩
        rw [e] at he
        exact u32_succ_ne _ he.symm
    | false =>
      have hna : tx_available s < len := by
        by_contra hc
        have := (send_true_iff s (some d) len).mpr ⟨hi, rfl, hl, by omega⟩
        rw [hr] at this; cases this
      have e : (kmbox_interface_send s (some d) len).2 =
          { s with stats := { s.stats with errors := u32 (s.stats.errors + 1) } } := by
        have hl0 : len ≠ 0 := by omega
        simp [kmbox_interface_send, hi, hl0, hna]
      right
      constructor
      · rw [e]; exact ⟨rfl, rfl, rfl⟩
      · rintro ⟨_, _, _, he⟩
        rw [e] at he
        exact u32_succ_ne _ he
  · intro h
    rcases h with h | h | h
    · simp [kmbox_interface_send, h]
    · simp [kmbox_interface_send, h]
    · simp [kmbox_interface_send, h]

/-- C1, worked example of the amended property: eleven bytes offered to a ring
with ten free bytes are rejected whole and counted once. -/
theorem send_all_or_nothing_witness :
    Xor' (send_outcome_all sample_state_free10
            (kmbox_interface_send sample_state_free10 (some sample_data) 11).2 sample_data 11)
         (send_outcome_none sample_state_free10
            (kmbox_interface_send sample_state_free10 (some sample_data) 11).2) :=
  (send_all_or_nothing sample_state_free10 (some sample_data) 11 (by decide)).1
    sample_data rfl rfl (by decide)

/-! ## The consumption loop -/

theorem rx_chunk_size_lt (h t : Nat) (hlt : t < h) (hh : h < 512) :
    rx_chunk_size h t = h - t := by
  unfold rx_chunk_size u16
  rw [if_pos hlt]; omega

theorem rx_chunk_size_ge (h t : Nat) (hge : h ≤ t) (ht : t < 512) :
    rx_chunk_size h t = 512 - t := by
  unfold rx_chunk_size u16 RX_BUFFER_SIZE
  rw [if_neg (by omega)]; omega

theorem rx_consume_done (cb : Bool) (buf : Nat → Nat) (h fuel received : Nat) :
    rx_consume cb buf h fuel h received = some (h, received, []) := by
  cases fuel <;> simp [rx_consume]

theorem rx_consume_lt (cb : Bool) (buf : Nat → Nat) (h t fuel received : Nat)
    (hlt : t < h) (hh : h < 512) :
    rx_consume cb buf h (fuel + 1) t received =
      some (h, if cb then u32 (received + (h - t)) else received,
            if cb then [span_of buf t (h - t)] else []) := by
  have hne : t ≠ h := by omega
  have hpos : 0 < h - t := by omega
  have e : (t + (h - t)) % 512 = h := by omega
  rw [rx_consume]
  simp only [bne_iff_ne, ne_eq, hne, not_false_eq_true, if_true, rx_chunk_size_lt h t hlt hh,
    and_rx_mask, e, rx_consume_done]
  cases cb <;> simp [hpos]

theorem rx_consume_wrap (cb : Bool) (buf : Nat → Nat) (h t fuel received : Nat)
    (hlt : h < t) (ht : t < 512) :
    rx_consume cb buf h (fuel + 2) t received =
      some (h, if cb then u32 (u32 (received + (512 - t)) + h) else received,
            if cb then span_of buf t (512 - t) :: (if h = 0 then [] else [span_of buf 0 h])
            else []) := by
  have hne : t ≠ h := by omega
  have hpos : 0 < 512 - t := by omega
  have e : (t + (512 - t)) % 512 = 0 := by omega
  rw [rx_consume]
  simp only [bne_iff_ne, ne_eq, hne, not_false_eq_true, if_true,
    rx_chunk_size_ge h t (by omega) ht, and_rx_mask, e]
  by_cases h0 : h = 0
  · subst h0
    rw [rx_consume_done]
    cases cb <;> simp [hpos, u32]
  · rw [rx_consume_lt cb buf h 0 fuel _ (by omega) (by omega)]
    cases cb <;> simp [hpos, h0]

/-! ## The polled ingest loop -/

theorem u32_lt (x : Nat) : u32 x < 4294967296 := by
  unfold u32; omega

/-- The polled ingest loop started `k` slots ahead of the tail: the first
`511 - k` bytes are stored in consecutive slots, the others are counted. -/
theorem rx_poll_spec (t : Nat) (ht : t < 512) (l : List Nat) :
    ∀ (k : Nat) (buf : Nat → Nat) (e : Nat), k ≤ 511 → e < 4294967296 →
      (rx_poll t l buf ((t + k) % 512) e).2.1 = (t + min (k + l.length) 511) % 512 ∧
      (rx_poll t l buf ((t + k) % 512) e).2.2 = u32 (e + (k + l.length - 511)) ∧
      (∀ i (hi : i < l.length), k + i < 511 →
        (rx_poll t l buf ((t + k) % 512) e).1 ((t + k + i) % 512) = l[i]) ∧
      (∀ j, (∀ i, i < l.length → k + i < 511 → j ≠ (t + k + i) % 512) →
        (rx_poll t l buf ((t + k) % 512) e).1 j = buf j) := by
  induction l with
  | nil =>
    intro k buf e hk he
    refine ⟨?_, ?_, ?_, ?_⟩
    · simp [rx_poll]; omega
    · simp [rx_poll, u32]; omega
    · intro i hi; simp at hi
    · intro j _; simp [rx_poll]
  | cons b rest ih =>
    intro k buf e hk he
    by_cases hk1 : k = 511
    · subst hk1
      have hfull : ((t + 511) % 512 + 1) % 512 = t := by omega
      have e1 : rx_poll t (b :: rest) buf ((t + 511) % 512) e =
          rx_poll t rest buf ((t + 511) % 512) (u32 (e + 1)) := by
        rw [rx_poll]; simp [and_rx_mask, hfull]
      rw [e1]
      obtain ⟨h1, h2, h3, h4⟩ := ih 511 buf (u32 (e + 1)) (by omega) (u32_lt _)
      refine ⟨?_, ?_, ?_, ?_⟩
      · rw [h1]; simp only [List.length_cons]; omega
      · rw [h2]; simp only [List.length_cons]; unfold u32; omega
      · intro i hi hlt; omega
      · intro j _; exact h4 j (fun i _ hlt => by omega)
    · have hnext : ((t + k) % 512 + 1) % 512 = (t + (k + 1)) % 512 := by omega
      have hne : (t + (k + 1)) % 512 ≠ t := by omega
      have e1 : rx_poll t (b :: rest) buf ((t + k) % 512) e =
          rx_poll t rest (Function.update buf ((t + k) % 512) b) ((t + (k + 1)) % 512) e := by
        rw [rx_poll]; simp [and_rx_mask, hnext, hne]
      rw [e1]
      obtain ⟨h1, h2, h3, h4⟩ :=
        ih (k + 1) (Function.update buf ((t + k) % 512) b) e (by omega) he
      refine ⟨?_, ?_, ?_, ?_⟩
      · rw [h1]; simp only [List.length_cons]; omega
      · rw [h2]; simp only [List.length_cons]; unfold u32; omega
      · intro i hi hlt
        cases i with
        | zero =>
          rw [h4 _ (fun i _ hlt2 => by omega)]
          simp
        | succ i =>
          have hi2 : i < rest.length := by simpa using hi
          have := h3 i hi2 (by omega)
          have ei : (t + k + (i + 1)) % 512 = (t + (k + 1) + i) % 512 := by omega
          rw [ei, this]; simp
      · intro j hj
        rw [h4 j (fun i hi hlt => by
          have := hj (i + 1) (by simp; omega) (by omega)
          intro ej; apply this; rw [ej]; omega)]
        have h0 := hj 0 (by simp) (by omega)
        have : j ≠ (t + k) % 512 := by simpa using h0
        simp [Function.update, this]

theorem span_of_bytes_mod (buf : Nat → Nat) (t n : Nat) (h : t + n ≤ 512) :
    (span_of buf t n).bytes = (List.range n).map (fun i => buf ((t + i) % 512)) := by
  unfold span_of
  apply List.map_congr_left
  intro i hi
  have := List.mem_range.mp hi
  have e : (t + i) % 512 = t + i := by omega
  simp [e]

/-- The consumption loop terminates within two iterations on in-range cursors,
ends with `tail = head`, and hands over the unread region slot by slot. -/
theorem rx_consume_total (cb : Bool) (buf : Nat → Nat) (h t fuel received : Nat)
    (ht : t < 512) (hh : h < 512) (hf : 2 ≤ fuel) :
    ∃ r spans, rx_consume cb buf h fuel t received = some (h, r, spans) ∧
      (received < 4294967296 →
        r = (if cb then u32 (received + (h + 512 - t) % 512) else received)) ∧
      (cb = true → delivered spans =
        (List.range ((h + 512 - t) % 512)).map (fun i => buf ((t + i) % 512))) ∧
      (cb = false → spans = []) := by
  obtain ⟨f, rfl⟩ : ∃ f, fuel = f + 2 := ⟨fuel - 2, by omega⟩
  rcases Nat.lt_trichotomy t h with hlt | heq | hgt
  · refine ⟨_, _, rx_consume_lt cb buf h t (f + 1) received hlt hh, ?_, ?_, ?_⟩
    · intro _
      have e : (h + 512 - t) % 512 = h - t := by omega
      rw [e]
    · intro hc
      have e : (h + 512 - t) % 512 = h - t := by omega
      simp [hc, delivered, e, span_of_bytes_mod buf t (h - t) (by omega)]
    · intro hc; simp [hc]
  · subst heq
    refine ⟨_, _, rx_consume_done cb buf t (f + 2) received, ?_, ?_, ?_⟩
    · intro hr
      have e : (t + 512 - t) % 512 = 0 := by omega
      rw [e]; cases cb <;> simp [u32]; omega
    · intro _
      have e : (t + 512 - t) % 512 = 0 := by omega
      simp [delivered, e]
    · intro _; rfl
  · refine ⟨_, _, rx_consume_wrap cb buf h t f received hgt ht, ?_, ?_, ?_⟩
    · intro _
      have e : (h + 512 - t) % 512 = 512 - t + h := by omega
      rw [e]; cases cb
      · simp
      · simp only [if_true]; unfold u32; omega
    · intro hc
      have e : (h + 512 - t) % 512 = (512 - t) + h := by omega
      rw [e, List.range_add, List.map_append, List.map_map]
      by_cases h0 : h = 0
      · subst h0
        simp [hc, delivered, span_of_bytes_mod buf t (512 - t) (by omega)]
      · simp only [hc, if_true, h0, if_false, delivered, List.map_cons, List.map_nil,
          List.flatten_cons, List.flatten_nil, List.append_nil]
        rw [span_of_bytes_mod buf t (512 - t) (by omega), span_of_bytes_mod buf 0 h (by omega)]
        congr 1
        apply List.map_congr_left
        intro i hi
        have := List.mem_range.mp hi
        have e1 : (0 + i) % 512 = (t + (512 - t + i)) % 512 := by omega
        simp only [Function.comp, e1]
    · intro hc; simp [hc]

/-- C8.  Span contiguity: for in-range cursors `t`, `h` and a non-null callback
the consumption loop of `process` (the same loop in `process_uart` and
`process_pio_uart`) ends with `tail = h`; every invocation has a positive
length and stays inside the 512 slots; for `t < h` there is the single
invocation `(t, h - t)`; for `0 < h < t` there are exactly two, `(t, 512 - t)`
then `(0, h)`; for `h = 0 < t` the single `(t, 512 - t)`; for `t = h` none. -/
theorem span_contiguity (buf : Nat → Nat) (t h fuel received : Nat)
    (ht : t < RX_BUFFER_SIZE) (hh : h < RX_BUFFER_SIZE) (hf : 2 ≤ fuel) :
    ∃ r spans, rx_consume true buf h fuel t received = some (h, r, spans) ∧
      (∀ sp, sp ∈ spans → 0 < sp.len ∧ sp.start + sp.len ≤ RX_BUFFER_SIZE) ∧
      (t < h → spans = [span_of buf t (h - t)]) ∧
      (0 < h ∧ h < t → spans = [span_of buf t (RX_BUFFER_SIZE - t), span_of buf 0 h]) ∧
      (h = 0 ∧ 0 < t → spans = [span_of buf t (RX_BUFFER_SIZE - t)]) ∧
      (t = h → spans = []) := by
  have ht1 : t < 512 := ht
  have hh1 : h < 512 := hh
  obtain ⟨f, rfl⟩ : ∃ f, fuel = f + 2 := ⟨fuel - 2, by omega⟩
  rcases Nat.lt_trichotomy t h with hlt | heq | hgt
  · refine ⟨_, _, rx_consume_lt true buf h t (f + 1) received hlt hh1, ?_, ?_, ?_, ?_, ?_⟩
    · intro sp hsp
      simp at hsp; subst hsp
      simp [span_of, RX_BUFFER_SIZE]; omega
    · intro _; simp
    · intro hc; omega
    · intro hc; omega
    · intro hc; omega
  · subst heq
    refine ⟨_, _, rx_consume_done true buf t (f + 2) received, ?_, ?_, ?_, ?_, ?_⟩
    · intro sp hsp; simp at hsp
    · intro hc; omega
    · intro hc; omega
    · intro hc; omega
    · intro _; rfl
  · refine ⟨_, _, rx_consume_wrap true buf h t f received hgt ht1, ?_, ?_, ?_, ?_, ?_⟩
    · intro sp hsp
      by_cases h0 : h = 0
      · simp [h0] at hsp; subst hsp
        simp [span_of, RX_BUFFER_SIZE]; omega
      · simp [h0] at hsp
        rcases hsp with hsp | hsp
        · subst hsp; simp [span_of, RX_BUFFER_SIZE]; omega
        · subst hsp; simp [span_of, RX_BUFFER_SIZE]; omega
    · intro hc; omega
    · intro hc
      have h0 : h ≠ 0 := by omega
      simp [h0, RX_BUFFER_SIZE]
    · intro hc
      simp [hc.1, RX_BUFFER_SIZE]
    · intro hc; omega

/-- C8, worked example of the specification: `A B` up to the wrap boundary,
then `C D` from offset 0 (`tail = 510`, `head = 2`). -/
theorem span_contiguity_witness :
    ∃ r, rx_consume true sample_rx_buffer 2 2 510 0 =
      some (2, r, [{ start := 510, len := 2, bytes := [65, 66] },
                   { start := 0, len := 2, bytes := [67, 68] }]) := by
  obtain ⟨r, spans, e, _, _, h2, _, _⟩ :=
    span_contiguity sample_rx_buffer 510 2 2 0 (by decide) (by decide) (by decide)
  refine ⟨r, ?_⟩
  rw [e, h2 ⟨by decide, by decide⟩]
  rfl

/-! ## The receive half of process on the polled path -/

theorem range_map_eq_take (l : List Nat) (f : Nat → Nat) (m : Nat) (hm : m = min 511 l.length)
    (hf : ∀ i (hi : i < l.length), i < 511 → f i = l[i]) :
    (List.range m).map f = l.take 511 := by
  apply List.ext_getElem
  · simp [hm]
  · intro i h1 h2
    simp only [List.length_map, List.length_range] at h1
    have hi : i < l.length := by omega
    simp only [List.getElem_map, List.getElem_range, List.getElem_take]
    exact hf i hi (by omega)

/-- One polled `process` pass over an empty receive ring: what it returns. -/
theorem process_rx_polled (fuel : Nat) (s : kmbox_interface_state_t) (hw : process_hw_t)
    (hp : (s.config.use_dma && decide (s.dma_rx_chan ≥ 0)) = false)
    (hemp : s.rx_head = s.rx_tail) (ht : s.rx_tail < 512)
    (herr : s.stats.errors < 4294967296) (hbr : s.stats.bytes_received < 4294967296)
    (hf : 2 ≤ fuel) :
    ∃ buf spans, process_rx fuel s hw = some (
        { s with
          rx_buffer := buf
          rx_head := (s.rx_tail + min hw.rx_fifo.length 511) % 512
          rx_tail := (s.rx_tail + min hw.rx_fifo.length 511) % 512
          stats := { s.stats with
            errors := u32 (s.stats.errors + (hw.rx_fifo.length - 511))
            bytes_received :=
              if s.config.on_command_received then
                u32 (s.stats.bytes_received + min hw.rx_fifo.length 511)
              else s.stats.bytes_received } }, spans) ∧
      (∀ i (hi : i < hw.rx_fifo.length), i < 511 →
        buf ((s.rx_tail + i) % 512) = hw.rx_fifo[i]) ∧
      (∀ j, (∀ i, i < hw.rx_fifo.length → i < 511 → j ≠ (s.rx_tail + i) % 512) →
        buf j = s.rx_buffer j) ∧
      (s.config.on_command_received = true → delivered spans = hw.rx_fifo.take 511) ∧
      (s.config.on_command_received = false → spans = []) := by
  have e0 : s.rx_head = (s.rx_tail + 0) % 512 := by rw [hemp]; omega
  obtain ⟨h1, h2, h3, h4⟩ :=
    rx_poll_spec s.rx_tail ht hw.rx_fifo 0 s.rx_buffer s.stats.errors (by omega) herr
  rw [← e0] at h1 h2 h3 h4
  simp only [Nat.zero_add, Nat.add_zero] at h1 h2 h3 h4
  have hhead : (s.rx_tail + min hw.rx_fifo.length 511) % 512 < 512 := Nat.mod_lt _ (by decide)
  obtain ⟨r, spans, hc, hr, hd, hn⟩ :=
    rx_consume_total s.config.on_command_received
      (rx_poll s.rx_tail hw.rx_fifo s.rx_buffer s.rx_head s.stats.errors).1
      ((s.rx_tail + min hw.rx_fifo.length 511) % 512) s.rx_tail fuel s.stats.bytes_received
      ht hhead hf
  have hr := hr hbr
  have em : ((s.rx_tail + min hw.rx_fifo.length 511) % 512 + 512 - s.rx_tail) % 512 =
      min hw.rx_fifo.length 511 := by omega
  rw [em] at hr hd
  refine ⟨_, spans, ?_, h3, h4, ?_, hn⟩
  · unfold process_rx
    simp only [hp, Bool.false_eq_true, if_false, h1, h2, hc, hr]
  · intro hcb
    rw [hd hcb]
    apply range_map_eq_take
    · omega
    · intro i hi hlt
      exact h3 i hi hlt

/-- One `kmbox_interface_process` call on the polled UART path at rest. -/
theorem process_polled_step (pio : Bool) (fuel : Nat) (s : kmbox_interface_state_t)
    (hw : process_hw_t) (hs : polled_uart_idle s) (hf : 2 ≤ fuel) :
    ∃ s1 out, kmbox_interface_process pio fuel s hw = some (s1, out) ∧
      polled_uart_idle s1 ∧ s1.config = s.config ∧
      s1.rx_head = (s.rx_tail + min hw.rx_fifo.length 511) % 512 ∧
      s1.rx_tail = s1.rx_head ∧
      s1.stats.errors = u32 (s.stats.errors + (hw.rx_fifo.length - 511)) ∧
      s1.stats.bytes_received =
        (if s.config.on_command_received then
          u32 (s.stats.bytes_received + min hw.rx_fifo.length 511)
         else s.stats.bytes_received) ∧
      (∀ i (hi : i < hw.rx_fifo.length), i < 511 →
        s1.rx_buffer ((s.rx_tail + i) % 512) = hw.rx_fifo[i]) ∧
      (∀ j, (∀ i, i < hw.rx_fifo.length → i < 511 → j ≠ (s.rx_tail + i) % 512) →
        s1.rx_buffer j = s.rx_buffer j) ∧
      (s.config.on_command_received = true → delivered out.spans = hw.rx_fifo.take 511) ∧
      (s.config.on_command_received = false → out.spans = []) := by
  obtain ⟨hi, htr, hp, hemp, ht, herr, hbr⟩ := hs
  obtain ⟨buf, spans, e, h3, h4, hd, hn⟩ := process_rx_polled fuel s hw hp hemp ht herr hbr hf
  refine ⟨{ s with
      rx_buffer := buf
      rx_head := (s.rx_tail + min hw.rx_fifo.length 511) % 512
      rx_tail := (s.rx_tail + min hw.rx_fifo.length 511) % 512
      stats := { s.stats with
        errors := u32 (s.stats.errors + (hw.rx_fifo.length - 511))
        bytes_received :=
          if s.config.on_command_received then
            u32 (s.stats.bytes_received + min hw.rx_fifo.length 511)
          else s.stats.bytes_received } },
    { no_output with spans := spans }, ?_, ?_, rfl, rfl, rfl, rfl, rfl, h3, h4, hd, hn⟩
  · simp [kmbox_interface_process, hi, htr, process_uart, e]
  · refine ⟨hi, htr, hp, rfl, Nat.mod_lt _ (by decide), u32_lt _, ?_⟩
    show (if s.config.on_command_received then _ else _) < 4294967296
    split
    · exact u32_lt _
    · exact hbr

/-- C7.  Bounded-loss overflow policy on the polled UART path: a `process` call
that starts with an empty receive ring (cursor `t`) and finds `n` bytes in the
FIFO returns; the first `min n 511` bytes sit in arrival order in the slots
`t, t+1, ..` (modulo 512), no other slot changes, the remaining
`n - min n 511` bytes are stored nowhere and never reach the callback, and the
`uint32_t` counter `stats.errors` has grown by exactly `n - min n 511`. -/
theorem rx_overflow_policy (pio : Bool) (fuel : Nat) (s : kmbox_interface_state_t)
    (hw : process_hw_t) (hs : polled_uart_idle s) (hf : 2 ≤ fuel) :
    ∃ s1 out, kmbox_interface_process pio fuel s hw = some (s1, out) ∧
      (∀ i (hi : i < hw.rx_fifo.length), i < min hw.rx_fifo.length 511 →
        s1.rx_buffer ((s.rx_tail + i) &&& RX_BUFFER_MASK) = hw.rx_fifo[i]) ∧
      (∀ j, (∀ i, i < min hw.rx_fifo.length 511 → j ≠ (s.rx_tail + i) &&& RX_BUFFER_MASK) →
        s1.rx_buffer j = s.rx_buffer j) ∧
      s1.rx_head = (s.rx_tail + min hw.rx_fifo.length 511) &&& RX_BUFFER_MASK ∧
      s1.stats.errors = u32 (s.stats.errors + (hw.rx_fifo.length - min hw.rx_fifo.length 511)) ∧
      (s.stats.errors + (hw.rx_fifo.length - min hw.rx_fifo.length 511) < 4294967296 →
        s1.stats.errors = s.stats.errors + (hw.rx_fifo.length - min hw.rx_fifo.length 511)) ∧
      (s.config.on_command_received = true →
        delivered out.spans = hw.rx_fifo.take (min hw.rx_fifo.length 511)) := by
  obtain ⟨s1, out, e, _, _, hh, _, herr, _, h3, h4, hd, _⟩ := process_polled_step pio fuel s hw hs hf
  have em : hw.rx_fifo.length - min hw.rx_fifo.length 511 = hw.rx_fifo.length - 511 := by omega
  refine ⟨s1, out, e, ?_, ?_, ?_, ?_, ?_, ?_⟩
  · intro i hi hlt
    rw [and_rx_mask]
    exact h3 i hi (by omega)
  · intro j hj
    apply h4 j
    intro i hi hlt
    have := hj i (by omega)
    rwa [and_rx_mask] at this
  · rw [and_rx_mask]; exact hh
  · rw [em]; exact herr
  · intro hlt
    rw [em] at hlt ⊢
    rw [herr]; unfold u32; omega
  · intro hcb
    rw [hd hcb]
    rcases Nat.le_total hw.rx_fifo.length 511 with hle | hle
    · rw [Nat.min_eq_left hle, List.take_of_length_le hle, List.take_of_length_le (Nat.le_refl _)]
    · rw [Nat.min_eq_right hle]

theorem sample_fifo600_get (i : Nat) (hi : i < (hw_with_fifo sample_fifo600).rx_fifo.length) :
    (hw_with_fifo sample_fifo600).rx_fifo[i] = i % 256 := by
  simp [hw_with_fifo, sample_fifo600]

/-- C7, worked example of the specification: 600 bytes arrive while the
consumer does not run; bytes 0..510 are retained, 89 bytes are dropped and
`errors == 89`. -/
theorem rx_overflow_policy_witness :
    ∃ s1 out, kmbox_interface_process false 2 sample_polled_state (hw_with_fifo sample_fifo600) =
        some (s1, out) ∧
      s1.stats.errors = 89 ∧ s1.rx_head = 511 ∧
      s1.rx_buffer 0 = 0 ∧ s1.rx_buffer 510 = 254 ∧ s1.rx_buffer 511 = 0 ∧
      (delivered out.spans).length = 511 := by
  have hs : polled_uart_idle sample_polled_state :=
    ⟨rfl, rfl, rfl, rfl, by decide, by decide, by decide⟩
  have hl : (hw_with_fifo sample_fifo600).rx_fifo.length = 600 := by
    simp [hw_with_fifo, sample_fifo600]
  obtain ⟨s1, out, e, h1, h2, h3, _, h5, h6⟩ :=
    rx_overflow_policy false 2 sample_polled_state (hw_with_fifo sample_fifo600) hs (by decide)
  rw [hl] at h2 h3 h5 h6
  refine ⟨s1, out, e, ?_, ?_, ?_, ?_, ?_, ?_⟩
  · rw [h5 (by decide)]; rfl
  · rw [h3]; rfl
  · have h := h1 0 (by rw [hl]; decide) (by rw [hl]; decide)
    have e1 : (sample_polled_state.rx_tail + 0) &&& RX_BUFFER_MASK = 0 := rfl
    rw [e1, sample_fifo600_get] at h; exact h
  · have h := h1 510 (by rw [hl]; decide) (by rw [hl]; decide)
    have e1 : (sample_polled_state.rx_tail + 510) &&& RX_BUFFER_MASK = 510 := by
      rw [and_rx_mask]; rfl
    rw [e1, sample_fifo600_get] at h; exact h
  · rw [h2 511]
    · rfl
    · intro i hi
      have hi2 : i < 511 := hi
      have : sample_polled_state.rx_tail = 0 := rfl
      rw [this, and_rx_mask]; omega
  · rw [h6 rfl]
    simp [hw_with_fifo, sample_fifo600]

/-- C9.  No data fabrication on the polled UART path with a non-null callback:
any run of `process` calls returns; the bytes handed to the callback, in order,
are exactly the bytes read from the FIFO with the overflowing ones (per call,
those after the first 511) left out; `stats.errors` grows by the number of
dropped bytes and `stats.bytes_received` by the number of delivered bytes (both
as `uint32_t`); afterwards `rx_tail == rx_head`, and the path is at rest again,
so the same holds after every call of the run. -/
theorem no_data_fabrication (pio : Bool) (fuel : Nat) (hws : List process_hw_t) :
    ∀ (s : kmbox_interface_state_t), polled_uart_idle s → s.config.on_command_received = true →
      2 ≤ fuel →
      ∃ s1 spans, process_run pio fuel hws s = some (s1, spans) ∧
        delivered spans = rx_kept hws ∧
        List.Sublist (rx_kept hws) (hws.map (fun hw => hw.rx_fifo)).flatten ∧
        List.Perm (rx_kept hws ++ rx_dropped hws) (hws.map (fun hw => hw.rx_fifo)).flatten ∧
        s1.stats.errors = u32 (s.stats.errors + (rx_dropped hws).length) ∧
        s1.stats.bytes_received = u32 (s.stats.bytes_received + (delivered spans).length) ∧
        s1.rx_tail = s1.rx_head ∧ polled_uart_idle s1 := by
  induction hws with
  | nil =>
    intro s hs hcb hf
    refine ⟨s, [], rfl, rfl, ?_, ?_, ?_, ?_, hs.2.2.2.1.symm, hs⟩
    · simp [rx_kept]
    · simp [rx_kept, rx_dropped]
    · simp [rx_dropped, u32]; have := hs.2.2.2.2.2.1; omega
    · simp [delivered, u32]; have := hs.2.2.2.2.2.2; omega
  | cons hw rest ih =>
    intro s hs hcb hf
    obtain ⟨s1, out, e, hs1, hcfg, _, _, herr, hbr, _, _, hd, _⟩ :=
      process_polled_step pio fuel s hw hs hf
    have hcb1 : s1.config.on_command_received = true := by rw [hcfg]; exact hcb
    obtain ⟨s2, spans, e2, hd2, hsub, hperm, herr2, hbr2, htail, hs2⟩ := ih s1 hs1 hcb1 hf
    have hdel : delivered (out.spans ++ spans) = rx_kept (hw :: rest) := by
      have := hd hcb
      simp only [delivered, List.map_append, List.flatten_append] at this hd2 ⊢
      rw [this, hd2]
      simp [rx_kept]
    refine ⟨s2, out.spans ++ spans, ?_, hdel, ?_, ?_, ?_, ?_, htail, hs2⟩
    · simp [process_run, e, e2]
    · have h1 : rx_kept (hw :: rest) = hw.rx_fifo.take 511 ++ rx_kept rest := by simp [rx_kept]
      rw [h1]
      simp only [List.map_cons, List.flatten_cons]
      exact List.Sublist.append (List.take_sublist _ _) hsub
    · have h1 : rx_kept (hw :: rest) = hw.rx_fifo.take 511 ++ rx_kept rest := by simp [rx_kept]
      have h2 : rx_dropped (hw :: rest) = hw.rx_fifo.drop 511 ++ rx_dropped rest := by
        simp [rx_dropped]
      rw [h1, h2]
      simp only [List.map_cons, List.flatten_cons]
      have h3 : List.Perm
          (hw.rx_fifo.take 511 ++ rx_kept rest ++ (hw.rx_fifo.drop 511 ++ rx_dropped rest))
          ((hw.rx_fifo.take 511 ++ hw.rx_fifo.drop 511) ++ (rx_kept rest ++ rx_dropped rest)) := by
        simp only [List.append_assoc]
        apply List.Perm.append_left
        rw [← List.append_assoc, ← List.append_assoc]
        exact List.Perm.append_right _ List.perm_append_comm
      rw [List.take_append_drop] at h3
      exact h3.trans (List.Perm.append_left _ hperm)
    · rw [herr2, herr]
      have h2 : (rx_dropped (hw :: rest)).length = (hw.rx_fifo.length - 511) + (rx_dropped rest).length := by
        simp [rx_dropped]
      rw [h2]; unfold u32; omega
    · rw [hbr2, hbr, hdel]
      simp only [hcb, if_true]
      have h1 : (rx_kept (hw :: rest)).length = min hw.rx_fifo.length 511 + (rx_kept rest).length := by
        simp [rx_kept]; omega
      rw [h1, hd2]; unfold u32; omega

/-- C9, worked example: two polled passes, three bytes and then two. -/
theorem no_data_fabrication_witness :
    ∃ s1 spans, process_run false 2 sample_two_polls sample_polled_state = some (s1, spans) ∧
      delivered spans = [1, 2, 3, 4, 5] ∧ s1.stats.errors = 0 ∧ s1.stats.bytes_received = 5 ∧
      s1.rx_tail = s1.rx_head := by
  have hs : polled_uart_idle sample_polled_state :=
    ⟨rfl, rfl, rfl, rfl, by decide, by decide, by decide⟩
  obtain ⟨s1, spans, e, hd, _, _, herr, hbr, ht, _⟩ :=
    no_data_fabrication false 2 sample_two_polls sample_polled_state hs rfl (by decide)
  refine ⟨s1, spans, e, ?_, ?_, ?_, ht⟩
  · rw [hd]; rfl
  · rw [herr]; rfl
  · rw [hbr, hd]; rfl

/-! ## Initialisation -/

theorem init_uart_ok_iff (s : kmbox_interface_state_t) (cfg : kmbox_interface_config_t)
    (hw : sdk_hw_t) :
    (init_uart s cfg hw).1 = true ↔
      ((cfg.tx_pin = 0 ∧ cfg.rx_pin = 1) ∨ (cfg.tx_pin = 4 ∧ cfg.rx_pin = 5)) := by
  unfold init_uart
  by_cases h1 : cfg.tx_pin = 0 ∧ cfg.rx_pin = 1
  · cases hd : cfg.use_dma <;> simp [h1.1, h1.2, hd]
  · by_cases h2 : cfg.tx_pin = 4 ∧ cfg.rx_pin = 5
    · cases hd : cfg.use_dma <;> simp [h2.1, h2.2, hd]
    · have e1 : (cfg.tx_pin == 0 && cfg.rx_pin == 1) = false := by
        simp only [Bool.and_eq_false_iff, beq_eq_false_iff_ne, ne_eq]; tauto
      have e2 : (cfg.tx_pin == 4 && cfg.rx_pin == 5) = false := by
        simp only [Bool.and_eq_false_iff, beq_eq_false_iff_ne, ne_eq]; tauto
      simp only [e1, e2, Bool.false_eq_true, if_false]
      simp; tauto

theorem init_uart_core (s : kmbox_interface_state_t) (cfg : kmbox_interface_config_t)
    (hw : sdk_hw_t) : same_core s (init_uart s cfg hw).2.1 := by
  unfold init_uart same_core
  by_cases h1 : cfg.tx_pin = 0 ∧ cfg.rx_pin = 1
  · cases hd : cfg.use_dma <;> simp [h1.1, h1.2, hd, uart_dma_rx_setup]
  · by_cases h2 : cfg.tx_pin = 4 ∧ cfg.rx_pin = 5
    · cases hd : cfg.use_dma <;> simp [h2.1, h2.2, hd, uart_dma_rx_setup]
    · have e1 : (cfg.tx_pin == 0 && cfg.rx_pin == 1) = false := by
        simp only [Bool.and_eq_false_iff, beq_eq_false_iff_ne, ne_eq]; tauto
      have e2 : (cfg.tx_pin == 4 && cfg.rx_pin == 5) = false := by
        simp only [Bool.and_eq_false_iff, beq_eq_false_iff_ne, ne_eq]; tauto
      simp only [e1, e2, Bool.false_eq_true, if_false]
      simp

theorem init_pio_uart_core (s : kmbox_interface_state_t) (cfg : kmbox_interface_config_t)
    (hw : sdk_hw_t) : same_core s (init_pio_uart s cfg hw).2.1 := by
  unfold init_pio_uart same_core
  cases h1 : hw.rx_claim.ok <;> cases h2 : hw.tx_claim.ok <;> cases h3 : cfg.use_dma <;>
    cases h4 : cfg.use_interrupts <;>
    simp [uart_dma_rx_setup, pio_uart_dma_tx_setup]

theorem init_pio_uart_ok_iff (s : kmbox_interface_state_t) (cfg : kmbox_interface_config_t)
    (hw : sdk_hw_t) :
    (init_pio_uart s cfg hw).1 = true ↔ (hw.rx_claim.ok = true ∧ hw.tx_claim.ok = true) := by
  unfold init_pio_uart
  cases h1 : hw.rx_claim.ok <;> cases h2 : hw.tx_claim.ok <;> cases h3 : cfg.use_dma <;>
    cases h4 : cfg.use_interrupts <;> simp

/-- How `kmbox_interface_init` finishes once the first guard has passed. -/
theorem init_unfold (pio : Bool) (s : kmbox_interface_state_t) (cfg : kmbox_interface_config_t)
    (hw : sdk_hw_t) (hi : s.initialized = false) :
    (cfg.transport_type = KMBOX_TRANSPORT_UART →
      kmbox_interface_init pio s (some cfg) hw =
        ((init_uart (cleared_state cfg) cfg hw).1,
         (if (init_uart (cleared_state cfg) cfg hw).1 then
            { (init_uart (cleared_state cfg) cfg hw).2.1 with initialized := true }
          else (init_uart (cleared_state cfg) cfg hw).2.1),
         (init_uart (cleared_state cfg) cfg hw).2.2)) ∧
    (cfg.transport_type = KMBOX_TRANSPORT_PIO_UART → pio = true →
      kmbox_interface_init pio s (some cfg) hw =
        ((init_pio_uart (cleared_state cfg) cfg hw).1,
         (if (init_pio_uart (cleared_state cfg) cfg hw).1 then
            { (init_pio_uart (cleared_state cfg) cfg hw).2.1 with initialized := true }
          else (init_pio_uart (cleared_state cfg) cfg hw).2.1),
         (init_pio_uart (cleared_state cfg) cfg hw).2.2)) ∧
    ((cfg.transport_type = KMBOX_TRANSPORT_NONE ∨
        (cfg.transport_type = KMBOX_TRANSPORT_PIO_UART ∧ pio = false)) →
      kmbox_interface_init pio s (some cfg) hw = (false, cleared_state cfg, [])) := by
  refine ⟨?_, ?_, ?_⟩
  · intro ht
    simp only [kmbox_interface_init, hi, Bool.false_eq_true, if_false, ht]
    generalize init_uart (cleared_state cfg) cfg hw = r
    rcases r with ⟨success, s2, calls⟩
    cases success <;> rfl
  · intro ht hp
    simp only [kmbox_interface_init, hi, Bool.false_eq_true, if_false, ht, hp, if_true]
    generalize init_pio_uart (cleared_state cfg) cfg hw = r
    rcases r with ⟨success, s2, calls⟩
    cases success <;> rfl
  · rintro (ht | ⟨ht, hp⟩)
    · simp [kmbox_interface_init, hi, ht]
    · simp [kmbox_interface_init, hi, ht, hp]

/-- The outcome of `kmbox_interface_init` on an uninitialised instance, for
every transport. -/
theorem init_outcome (pio : Bool) (s : kmbox_interface_state_t) (cfg : kmbox_interface_config_t)
    (hw : sdk_hw_t) (hi : s.initialized = false) :
    ((kmbox_interface_init pio s (some cfg) hw).1 = true ↔
      (valid_uart_config cfg ∨
        (cfg.transport_type = KMBOX_TRANSPORT_PIO_UART ∧ pio = true ∧
          hw.rx_claim.ok = true ∧ hw.tx_claim.ok = true))) ∧
    ((kmbox_interface_init pio s (some cfg) hw).1 = true →
      freshly_initialized (kmbox_interface_init pio s (some cfg) hw).2.1) ∧
    ((kmbox_interface_init pio s (some cfg) hw).1 = false →
      (kmbox_interface_init pio s (some cfg) hw).2.1.initialized = false) := by
  obtain ⟨hU, hP, hN⟩ := init_unfold pio s cfg hw hi
  cases htt : cfg.transport_type with
  | KMBOX_TRANSPORT_NONE =>
    rw [hN (Or.inl htt)]
    refine ⟨?_, ?_, ?_⟩
    · simp [valid_uart_config, htt]
    · intro h; cases h
    · intro _; rfl
  | KMBOX_TRANSPORT_UART =>
    rw [hU htt]
    have hc := init_uart_core (cleared_state cfg) cfg hw
    have hok := init_uart_ok_iff (cleared_state cfg) cfg hw
    obtain ⟨_, c1, c2, c3, c4, c5, c6, c7, _, _⟩ := hc
    refine ⟨?_, ?_, ?_⟩
    · simp only [valid_uart_config, htt, true_and]
      rw [hok]; simp
    · intro h
      simp only at h
      simp only [h, if_true]
      exact ⟨rfl, c1, c2, c3, c4, c5, c7⟩
    · intro h
      simp only at h
      simp only [h, Bool.false_eq_true, if_false]
      exact c6
  | KMBOX_TRANSPORT_PIO_UART =>
    cases pio with
    | false =>
      rw [hN (Or.inr ⟨htt, rfl⟩)]
      refine ⟨?_, ?_, ?_⟩
      · simp [valid_uart_config, htt]
      · intro h; cases h
      · intro _; rfl
    | true =>
      rw [hP htt rfl]
      have hc := init_pio_uart_core (cleared_state cfg) cfg hw
      have hok := init_pio_uart_ok_iff (cleared_state cfg) cfg hw
      obtain ⟨_, c1, c2, c3, c4, c5, c6, c7, _, _⟩ := hc
      refine ⟨?_, ?_, ?_⟩
      · simp only [valid_uart_config, htt]
        rw [hok]; simp
      · intro h
        simp only at h
        simp only [h, if_true]
        exact ⟨rfl, c1, c2, c3, c4, c5, c7⟩
      · intro h
        simp only at h
        simp only [h, Bool.false_eq_true, if_false]
        exact c6

/-- C10.  For the None and UART transports, `kmbox_interface_init` returns true
exactly when `config` is non-null, the instance is not yet initialised, and the
transport is UART with `(tx_pin, rx_pin)` equal to `(0, 1)` or `(4, 5)`.  After a
successful init, `initialized` is true, the four ring cursors are 0, all
statistics are 0 and `tx_in_progress` is false.  After a failed init on an
uninitialised instance, `initialized` is still false and a following init with a
valid UART configuration succeeds. -/
theorem init_contract (pio : Bool) (s : kmbox_interface_state_t)
    (config : Option kmbox_interface_config_t) (hw : sdk_hw_t) :
    ((∀ cfg, config = some cfg → cfg.transport_type ≠ KMBOX_TRANSPORT_PIO_UART) →
      ((kmbox_interface_init pio s config hw).1 = true ↔
        ∃ cfg, config = some cfg ∧ s.initialized = false ∧ valid_uart_config cfg)) ∧
    ((kmbox_interface_init pio s config hw).1 = true →
      freshly_initialized (kmbox_interface_init pio s config hw).2.1) ∧
    ((kmbox_interface_init pio s config hw).1 = false → s.initialized = false →
      (kmbox_interface_init pio s config hw).2.1.initialized = false ∧
      ∀ cfg2 hw2, valid_uart_config cfg2 →
        (kmbox_interface_init pio (kmbox_interface_init pio s config hw).2.1 (some cfg2) hw2).1
          = true) := by
  cases config with
  | none =>
    refine ⟨?_, ?_, ?_⟩
    · intro _; simp [kmbox_interface_init]
    · intro h; simp [kmbox_interface_init] at h
    · intro _ hi
      have e : kmbox_interface_init pio s none hw = (false, s, []) := rfl
      rw [e]
      exact ⟨hi, fun cfg2 hw2 hv => (init_outcome pio s cfg2 hw2 hi).1.mpr (Or.inl hv)⟩
  | some cfg =>
    cases hi : s.initialized with
    | true =>
      have e : kmbox_interface_init pio s (some cfg) hw = (false, s, []) := by
        simp [kmbox_interface_init, hi]
      rw [e]
      refine ⟨?_, ?_, ?_⟩
      · intro _; simp
      · intro h; cases h
      · intro _ h; cases h
    | false =>
      obtain ⟨h1, h2, h3⟩ := init_outcome pio s cfg hw hi
      refine ⟨?_, h2, ?_⟩
      · intro hnp
        rw [h1]
        constructor
        · rintro (hv | ⟨hp, _⟩)
          · exact ⟨cfg, rfl, rfl, hv⟩
          · exact absurd hp (hnp cfg rfl)
        · rintro ⟨cfg1, hc, _, hv⟩
          cases hc
          exact Or.inl hv
      · intro hf _
        have hi2 := h3 hf
        exact ⟨hi2, fun cfg2 hw2 hv =>
          (init_outcome pio _ cfg2 hw2 hi2).1.mpr (Or.inl hv)⟩

/-- C10, worked example: the default UART configuration (pins 4 and 5) on the
state at program start. -/
theorem init_contract_witness :
    (kmbox_interface_init false g_interface (some KMBOX_UART_DEFAULT_CONFIG) sample_sdk).1 = true ∧
    freshly_initialized
      (kmbox_interface_init false g_interface (some KMBOX_UART_DEFAULT_CONFIG) sample_sdk).2.1 := by
  have h := init_contract false g_interface (some KMBOX_UART_DEFAULT_CONFIG) sample_sdk
  have h1 : (kmbox_interface_init false g_interface (some KMBOX_UART_DEFAULT_CONFIG) sample_sdk).1
      = true :=
    (h.1 (fun cfg hc => by cases hc; decide)).mpr
      ⟨KMBOX_UART_DEFAULT_CONFIG, rfl, rfl, rfl, Or.inr ⟨rfl, rfl⟩⟩
  exact ⟨h1, h.2.1 h1⟩

/-! ## The TX ring across sequences of API calls -/

theorem tx_occupancy_eq (s : kmbox_interface_state_t) :
    tx_occupancy s = (s.tx_head + 256 * s.tx_tail - s.tx_tail) % 256 := by
  unfold tx_occupancy int32_bits
  rw [and_tx_mask]
  omega

theorem rx_poll_head_lt (tail : Nat) (l : List Nat) :
    ∀ (buf : Nat → Nat) (head e : Nat), head < 512 → (rx_poll tail l buf head e).2.1 < 512 := by
  induction l with
  | nil => intro buf head e h; simpa [rx_poll] using h
  | cons b rest ih =>
    intro buf head e h
    rw [rx_poll]
    simp only [and_rx_mask]
    split
    · exact ih _ _ _ (Nat.mod_lt _ (by decide))
    · exact ih _ _ _ h

theorem dma_head_lt (hw : process_hw_t) : dma_head hw < 512 := by
  unfold dma_head; rw [and_rx_mask]; exact Nat.mod_lt _ (by decide)

/-- The receive half of `process` returns on in-range cursors, keeps them in
range and touches nothing on the transmit side. -/
theorem process_rx_total (fuel : Nat) (s : kmbox_interface_state_t) (hw : process_hw_t)
    (hh : s.rx_head < 512) (ht : s.rx_tail < 512) (hf : 2 ≤ fuel) :
    ∃ s1 spans, process_rx fuel s hw = some (s1, spans) ∧
      s1.rx_head < 512 ∧ s1.rx_tail < 512 ∧
      s1.tx_head = s.tx_head ∧ s1.tx_tail = s.tx_tail ∧
      s1.tx_in_progress = s.tx_in_progress ∧ s1.tx_buffer = s.tx_buffer ∧
      s1.config = s.config ∧ s1.initialized = s.initialized ∧
      s1.dma_rx_chan = s.dma_rx_chan ∧ s1.dma_tx_chan = s.dma_tx_chan := by
  cases hp : (s.config.use_dma && decide (s.dma_rx_chan ≥ 0)) with
  | true =>
    obtain ⟨r, spans, hc, _⟩ :=
      rx_consume_total s.config.on_command_received hw.rx_memory (dma_head hw) s.rx_tail fuel
        s.stats.bytes_received ht (dma_head_lt hw) hf
    refine ⟨{ s with rx_buffer := hw.rx_memory, rx_tail := dma_head hw,
                     stats := { s.stats with bytes_received := r } }, spans, ?_,
      hh, dma_head_lt hw, rfl, rfl, rfl, rfl, rfl, rfl, rfl, rfl⟩
    unfold process_rx
    simp only [hp, if_true, hc]
  | false =>
    have hlt := rx_poll_head_lt s.rx_tail hw.rx_fifo s.rx_buffer s.rx_head s.stats.errors hh
    obtain ⟨r, spans, hc, _⟩ :=
      rx_consume_total s.config.on_command_received
        (rx_poll s.rx_tail hw.rx_fifo s.rx_buffer s.rx_head s.stats.errors).1
        (rx_poll s.rx_tail hw.rx_fifo s.rx_buffer s.rx_head s.stats.errors).2.1 s.rx_tail fuel
        s.stats.bytes_received ht hlt hf
    refine ⟨{ s with
        rx_buffer := (rx_poll s.rx_tail hw.rx_fifo s.rx_buffer s.rx_head s.stats.errors).1
        rx_head := (rx_poll s.rx_tail hw.rx_fifo s.rx_buffer s.rx_head s.stats.errors).2.1
        rx_tail := (rx_poll s.rx_tail hw.rx_fifo s.rx_buffer s.rx_head s.stats.errors).2.1
        stats := { s.stats with
          errors := (rx_poll s.rx_tail hw.rx_fifo s.rx_buffer s.rx_head s.stats.errors).2.2
          bytes_received := r } }, spans, ?_,
      hlt, hlt, rfl, rfl, rfl, rfl, rfl, rfl, rfl, rfl⟩
    unfold process_rx
    simp only [hp, Bool.false_eq_true, if_false, hc]

theorem pio_tx_poll_spec (buf : Nat → Nat) (head : Nat) (hh : head < 256) (room : Nat) :
    ∀ tail, tail < 256 →
      (pio_tx_poll buf head room tail).1 < 256 ∧
      (pio_tx_poll buf head room tail).2.length ≤ (head + 256 - tail) % 256 ∧
      (head + 256 - (pio_tx_poll buf head room tail).1) % 256 =
        (head + 256 - tail) % 256 - (pio_tx_poll buf head room tail).2.length := by
  induction room with
  | zero => intro tail ht; simp [pio_tx_poll]; omega
  | succ room ih =>
    intro tail ht
    rw [pio_tx_poll]
    by_cases hne : tail = head
    · subst hne; simp; exact ht
    · have hlt : (tail + 1) % 256 < 256 := Nat.mod_lt _ (by decide)
      obtain ⟨h1, h2, h3⟩ := ih ((tail + 1) % 256) hlt
      simp only [bne_iff_ne, ne_eq, hne, not_false_eq_true, if_true, and_tx_mask,
        List.length_cons]
      refine ⟨h1, ?_, ?_⟩
      · omega
      · omega

/-- The transmit half of `process_pio_uart` keeps the TX cursors in range and
moves the tail forward by exactly the number of bytes it hands over. -/
theorem process_pio_tx_spec (s : kmbox_interface_state_t) (hw : process_hw_t)
    (hh : s.tx_head < 256) (ht : s.tx_tail < 256) :
    (process_pio_tx s hw).1.tx_head = s.tx_head ∧
    (process_pio_tx s hw).1.tx_tail < 256 ∧
    (process_pio_tx s hw).1.rx_head = s.rx_head ∧
    (process_pio_tx s hw).1.rx_tail = s.rx_tail ∧
    drained (process_pio_tx s hw).2 ≤ (s.tx_head + 256 - s.tx_tail) % 256 ∧
    (s.tx_head + 256 - (process_pio_tx s hw).1.tx_tail) % 256 =
      (s.tx_head + 256 - s.tx_tail) % 256 - drained (process_pio_tx s hw).2 := by
  unfold process_pio_tx
  by_cases hc : (s.tx_head != s.tx_tail && !s.tx_in_progress) = true
  · have hne : s.tx_head ≠ s.tx_tail := by
      simp only [Bool.and_eq_true, bne_iff_ne, ne_eq] at hc; exact hc.1
    simp only [hc, if_true]
    by_cases hd : (s.config.use_dma && decide (s.dma_tx_chan ≥ 0)) = true
    · simp only [hd, if_true]
      by_cases hgt : s.tx_head > s.tx_tail
      · have e : u16 (s.tx_head - s.tx_tail) = s.tx_head - s.tx_tail := by unfold u16; omega
        have hpos : s.tx_head - s.tx_tail > 0 := by omega
        simp only [hgt, if_true, e, hpos, and_tx_mask, drained, no_output, List.length_nil,
          List.map_cons, List.map_nil, List.sum_cons, List.sum_nil]
        refine ⟨trivial, ?_, trivial, trivial, ?_, ?_⟩ <;> omega
      · have e : u16 (TX_BUFFER_SIZE + 65536 - s.tx_tail) = 256 - s.tx_tail := by
          unfold u16 TX_BUFFER_SIZE; omega
        have hpos : 256 - s.tx_tail > 0 := by omega
        simp only [hgt, if_false, e, hpos, if_true, and_tx_mask, drained, no_output,
          List.length_nil, List.map_cons, List.map_nil, List.sum_cons, List.sum_nil]
        refine ⟨trivial, ?_, trivial, trivial, ?_, ?_⟩ <;> omega
    · simp only [hd, Bool.false_eq_true, if_false]
      obtain ⟨h1, h2, h3⟩ := pio_tx_poll_spec s.tx_buffer s.tx_head hh hw.tx_room s.tx_tail ht
      simp only [drained, no_output, List.map_nil, List.sum_nil, Nat.add_zero]
      exact ⟨trivial, h1, trivial, trivial, h2, h3⟩
  · simp only [hc, Bool.false_eq_true, if_false, drained, no_output, List.length_nil,
      List.map_nil, List.sum_nil]
    refine ⟨trivial, ht, trivial, trivial, ?_, ?_⟩ <;> omega

/-- On in-range cursors `kmbox_interface_process` returns, keeps the cursors in
range, leaves `tx_head` alone and advances `tx_tail` by what it hands over. -/
theorem process_ring (pio : Bool) (fuel : Nat) (s : kmbox_interface_state_t) (hw : process_hw_t)
    (h1 : s.tx_head < 256) (h2 : s.tx_tail < 256) (h3 : s.rx_head < 512) (h4 : s.rx_tail < 512)
    (hf : 2 ≤ fuel) :
    ∃ s1 out, kmbox_interface_process pio fuel s hw = some (s1, out) ∧
      s1.tx_head = s.tx_head ∧ s1.tx_tail < 256 ∧ s1.rx_head < 512 ∧ s1.rx_tail < 512 ∧
      drained out ≤ (s.tx_head + 256 - s.tx_tail) % 256 ∧
      (s.tx_head + 256 - s1.tx_tail) % 256 = (s.tx_head + 256 - s.tx_tail) % 256 - drained out := by
  have hidle : ∃ s1 out, some (s, no_output) = some (s1, out) ∧
      s1.tx_head = s.tx_head ∧ s1.tx_tail < 256 ∧ s1.rx_head < 512 ∧ s1.rx_tail < 512 ∧
      drained out ≤ (s.tx_head + 256 - s.tx_tail) % 256 ∧
      (s.tx_head + 256 - s1.tx_tail) % 256 =
        (s.tx_head + 256 - s.tx_tail) % 256 - drained out :=
    ⟨s, no_output, rfl, rfl, h2, h3, h4, by simp [drained, no_output],
      by simp [drained, no_output]⟩
  unfold kmbox_interface_process
  cases hi : s.initialized with
  | false => simpa using hidle
  | true =>
    simp only [Bool.not_true, Bool.false_eq_true, if_false]
    cases htt : s.config.transport_type with
    | KMBOX_TRANSPORT_NONE => simpa using hidle
    | KMBOX_TRANSPORT_UART =>
      obtain ⟨s1, spans, e, r1, r2, r3, r4, _⟩ := process_rx_total fuel s hw h3 h4 hf
      refine ⟨s1, { no_output with spans := spans }, ?_, r3, by rw [r4]; exact h2, r1, r2, ?_, ?_⟩
      · simp [process_uart, e]
      · simp [drained, no_output]
      · rw [r4]; simp [drained, no_output]
    | KMBOX_TRANSPORT_PIO_UART =>
      cases pio with
      | false => simpa using hidle
      | true =>
        obtain ⟨s1, spans, e, r1, r2, r3, r4, _⟩ := process_rx_total fuel s hw h3 h4 hf
        obtain ⟨q1, q2, q3, q4, q5, q6⟩ :=
          process_pio_tx_spec s1 hw (by rw [r3]; exact h1) (by rw [r4]; exact h2)
        rw [r3, r4] at q5 q6
        refine ⟨(process_pio_tx s1 hw).1, { (process_pio_tx s1 hw).2 with spans := spans }, ?_,
          by rw [q1, r3], q2, by rw [q3]; exact r1, by rw [q4]; exact r2, q5, q6⟩
        simp [process_pio_uart, e]

/-- What `kmbox_interface_init` does to the cursors: nothing when the first
guard rejects the call, otherwise all four are zero afterwards. -/
theorem init_cursors (pio : Bool) (s : kmbox_interface_state_t)
    (config : Option kmbox_interface_config_t) (hw : sdk_hw_t) :
    ((config.isSome && !s.initialized) = false → (kmbox_interface_init pio s config hw).2.1 = s) ∧
    ((config.isSome && !s.initialized) = true →
      (kmbox_interface_init pio s config hw).2.1.tx_head = 0 ∧
      (kmbox_interface_init pio s config hw).2.1.tx_tail = 0 ∧
      (kmbox_interface_init pio s config hw).2.1.rx_head = 0 ∧
      (kmbox_interface_init pio s config hw).2.1.rx_tail = 0) := by
  cases config with
  | none => simp [kmbox_interface_init]
  | some cfg =>
    cases hi : s.initialized with
    | true => simp [kmbox_interface_init, hi]
    | false =>
      refine ⟨by simp, fun _ => ?_⟩
      obtain ⟨hU, hP, hN⟩ := init_unfold pio s cfg hw hi
      have key : ∀ r : Bool × kmbox_interface_state_t × List sdk_call,
          same_core (cleared_state cfg) r.2.1 →
          (if r.1 then { r.2.1 with initialized := true } else r.2.1).tx_head = 0 ∧
          (if r.1 then { r.2.1 with initialized := true } else r.2.1).tx_tail = 0 ∧
          (if r.1 then { r.2.1 with initialized := true } else r.2.1).rx_head = 0 ∧
          (if r.1 then { r.2.1 with initialized := true } else r.2.1).rx_tail = 0 := by
        rintro ⟨b, s2, c⟩ ⟨_, c1, c2, c3, c4, _⟩
        cases b <;> exact ⟨c3, c4, c1, c2⟩
      cases htt : cfg.transport_type with
      | KMBOX_TRANSPORT_NONE => rw [hN (Or.inl htt)]; exact ⟨rfl, rfl, rfl, rfl⟩
      | KMBOX_TRANSPORT_UART =>
        rw [hU htt]; exact key _ (init_uart_core (cleared_state cfg) cfg hw)
      | KMBOX_TRANSPORT_PIO_UART =>
        cases pio with
        | false => rw [hN (Or.inr ⟨htt, rfl⟩)]; exact ⟨rfl, rfl, rfl, rfl⟩
        | true => rw [hP htt rfl]; exact key _ (init_pio_uart_core (cleared_state cfg) cfg hw)

theorem deinit_cursors (pio : Bool) (s : kmbox_interface_state_t) (hw : sdk_hw_t) :
    (kmbox_interface_deinit pio s hw).1.tx_head = s.tx_head ∧
    (kmbox_interface_deinit pio s hw).1.tx_tail = s.tx_tail ∧
    (kmbox_interface_deinit pio s hw).1.rx_head = s.rx_head ∧
    (kmbox_interface_deinit pio s hw).1.rx_tail = s.rx_tail := by
  unfold kmbox_interface_deinit
  cases s.initialized <;> exact ⟨rfl, rfl, rfl, rfl⟩

/-- What `kmbox_interface_send` does to the cursors. -/
theorem send_cursors (s : kmbox_interface_state_t) (data : Option (Nat → Nat)) (len : Nat)
    (hh : s.tx_head < 256) :
    (kmbox_interface_send s data len).2.tx_tail = s.tx_tail ∧
    (kmbox_interface_send s data len).2.rx_head = s.rx_head ∧
    (kmbox_interface_send s data len).2.rx_tail = s.rx_tail ∧
    ((kmbox_interface_send s data len).1 = false →
      (kmbox_interface_send s data len).2.tx_head = s.tx_head) ∧
    ((kmbox_interface_send s data len).1 = true →
      (kmbox_interface_send s data len).2.tx_head = (s.tx_head + len) % 256 ∧
      len ≤ tx_available s) := by
  cases hr : (kmbox_interface_send s data len).1 with
  | true =>
    obtain ⟨d, _, _, _, hle, e⟩ := send_success_eq s data len hr
    rw [e]
    refine ⟨rfl, rfl, rfl, fun h => (by cases h), fun _ => ⟨?_, hle⟩⟩
    exact send_copy_head d len 0 s.tx_buffer s.tx_head hh
  | false =>
    rcases send_failure_eq s data len hr with e | e <;> rw [e] <;>
      exact ⟨rfl, rfl, rfl, fun _ => rfl, fun h => (by cases h)⟩

/-- Every API call returns on a state that satisfies the ring invariant and
re-establishes it. -/
theorem api_step_inv (pio : Bool) (fuel : Nat) (t : tracked_t) (c : api_call)
    (hinv : ring_inv t) (hf : 2 ≤ fuel) :
    ∃ t1, api_step pio fuel t c = some t1 ∧ ring_inv t1 := by
  obtain ⟨h1, h2, h3, h4, h5⟩ := hinv
  cases c with
  | init config hw =>
    refine ⟨_, rfl, ?_⟩
    obtain ⟨hA, hB⟩ := init_cursors pio t.st config hw
    cases hg : (config.isSome && !t.st.initialized) with
    | false =>
      have e := hA hg
      unfold ring_inv
      simp only [e, hg, Bool.false_eq_true, if_false]
      exact ⟨h1, h2, h3, h4, h5⟩
    | true =>
      obtain ⟨c1, c2, c3, c4⟩ := hB hg
      unfold ring_inv
      simp only [c1, c2, c3, c4, hg, if_true]
      decide
  | send data len =>
    refine ⟨_, rfl, ?_⟩
    obtain ⟨s1, s2, s3, s4, s5⟩ := send_cursors t.st data len h1
    have ha := tx_available_eq t.st
    unfold ring_inv
    simp only [s1, s2, s3]
    cases hr : (kmbox_interface_send t.st data len).1 with
    | false =>
      simp only [s4 hr, Bool.false_eq_true, if_false]
      exact ⟨h1, h2, h3, h4, h5⟩
    | true =>
      obtain ⟨e, hle⟩ := s5 hr
      simp only [e, if_true]
      refine ⟨Nat.mod_lt _ (by decide), h2, h3, h4, ?_⟩
      rw [h5]; omega
  | process hw =>
    obtain ⟨s1, out, e, p1, p2, p3, p4, p5, p6⟩ := process_ring pio fuel t.st hw h1 h2 h3 h4 hf
    refine ⟨{ st := s1, pending := t.pending - drained out }, ?_, ?_⟩
    · simp [api_step, e, drained]
    · unfold ring_inv
      simp only [p1]
      exact ⟨h1, p2, p3, p4, by rw [h5, p6]⟩
  | deinit hw =>
    refine ⟨_, rfl, ?_⟩
    obtain ⟨d1, d2, d3, d4⟩ := deinit_cursors pio t.st hw
    unfold ring_inv
    simp only [d1, d2, d3, d4]
    exact ⟨h1, h2, h3, h4, h5⟩

theorem api_run_inv (pio : Bool) (fuel : Nat) (hf : 2 ≤ fuel) (calls : List api_call) :
    ∀ t, ring_inv t → ∃ t1, api_run pio fuel calls t = some t1 ∧ ring_inv t1 := by
  induction calls with
  | nil => intro t h; exact ⟨t, rfl, h⟩
  | cons c rest ih =>
    intro t h
    obtain ⟨t1, e1, h1⟩ := api_step_inv pio fuel t c h hf
    obtain ⟨t2, e2, h2⟩ := ih t1 h1
    exact ⟨t2, by simp [api_run, e1, e2], h2⟩

theorem boot_inv : ring_inv boot := by
  unfold ring_inv; decide

/-- Arithmetic of a successful send on the TX ring. -/
theorem ring_after_send (head tail len : Nat) (h1 : head < 256) (h2 : tail < 256)
    (hpos : 0 < len) (hle : len ≤ (tail + 256 * head + 255 - head) % 256) :
    ((head + len) % 256 + 256 * tail - tail) % 256 = (head + 256 * tail - tail) % 256 + len ∧
    ((head + len) % 256 + 256 * tail - tail) % 256 ≤ TX_BUFFER_SIZE - 1 ∧
    (head + len) % 256 ≠ tail := by
  unfold TX_BUFFER_SIZE
  refine ⟨?_, ?_, ?_⟩ <;> omega

/-- C5.  Ring buffer capacity invariant (TX): every sequence of
init / send / process / deinit calls from program start runs to completion (two
iterations of the consumption loop per `process` suffice), and afterwards the
number of bytes accepted by `send` into the ring and not yet handed over by
`process` equals `(tx_head - tx_tail) & 255` and is at most `capacity - 1 = 255`;
the free space used by the capacity check is exactly `255` minus that number;
and a send that succeeds raises the occupancy by exactly `len`, the head never
reaching the tail.  (Clearing the state in `init` empties the ring.) -/
theorem tx_capacity_invariant (pio : Bool) (fuel : Nat) (calls : List api_call)
    (hf : 2 ≤ fuel) :
    ∃ t, api_run pio fuel calls boot = some t ∧
      t.pending = tx_occupancy t.st ∧
      tx_occupancy t.st ≤ TX_BUFFER_SIZE - 1 ∧
      tx_available t.st = TX_BUFFER_SIZE - 1 - tx_occupancy t.st ∧
      (∀ data len, (kmbox_interface_send t.st data len).1 = true →
        tx_occupancy (kmbox_interface_send t.st data len).2 = tx_occupancy t.st + len ∧
        tx_occupancy (kmbox_interface_send t.st data len).2 ≤ TX_BUFFER_SIZE - 1 ∧
        (kmbox_interface_send t.st data len).2.tx_head ≠
          (kmbox_interface_send t.st data len).2.tx_tail) := by
  obtain ⟨t, e, h1, h2, _, _, h5⟩ := api_run_inv pio fuel hf calls boot boot_inv
  have ho := tx_occupancy_eq t.st
  have ha := tx_available_eq t.st
  refine ⟨t, e, ?_, ?_, ?_, ?_⟩
  · rw [h5, ho]; omega
  · rw [ho]; unfold TX_BUFFER_SIZE; omega
  · rw [ho, ha]; unfold TX_BUFFER_SIZE; omega
  · intro data len hr
    obtain ⟨s1, _, _, _, s5⟩ := send_cursors t.st data len h1
    obtain ⟨eh, hle⟩ := s5 hr
    obtain ⟨_, _, _, hpos, _, _⟩ := send_success_eq t.st data len hr
    have ho2 := tx_occupancy_eq (kmbox_interface_send t.st data len).2
    rw [s1, eh] at ho2
    rw [ha] at hle
    obtain ⟨a1, a2, a3⟩ := ring_after_send t.st.tx_head t.st.tx_tail len h1 h2 hpos hle
    refine ⟨?_, ?_, ?_⟩
    · rw [ho2, ho]; exact a1
    · rw [ho2]; exact a2
    · rw [s1, eh]; exact a3

/-- C5, worked example: after init, a five-byte send, a `process` pass and a
three-byte send, eight bytes are pending and the ring holds eight. -/
theorem tx_capacity_invariant_witness :
    ∃ t, api_run false 2 sample_session boot = some t ∧
      t.pending = 8 ∧ tx_occupancy t.st = 8 ∧ tx_available t.st = 247 := by
  obtain ⟨t, e, h1, _, h3, _⟩ := tx_capacity_invariant false 2 sample_session (by decide)
  have hp : (api_run false 2 sample_session boot).map tracked_t.pending = some 8 := by decide
  rw [e] at hp
  have hp8 : t.pending = 8 := by simpa using hp
  refine ⟨t, e, hp8, ?_, ?_⟩
  · rw [← h1, hp8]
  · rw [h3, ← h1, hp8]; rfl

/-! ## Configuration errors, statistics -/

/-- After `init` has passed its first guard the statistics are all zero,
whether the backend then succeeds or not. -/
theorem init_stats_zero (pio : Bool) (s : kmbox_interface_state_t)
    (cfg : kmbox_interface_config_t) (hw : sdk_hw_t) (hi : s.initialized = false) :
    (kmbox_interface_init pio s (some cfg) hw).2.1.stats = zero_stats := by
  obtain ⟨hU, hP, hN⟩ := init_unfold pio s cfg hw hi
  have key : ∀ r : Bool × kmbox_interface_state_t × List sdk_call,
      same_core (cleared_state cfg) r.2.1 →
      (if r.1 then { r.2.1 with initialized := true } else r.2.1).stats = zero_stats := by
    rintro ⟨b, s2, c⟩ ⟨_, _, _, _, _, c5, _⟩
    cases b <;> exact c5
  cases htt : cfg.transport_type with
  | KMBOX_TRANSPORT_NONE => rw [hN (Or.inl htt)]; rfl
  | KMBOX_TRANSPORT_UART => rw [hU htt]; exact key _ (init_uart_core (cleared_state cfg) cfg hw)
  | KMBOX_TRANSPORT_PIO_UART =>
    cases pio with
    | false => rw [hN (Or.inr ⟨htt, rfl⟩)]; rfl
    | true => rw [hP htt rfl]; exact key _ (init_pio_uart_core (cleared_state cfg) cfg hw)

theorem init_uart_bad_pins (s : kmbox_interface_state_t) (cfg : kmbox_interface_config_t)
    (hw : sdk_hw_t)
    (h : ¬ ((cfg.tx_pin = 0 ∧ cfg.rx_pin = 1) ∨ (cfg.tx_pin = 4 ∧ cfg.rx_pin = 5))) :
    init_uart s cfg hw = (false, s, []) := by
  have e1 : (cfg.tx_pin == 0 && cfg.rx_pin == 1) = false := by
    simp only [Bool.and_eq_false_iff, beq_eq_false_iff_ne, ne_eq]; tauto
  have e2 : (cfg.tx_pin == 4 && cfg.rx_pin == 5) = false := by
    simp only [Bool.and_eq_false_iff, beq_eq_false_iff_ne, ne_eq]; tauto
  unfold init_uart
  simp only [e1, e2, Bool.false_eq_true, if_false]

/-- C11, counterexample.  After init, a rejected send and deinit the error
counter stands at 1 and DMA channel 0 is recorded; an init with the pin pair
(2, 3) then fails, and afterwards the error counter is 0, the recorded channel
is -1 and the rejected configuration is stored: the state is not the one before
the call. -/
theorem init_config_error_counterexample :
    after_rejected_send.initialized = false ∧
    (kmbox_interface_init false after_rejected_send (some bad_pins_config) sample_sdk).1 = false ∧
    after_rejected_send.stats.errors = 1 ∧
    (kmbox_interface_init false after_rejected_send (some bad_pins_config) sample_sdk).2.1.stats.errors
      = 0 ∧
    after_rejected_send.dma_rx_chan = 0 ∧
    (kmbox_interface_init false after_rejected_send (some bad_pins_config) sample_sdk).2.1.dma_rx_chan
      = -1 ∧
    (kmbox_interface_init false after_rejected_send (some bad_pins_config) sample_sdk).2.1.config
      ≠ after_rejected_send.config ∧
    (kmbox_interface_init false after_rejected_send (some bad_pins_config) sample_sdk).2.1
      ≠ after_rejected_send := by
  refine ⟨by decide, by decide, by decide, by decide, by decide, by decide, by decide, ?_⟩
  intro h
  have := congrArg (fun s => s.stats.errors) h
  revert this
  decide

/-- C11, as amended.  When `kmbox_interface_init` fails because `config` is
null or the instance is already initialised, the state after the call is the
state before it and no SDK call has been made.  When it fails because of an
unrecognised UART pin pairing, the state has already been cleared: afterwards
it is the all-zero state with both DMA channel ids at -1 and the rejected
configuration stored (so `initialized` is false), whatever it was before. -/
theorem init_config_error_state (pio : Bool) (s : kmbox_interface_state_t)
    (config : Option kmbox_interface_config_t) (hw : sdk_hw_t) :
    ((config = none ∨ s.initialized = true) →
      kmbox_interface_init pio s config hw = (false, s, [])) ∧
    (∀ cfg, config = some cfg → s.initialized = false →
      cfg.transport_type = KMBOX_TRANSPORT_UART →
      ¬ ((cfg.tx_pin = 0 ∧ cfg.rx_pin = 1) ∨ (cfg.tx_pin = 4 ∧ cfg.rx_pin = 5)) →
      kmbox_interface_init pio s config hw = (false, cleared_state cfg, []) ∧
      (cleared_state cfg).initialized = false ∧ (cleared_state cfg).stats = zero_stats ∧
      (cleared_state cfg).dma_rx_chan = -1 ∧ (cleared_state cfg).dma_tx_chan = -1 ∧
      (cleared_state cfg).config = cfg) := by
  constructor
  · rintro (h | h)
    · subst h; rfl
    · cases config with
      | none => rfl
      | some cfg => simp [kmbox_interface_init, h]
  · intro cfg hc hi ht hp
    subst hc
    refine ⟨?_, rfl, rfl, rfl, rfl, rfl⟩
    rw [(init_unfold pio s cfg hw hi).1 ht, init_uart_bad_pins _ cfg hw hp]
    rfl

/-- C11, worked example of the amended property: the pin pair (2, 3) on the
state at program start. -/
theorem init_config_error_state_witness :
    kmbox_interface_init false g_interface (some bad_pins_config) sample_sdk =
      (false, cleared_state bad_pins_config, []) :=
  ((init_config_error_state false g_interface (some bad_pins_config) sample_sdk).2
    bad_pins_config rfl rfl rfl (by decide)).1

/-- C13, counterexample.  After init, a capacity-rejected send and deinit, the
interface is uninitialised and `get_stats` writes `errors == 1`, not zero. -/
theorem get_stats_counterexample :
    (kmbox_interface_send
      (kmbox_interface_init false g_interface (some KMBOX_UART_DEFAULT_CONFIG) sample_sdk).2.1
      (some sample_data) 300).1 = false ∧
    after_rejected_send.initialized = false ∧
    kmbox_interface_get_stats after_rejected_send (some zero_stats) =
      some { zero_stats with errors := 1 } := by
  refine ⟨by decide, by decide, by decide⟩

/-- C13, as amended.  `kmbox_interface_get_stats` writes the current statistics
block whether or not the interface is initialised (and writes nothing through a
null pointer); `deinit` leaves the statistics as they are, so after traffic
they are still read back; the block read on an uninitialised interface is
all-zero at program start and after an `init` that got past its first guard
and failed. -/
theorem get_stats_reads_current (pio : Bool) (s : kmbox_interface_state_t)
    (out : kmbox_interface_stats_t) (hw : sdk_hw_t) :
    kmbox_interface_get_stats s (some out) = some s.stats ∧
    kmbox_interface_get_stats s none = none ∧
    (kmbox_interface_deinit pio s hw).1.stats = s.stats ∧
    (kmbox_interface_deinit pio s hw).1.initialized = false ∧
    kmbox_interface_get_stats (kmbox_interface_deinit pio s hw).1 (some out) = some s.stats ∧
    kmbox_interface_get_stats g_interface (some out) = some zero_stats ∧
    (∀ cfg, s.initialized = false →
      (kmbox_interface_init pio s (some cfg) hw).1 = false →
      kmbox_interface_get_stats (kmbox_interface_init pio s (some cfg) hw).2.1 (some out) =
        some zero_stats) := by
  have hd : (kmbox_interface_deinit pio s hw).1.stats = s.stats := by
    unfold kmbox_interface_deinit
    cases s.initialized <;> rfl
  have hi : (kmbox_interface_deinit pio s hw).1.initialized = false := by
    unfold kmbox_interface_deinit
    cases h : s.initialized
    · simpa using h
    · rfl
  refine ⟨rfl, rfl, hd, hi, ?_, rfl, ?_⟩
  · show some (kmbox_interface_deinit pio s hw).1.stats = some s.stats
    rw [hd]
  · intro cfg hin hf
    show some (kmbox_interface_init pio s (some cfg) hw).2.1.stats = some zero_stats
    rw [init_stats_zero pio s cfg hw hin]

theorem u32_of_lt (x : Nat) (h : x < 4294967296) : u32 (x + 0) = x := by
  unfold u32; omega

theorem rx_poll_errors_le (tail : Nat) (l : List Nat) :
    ∀ (buf : Nat → Nat) (head e : Nat), e < 4294967296 →
      ∃ k, k ≤ l.length ∧ (rx_poll tail l buf head e).2.2 = u32 (e + k) := by
  induction l with
  | nil => intro buf head e he; exact ⟨0, by simp, by simp [rx_poll, u32]; omega⟩
  | cons b rest ih =>
    intro buf head e he
    rw [rx_poll]
    split
    · obtain ⟨k, hk1, hk⟩ := ih (Function.update buf head b) ((head + 1) &&& RX_BUFFER_MASK) e he
      exact ⟨k, by simp; omega, hk⟩
    · obtain ⟨k, hk1, hk⟩ := ih buf head (u32 (e + 1)) (u32_lt _)
      exact ⟨k + 1, by simp; omega, by rw [hk]; unfold u32; omega⟩

theorem rx_consume_received_sum (cb : Bool) (buf : Nat → Nat) (head : Nat) (fuel : Nat) :
    ∀ (tail received t r : Nat) (spans : List callback_span), received < 4294967296 →
      rx_consume cb buf head fuel tail received = some (t, r, spans) →
      r = u32 (received + (spans.map callback_span.len).sum) := by
  induction fuel with
  | zero =>
    intro tail received t r spans hr h
    rw [rx_consume] at h
    split at h
    · cases h
    · cases h; simp [u32]; omega
  | succ fuel ih =>
    intro tail received t r spans hr h
    rw [rx_consume] at h
    split at h
    · simp only at h
      split at h
      · cases h
      · rename_i t1 r1 sp1 heq
        cases h
        by_cases hd : (cb && decide (rx_chunk_size head tail > 0)) = true
        · simp only [hd, if_true] at heq ⊢
          have hk := ih _ _ _ _ _ (u32_lt _) heq
          rw [hk]
          simp only [List.map_cons, List.sum_cons, span_of]
          unfold u32; omega
        · simp only [hd, Bool.false_eq_true, if_false] at heq ⊢
          exact ih _ _ _ _ _ hr heq
    · cases h; simp [u32]; omega

/-- The receive half of `process` advances `bytes_received` by the bytes handed
to the callback and `errors` by at most one per byte polled (by nothing on the
DMA path), and leaves the other counters alone. -/
theorem process_rx_stats_exact (fuel : Nat) (s s1 : kmbox_interface_state_t) (hw : process_hw_t)
    (spans : List callback_span) (hr : stats_in_range s.stats)
    (h : process_rx fuel s hw = some (s1, spans)) :
    ∃ ke, ke ≤ hw.rx_fifo.length ∧
      ((s.config.use_dma && decide (s.dma_rx_chan ≥ 0)) = true → ke = 0) ∧
      stats_advanced_by s.stats s1.stats (spans.map callback_span.len).sum 0 ke := by
  obtain ⟨r1, r2, _, _, r5, _⟩ := hr
  unfold process_rx at h
  cases hp : (s.config.use_dma && decide (s.dma_rx_chan ≥ 0)) with
  | true =>
    simp only [hp, if_true] at h
    split at h
    · cases h
    · rename_i t r sp heq
      cases h
      have hk := rx_consume_received_sum _ _ _ _ _ _ _ _ _ r1 heq
      exact ⟨0, Nat.zero_le _, fun _ => rfl,
        hk, (u32_of_lt _ r2).symm, (u32_of_lt _ r5).symm, rfl, rfl, rfl⟩
  | false =>
    simp only [hp, Bool.false_eq_true, if_false] at h
    split at h
    · cases h
    · rename_i t r sp heq
      cases h
      have hk := rx_consume_received_sum _ _ _ _ _ _ _ _ _ r1 heq
      obtain ⟨ke, hke1, hke⟩ :=
        rx_poll_errors_le s.rx_tail hw.rx_fifo s.rx_buffer s.rx_head s.stats.errors r5
      exact ⟨ke, hke1, fun h => (by cases h), hk, (u32_of_lt _ r2).symm, hke, rfl, rfl, rfl⟩

theorem process_pio_tx_stats (s : kmbox_interface_state_t) (hw : process_hw_t) :
    (process_pio_tx s hw).1.stats = s.stats := by
  unfold process_pio_tx
  split
  · split
    · simp only
      split <;> (split <;> rfl)
    · rfl
  · rfl

theorem process_stats_exact (pio : Bool) (fuel : Nat) (s s1 : kmbox_interface_state_t)
    (hw : process_hw_t) (out : process_out_t) (hr : stats_in_range s.stats)
    (h : kmbox_interface_process pio fuel s hw = some (s1, out)) :
    ∃ ke, ke ≤ hw.rx_fifo.length ∧
      ((s.config.use_dma && decide (s.dma_rx_chan ≥ 0)) = true → ke = 0) ∧
      stats_advanced_by s.stats s1.stats (out.spans.map callback_span.len).sum 0 ke := by
  have hsame : ∃ ke, ke ≤ hw.rx_fifo.length ∧
      ((s.config.use_dma && decide (s.dma_rx_chan ≥ 0)) = true → ke = 0) ∧
      stats_advanced_by s.stats s.stats (no_output.spans.map callback_span.len).sum 0 ke :=
    ⟨0, Nat.zero_le _, fun _ => rfl,
      (u32_of_lt _ hr.1).symm, (u32_of_lt _ hr.2.1).symm, (u32_of_lt _ hr.2.2.2.2.1).symm,
      rfl, rfl, rfl⟩
  unfold kmbox_interface_process at h
  cases hi : s.initialized with
  | false => simp [hi] at h; rw [← h.1, ← h.2]; exact hsame
  | true =>
    simp only [hi, Bool.not_true, Bool.false_eq_true, if_false] at h
    cases htt : s.config.transport_type with
    | KMBOX_TRANSPORT_NONE => simp [htt] at h; rw [← h.1, ← h.2]; exact hsame
    | KMBOX_TRANSPORT_UART =>
      simp only [htt, process_uart] at h
      split at h
      · cases h
      · rename_i s2 sp heq
        cases h
        exact process_rx_stats_exact fuel s _ hw sp hr heq
    | KMBOX_TRANSPORT_PIO_UART =>
      cases pio with
      | false => simp [htt] at h; rw [← h.1, ← h.2]; exact hsame
      | true =>
        simp only [htt, if_true, process_pio_uart] at h
        split at h
        · cases h
        · rename_i s2 sp heq
          cases h
          rw [process_pio_tx_stats]
          exact process_rx_stats_exact fuel s _ hw sp hr heq

theorem send_stats_exact (s : kmbox_interface_state_t) (data : Option (Nat → Nat)) (len : Nat)
    (hr : stats_in_range s.stats) :
    ∃ ks ke, stats_advanced_by s.stats (kmbox_interface_send s data len).2.stats 0 ks ke ∧
      ((kmbox_interface_send s data len).1 = true → ks = len ∧ ke = 0) ∧
      ((kmbox_interface_send s data len).1 = false → ks = 0 ∧ ke ≤ 1) := by
  obtain ⟨r1, r2, _, _, r5, _⟩ := hr
  cases hres : (kmbox_interface_send s data len).1 with
  | true =>
    obtain ⟨d, _, _, _, _, e⟩ := send_success_eq s data len hres
    rw [e]
    exact ⟨len, 0, ⟨(u32_of_lt _ r1).symm, rfl, (u32_of_lt _ r5).symm, rfl, rfl, rfl⟩,
      fun _ => ⟨rfl, rfl⟩, fun h => (by cases h)⟩
  | false =>
    rcases send_failure_eq s data len hres with e | e
    · rw [e]
      exact ⟨0, 0, ⟨(u32_of_lt _ r1).symm, (u32_of_lt _ r2).symm, (u32_of_lt _ r5).symm,
        rfl, rfl, rfl⟩, fun h => (by cases h), fun _ => ⟨rfl, by omega⟩⟩
    · rw [e]
      exact ⟨0, 1, ⟨(u32_of_lt _ r1).symm, (u32_of_lt _ r2).symm, rfl, rfl, rfl, rfl⟩,
        fun h => (by cases h), fun _ => ⟨rfl, by omega⟩⟩

theorem deinit_stats (pio : Bool) (s : kmbox_interface_state_t) (hw : sdk_hw_t) :
    (kmbox_interface_deinit pio s hw).1.stats = s.stats := by
  unfold kmbox_interface_deinit
  cases s.initialized <;> rfl

/-- C12, counterexample.  With the error counter at `UINT32_MAX`, a
capacity-rejected send wraps it to 0: the counter has decreased without any
`init`. -/
theorem stats_monotonic_counterexample :
    sample_state_errors_max.stats.errors = 4294967295 ∧
    (kmbox_interface_send sample_state_errors_max (some sample_data) 11).1 = false ∧
    (kmbox_interface_send sample_state_errors_max (some sample_data) 11).2.stats.errors = 0 ∧
    (kmbox_interface_send sample_state_errors_max (some sample_data) 11).2.stats.errors <
      sample_state_errors_max.stats.errors := by
  refine ⟨by decide, by decide, by decide, by decide⟩

/-- C12, as amended.  On a statistics block of `uint32_t` values every call
advances the counters by amounts fixed by the traffic of that call, each
modulo `2^32`: a successful `send` adds `len` to `bytes_sent` and nothing to
`errors`, a failed `send` adds nothing to `bytes_sent` and at most one to
`errors`; `process` adds to `bytes_received` exactly the lengths of the spans
it hands to the callback and to `errors` at most one per byte polled from the
FIFO (nothing on the DMA path); `deinit` changes nothing (`is_ready` and
`get_stats` assign nothing); the three packet and command counters never
change.  So no counter decreases or is reset unless its 32-bit value wraps
around, and a call without traffic leaves the block as it was.  Only
`kmbox_interface_init`, once past its first guard, sets all counters to
zero. -/
theorem stats_advance_mod (pio : Bool) (fuel : Nat) (s : kmbox_interface_state_t)
    (hr : stats_in_range s.stats) :
    (∀ data len, ∃ ks ke,
      stats_advanced_by s.stats (kmbox_interface_send s data len).2.stats 0 ks ke ∧
      ((kmbox_interface_send s data len).1 = true → ks = len ∧ ke = 0) ∧
      ((kmbox_interface_send s data len).1 = false → ks = 0 ∧ ke ≤ 1)) ∧
    (∀ hw s1 out, kmbox_interface_process pio fuel s hw = some (s1, out) →
      (∃ ke, ke ≤ hw.rx_fifo.length ∧
        ((s.config.use_dma && decide (s.dma_rx_chan ≥ 0)) = true → ke = 0) ∧
        stats_advanced_by s.stats s1.stats (out.spans.map callback_span.len).sum 0 ke) ∧
      (s.stats.bytes_received + (out.spans.map callback_span.len).sum < 4294967296 →
        s1.stats.bytes_received =
          s.stats.bytes_received + (out.spans.map callback_span.len).sum) ∧
      (s.stats.errors + hw.rx_fifo.length < 4294967296 →
        s.stats.errors ≤ s1.stats.errors ∧
        s1.stats.errors ≤ s.stats.errors + hw.rx_fifo.length) ∧
      (out.spans = [] → hw.rx_fifo = [] → s1.stats = s.stats)) ∧
    (∀ hw, (kmbox_interface_deinit pio s hw).1.stats = s.stats) ∧
    (∀ b kr ks ke, stats_advanced_by s.stats b kr ks ke →
      stats_in_range b ∧
      (s.stats.bytes_received + kr < 4294967296 → s.stats.bytes_received ≤ b.bytes_received) ∧
      (s.stats.bytes_sent + ks < 4294967296 → s.stats.bytes_sent ≤ b.bytes_sent) ∧
      (s.stats.errors + ke < 4294967296 → s.stats.errors ≤ b.errors)) ∧
    (∀ cfg hw, s.initialized = false →
      (kmbox_interface_init pio s (some cfg) hw).2.1.stats = zero_stats) := by
  refine ⟨fun data len => send_stats_exact s data len hr, ?_,
    fun hw => deinit_stats pio s hw, ?_,
    fun cfg hw hi => init_stats_zero pio s cfg hw hi⟩
  · intro hw s1 out h
    obtain ⟨ke, hke, hdma, hadv⟩ := process_stats_exact pio fuel s s1 hw out hr h
    refine ⟨⟨ke, hke, hdma, hadv⟩, ?_, ?_, ?_⟩
    · intro hn; rw [hadv.1]; exact Nat.mod_eq_of_lt hn
    · intro hn
      have e : s1.stats.errors = s.stats.errors + ke := by
        rw [hadv.2.2.1]; exact Nat.mod_eq_of_lt (by omega)
      omega
    · intro hsp hf
      have hk0 : ke = 0 := by rw [hf] at hke; simpa using hke
      obtain ⟨h1, h2, h3, h4, h5, h6⟩ := hadv
      rw [hsp] at h1
      rw [hk0] at h3
      have e1 : s1.stats.bytes_received = s.stats.bytes_received := by
        rw [h1]; exact Nat.mod_eq_of_lt (by simpa using hr.1)
      have e2 : s1.stats.bytes_sent = s.stats.bytes_sent := by
        rw [h2]; exact Nat.mod_eq_of_lt (by simpa using hr.2.1)
      have e3 : s1.stats.errors = s.stats.errors := by
        rw [h3]; exact Nat.mod_eq_of_lt (by simpa using hr.2.2.2.2.1)
      cases hs1 : s1.stats
      cases hs : s.stats
      rw [hs1, hs] at e1 e2 e3 h4 h5 h6
      simp only at e1 e2 e3 h4 h5 h6
      rw [e1, e2, e3, h4, h5, h6]
  · intro b kr ks ke ⟨h1, h2, h3, h4, h5, h6⟩
    obtain ⟨_, _, r3, r4, _, r6⟩ := hr
    refine ⟨⟨by rw [h1]; exact u32_lt _, by rw [h2]; exact u32_lt _, by rw [h4]; exact r3,
      by rw [h5]; exact r4, by rw [h3]; exact u32_lt _, by rw [h6]; exact r6⟩, ?_, ?_, ?_⟩
    · intro h; rw [h1]; unfold u32; omega
    · intro h; rw [h2]; unfold u32; omega
    · intro h; rw [h3]; unfold u32; omega

/-- C12, worked example of the amended property: the rejected eleven-byte send
on the ring with ten free bytes advances `errors` by at most one and
`bytes_sent` by nothing. -/
theorem stats_advance_mod_witness :
    ∃ ks ke, stats_advanced_by sample_state_free10.stats
      (kmbox_interface_send sample_state_free10 (some sample_data) 11).2.stats 0 ks ke ∧
      ((kmbox_interface_send sample_state_free10 (some sample_data) 11).1 = true →
        ks = 11 ∧ ke = 0) ∧
      ((kmbox_interface_send sample_state_free10 (some sample_data) 11).1 = false →
        ks = 0 ∧ ke ≤ 1) :=
  (stats_advance_mod false 2 sample_state_free10
    ⟨by decide, by decide, by decide, by decide, by decide, by decide⟩).1 (some sample_data) 11

/-! ## One init/deinit cycle: TX stall and cursor ranges -/

theorem init_success_fresh (pio : Bool) (s : kmbox_interface_state_t)
    (cfg : kmbox_interface_config_t) (hw : sdk_hw_t)
    (h : (kmbox_interface_init pio s (some cfg) hw).1 = true) :
    freshly_initialized (kmbox_interface_init pio s (some cfg) hw).2.1 := by
  cases hi : s.initialized with
  | true => simp [kmbox_interface_init, hi] at h
  | false => exact (init_outcome pio s cfg hw hi).2.1 h

/-- The consumption loop on in-range cursors: it returns within two
iterations with `tail = head`, and every span lies inside the buffer. -/
theorem rx_consume_bounds (cb : Bool) (buf : Nat → Nat) (h t fuel received : Nat)
    (ht : t < 512) (hh : h < 512) (hf : 2 ≤ fuel) :
    ∃ r spans, rx_consume cb buf h fuel t received = some (h, r, spans) ∧
      ∀ sp, sp ∈ spans → 0 < sp.len ∧ sp.start + sp.len ≤ 512 := by
  obtain ⟨f, rfl⟩ : ∃ f, fuel = f + 2 := ⟨fuel - 2, by omega⟩
  rcases Nat.lt_trichotomy t h with hlt | heq | hgt
  · refine ⟨_, _, rx_consume_lt cb buf h t (f + 1) received hlt hh, ?_⟩
    intro sp hsp
    cases cb
    · simp at hsp
    · simp at hsp; subst hsp; simp [span_of]; omega
  · subst heq
    refine ⟨_, _, rx_consume_done cb buf t (f + 2) received, ?_⟩
    intro sp hsp; simp at hsp
  · refine ⟨_, _, rx_consume_wrap cb buf h t f received hgt ht, ?_⟩
    intro sp hsp
    cases cb
    · simp at hsp
    · by_cases h0 : h = 0
      · simp [h0] at hsp; subst hsp; simp [span_of]; omega
      · simp [h0] at hsp
        rcases hsp with hsp | hsp
        · subst hsp; simp [span_of]; omega
        · subst hsp; simp [span_of]; omega

/-- The receive half of `process` on in-range cursors: it returns, the cursors
stay in range, `rx_tail` ends at the computed head, every span lies inside
`rx_buffer`, and the transmit side and the flags are untouched. -/
theorem process_rx_full (fuel : Nat) (s : kmbox_interface_state_t) (hw : process_hw_t)
    (hh : s.rx_head < 512) (ht : s.rx_tail < 512) (hf : 2 ≤ fuel) :
    ∃ s1 spans, process_rx fuel s hw = some (s1, spans) ∧
      s1.rx_head < 512 ∧ s1.rx_tail < 512 ∧
      s1.rx_tail = (if (s.config.use_dma && decide (s.dma_rx_chan ≥ 0)) = true
                    then dma_head hw else s1.rx_head) ∧
      (∀ sp, sp ∈ spans → 0 < sp.len ∧ sp.start + sp.len ≤ 512) ∧
      s1.tx_head = s.tx_head ∧ s1.tx_tail = s.tx_tail ∧
      s1.tx_in_progress = s.tx_in_progress ∧ s1.initialized = s.initialized ∧
      s1.config = s.config := by
  cases hp : (s.config.use_dma && decide (s.dma_rx_chan ≥ 0)) with
  | true =>
    obtain ⟨r, spans, hc, hb⟩ :=
      rx_consume_bounds s.config.on_command_received hw.rx_memory (dma_head hw) s.rx_tail fuel
        s.stats.bytes_received ht (dma_head_lt hw) hf
    refine ⟨{ s with rx_buffer := hw.rx_memory, rx_tail := dma_head hw,
                     stats := { s.stats with bytes_received := r } }, spans, ?_,
      hh, dma_head_lt hw, by simp, hb, rfl, rfl, rfl, rfl, rfl⟩
    unfold process_rx
    simp only [hp, if_true, hc]
  | false =>
    have hlt := rx_poll_head_lt s.rx_tail hw.rx_fifo s.rx_buffer s.rx_head s.stats.errors hh
    obtain ⟨r, spans, hc, hb⟩ :=
      rx_consume_bounds s.config.on_command_received
        (rx_poll s.rx_tail hw.rx_fifo s.rx_buffer s.rx_head s.stats.errors).1
        (rx_poll s.rx_tail hw.rx_fifo s.rx_buffer s.rx_head s.stats.errors).2.1 s.rx_tail fuel
        s.stats.bytes_received ht hlt hf
    refine ⟨{ s with
        rx_buffer := (rx_poll s.rx_tail hw.rx_fifo s.rx_buffer s.rx_head s.stats.errors).1
        rx_head := (rx_poll s.rx_tail hw.rx_fifo s.rx_buffer s.rx_head s.stats.errors).2.1
        rx_tail := (rx_poll s.rx_tail hw.rx_fifo s.rx_buffer s.rx_head s.stats.errors).2.1
        stats := { s.stats with
          errors := (rx_poll s.rx_tail hw.rx_fifo s.rx_buffer s.rx_head s.stats.errors).2.2
          bytes_received := r } }, spans, ?_,
      hlt, hlt, by simp, hb, rfl, rfl, rfl, rfl, rfl⟩
    unfold process_rx
    simp only [hp, Bool.false_eq_true, if_false, hc]

/-- The transmit half of `process_pio_uart` does nothing when the TX ring is
empty or `tx_in_progress` is set. -/
theorem process_pio_tx_stalled (s : kmbox_interface_state_t) (hw : process_hw_t)
    (h : s.tx_head = s.tx_tail ∨ s.tx_in_progress = true) :
    process_pio_tx s hw = (s, no_output) := by
  unfold process_pio_tx
  have hc : (s.tx_head != s.tx_tail && !s.tx_in_progress) = false := by
    rcases h with h | h
    · simp [h]
    · simp [h]
  simp only [hc, Bool.false_eq_true, if_false]

/-- One `process` call on in-range cursors with the transmit side stalled: it
returns, hands nothing to the TX hardware, and leaves the transmit side as it
was. -/
theorem process_stalled (pio : Bool) (fuel : Nat) (s : kmbox_interface_state_t)
    (hw : process_hw_t) (hh : s.rx_head < 512) (ht : s.rx_tail < 512) (hf : 2 ≤ fuel)
    (hst : s.tx_head = s.tx_tail ∨ s.tx_in_progress = true) :
    ∃ s1 out, kmbox_interface_process pio fuel s hw = some (s1, out) ∧
      drained out = 0 ∧ out.putc = [] ∧ out.dma_tx = [] ∧
      s1.rx_head < 512 ∧ s1.rx_tail < 512 ∧
      (∀ sp, sp ∈ out.spans → 0 < sp.len ∧ sp.start + sp.len ≤ 512) ∧
      s1.tx_head = s.tx_head ∧ s1.tx_tail = s.tx_tail ∧
      s1.tx_in_progress = s.tx_in_progress ∧ s1.initialized = s.initialized := by
  have hidle : ∃ s1 out, some (s, no_output) = some (s1, out) ∧
      drained out = 0 ∧ out.putc = [] ∧ out.dma_tx = [] ∧
      s1.rx_head < 512 ∧ s1.rx_tail < 512 ∧
      (∀ sp, sp ∈ out.spans → 0 < sp.len ∧ sp.start + sp.len ≤ 512) ∧
      s1.tx_head = s.tx_head ∧ s1.tx_tail = s.tx_tail ∧
      s1.tx_in_progress = s.tx_in_progress ∧ s1.initialized = s.initialized :=
    ⟨s, no_output, rfl, rfl, rfl, rfl, hh, ht, by simp [no_output], rfl, rfl, rfl, rfl⟩
  unfold kmbox_interface_process
  cases hi : s.initialized with
  | false => simpa [hi] using hidle
  | true =>
    simp only [Bool.not_true, Bool.false_eq_true, if_false]
    cases htt : s.config.transport_type with
    | KMBOX_TRANSPORT_NONE => simpa [hi] using hidle
    | KMBOX_TRANSPORT_UART =>
      obtain ⟨s1, spans, e, r1, r2, _, r4, r5, r6, r7, r8, _⟩ := process_rx_full fuel s hw hh ht hf
      refine ⟨s1, { no_output with spans := spans }, ?_, rfl, rfl, rfl, r1, r2, r4, r5, r6, r7,
        by rw [r8]; exact hi⟩
      simp [process_uart, e]
    | KMBOX_TRANSPORT_PIO_UART =>
      cases pio with
      | false => simpa [hi] using hidle
      | true =>
        obtain ⟨s1, spans, e, r1, r2, _, r4, r5, r6, r7, r8, _⟩ :=
          process_rx_full fuel s hw hh ht hf
        have hst1 : s1.tx_head = s1.tx_tail ∨ s1.tx_in_progress = true := by
          rw [r5, r6, r7]; exact hst
        have et := process_pio_tx_stalled s1 hw hst1
        refine ⟨s1, { no_output with spans := spans }, ?_, rfl, rfl, rfl, r1, r2, r4, r5, r6, r7,
          by rw [r8]; exact hi⟩
        simp [process_pio_uart, e, et]

theorem session_start_inv (s : kmbox_interface_state_t) (h : freshly_initialized s) :
    session_inv (session_start s) := by
  obtain ⟨h1, h2, h3, h4, h5, _, _⟩ := h
  have e : (session_start s).st = s := rfl
  refine ⟨h1, h5, by rw [e, h4]; decide, h4.symm, rfl, by rw [e, h2]; decide,
    by rw [e, h3]; decide, fun hne => absurd h4 hne, ?_⟩
  intro sp hsp
  simp [session_start] at hsp

/-- Arithmetic of a successful send into a ring whose tail is 0. -/
theorem ring_send_tail0 (head len : Nat) (h1 : head < 256)
    (hle : len ≤ (0 + 256 * head + 255 - head) % 256) :
    (head + len) % 256 = head + len ∧ head + len < 256 := by
  constructor <;> omega

/-- Every data-path call returns on a session that satisfies the invariant and
re-establishes it; `tx_in_progress` is not cleared by it. -/
theorem session_step_inv (pio : Bool) (fuel : Nat) (c : session_t) (call : io_call)
    (hinv : session_inv c) (hf : 2 ≤ fuel) :
    ∃ c1, session_step pio fuel c call = some c1 ∧ session_inv c1 ∧
      (c.st.tx_in_progress = true → c1.st.tx_in_progress = true) := by
  obtain ⟨k1, k2, k3, k4, k5, k6, k7, k8, k9⟩ := hinv
  cases call with
  | send data len =>
    refine ⟨_, rfl, ?_⟩
    cases hr : (kmbox_interface_send c.st data len).1 with
    | true =>
      obtain ⟨d, _, hi, hpos, hle, e⟩ := send_success_eq c.st data len hr
      have eh := send_copy_head d len 0 c.st.tx_buffer c.st.tx_head k3
      rw [tx_available_eq, k2] at hle
      obtain ⟨a1, a2⟩ := ring_send_tail0 c.st.tx_head len k3 hle
      simp only [e, if_true]
      refine ⟨⟨k1, k2, ?_, ?_, k5, k6, k7, fun _ => rfl, k9⟩, fun _ => trivial⟩
      · show (send_copy d len 0 c.st.tx_buffer c.st.tx_head).2 < 256
        rw [eh, a1]; exact a2
      · show c.accepted + len = (send_copy d len 0 c.st.tx_buffer c.st.tx_head).2
        rw [eh, a1, k4]
    | false =>
      rcases send_failure_eq c.st data len hr with e | e <;>
        simp only [e, Bool.false_eq_true, if_false] <;>
        exact ⟨⟨k1, k2, k3, k4, k5, k6, k7, k8, k9⟩, fun h => h⟩
  | process hw =>
    have hst : c.st.tx_head = c.st.tx_tail ∨ c.st.tx_in_progress = true := by
      by_cases h0 : c.st.tx_head = 0
      · left; rw [h0, k2]
      · right; exact k8 h0
    obtain ⟨s1, out, e, p1, _, _, p4, p5, p6, p7, p8, p9, p10⟩ :=
      process_stalled pio fuel c.st hw k6 k7 hf hst
    refine ⟨{ c with st := s1, pushed := c.pushed + drained out, spans := c.spans ++ out.spans },
      by simp [session_step, e], ⟨?_, ?_, ?_, ?_, ?_, p4, p5, ?_, ?_⟩, ?_⟩
    · show s1.initialized = true
      rw [p10]; exact k1
    · show s1.tx_tail = 0
      rw [p8]; exact k2
    · show s1.tx_head < 256
      rw [p7]; exact k3
    · show c.accepted = s1.tx_head
      rw [p7]; exact k4
    · show c.pushed + drained out = 0
      rw [p1, k5]
    · show s1.tx_head ≠ 0 → s1.tx_in_progress = true
      rw [p7, p9]; exact k8
    · intro sp hsp
      have hsp2 : sp ∈ c.spans ++ out.spans := hsp
      rcases List.mem_append.mp hsp2 with h | h
      · exact k9 sp h
      · exact p6 sp h
    · show c.st.tx_in_progress = true → s1.tx_in_progress = true
      rw [p9]; exact fun h => h

theorem session_run_inv (pio : Bool) (fuel : Nat) (hf : 2 ≤ fuel) (calls : List io_call) :
    ∀ c, session_inv c → ∃ c1, session_run pio fuel calls c = some c1 ∧ session_inv c1 := by
  induction calls with
  | nil => intro c h; exact ⟨c, rfl, h⟩
  | cons call rest ih =>
    intro c h
    obtain ⟨c1, e1, h1, _⟩ := session_step_inv pio fuel c call h hf
    obtain ⟨c2, e2, h2⟩ := ih c1 h1
    exact ⟨c2, by simp [session_run, e1, e2], h2⟩

/-- C14, the code at the failing input.  PIO-UART backend with DMA off: `init`
succeeds, a three-byte send succeeds and leaves `tx_head = 3`, `tx_tail = 0`,
`tx_in_progress = true`; the following `process` call, with room for eight
bytes in the TX FIFO, pushes nothing, and the three cursors and the flag are
as before. -/
theorem pio_polled_egress_stalled :
    (kmbox_interface_init true g_interface (some sample_pio_config) sample_sdk).1 = true ∧
    (kmbox_interface_send
      (kmbox_interface_init true g_interface (some sample_pio_config) sample_sdk).2.1
      (some sample_data) 3).1 = true ∧
    pio_after_send3.tx_head = 3 ∧ pio_after_send3.tx_tail = 0 ∧
    pio_after_send3.tx_in_progress = true ∧
    (kmbox_interface_process true 2 pio_after_send3 hw_tx_room8).map
      (fun r => (r.2.putc, r.2.dma_tx, r.1.tx_head, r.1.tx_tail, r.1.tx_in_progress)) =
      some ([], [], 3, 0, true) := by
  refine ⟨by decide, by decide, by decide, by decide, by decide, by decide⟩

/-- C19.  TX is never drained: from a successful `init`, any sequence of `send`
and `process` calls (any transport, DMA or polled) runs to completion, and
afterwards a non-empty TX ring has `tx_in_progress` set, so the transmit branch
of `process` does nothing; no byte has been handed to the TX hardware,
`tx_tail` is still 0, `tx_in_progress` is set once a byte was accepted and no
further call clears it; the bytes accepted so far number `tx_head`, at most
255, the free space is 255 minus that number, and every send longer than the
free space fails. -/
theorem tx_never_drained (pio : Bool) (fuel : Nat) (s : kmbox_interface_state_t)
    (cfg : kmbox_interface_config_t) (hw0 : sdk_hw_t) (calls : List io_call)
    (hinit : (kmbox_interface_init pio s (some cfg) hw0).1 = true) (hf : 2 ≤ fuel) :
    ∃ c, session_run pio fuel calls
        (session_start (kmbox_interface_init pio s (some cfg) hw0).2.1) = some c ∧
      (c.st.tx_head ≠ c.st.tx_tail → c.st.tx_in_progress = true) ∧
      (∀ hw, process_pio_tx c.st hw = (c.st, no_output)) ∧
      c.pushed = 0 ∧ c.st.tx_tail = 0 ∧
      (0 < c.accepted → c.st.tx_in_progress = true) ∧
      (∀ call c1, session_step pio fuel c call = some c1 →
        c.st.tx_in_progress = true → c1.st.tx_in_progress = true) ∧
      c.accepted = c.st.tx_head ∧ c.accepted ≤ TX_BUFFER_SIZE - 1 ∧
      tx_available c.st = TX_BUFFER_SIZE - 1 - c.accepted ∧
      (∀ data len, TX_BUFFER_SIZE - 1 - c.accepted < len →
        (kmbox_interface_send c.st data len).1 = false) := by
  obtain ⟨c, e, hinv⟩ := session_run_inv pio fuel hf calls _
    (session_start_inv _ (init_success_fresh pio s cfg hw0 hinit))
  have hinv2 := hinv
  obtain ⟨k1, k2, k3, k4, k5, k6, k7, k8, k9⟩ := hinv
  have hst : c.st.tx_head = c.st.tx_tail ∨ c.st.tx_in_progress = true := by
    by_cases h0 : c.st.tx_head = 0
    · left; rw [h0, k2]
    · right; exact k8 h0
  have hav : tx_available c.st = TX_BUFFER_SIZE - 1 - c.accepted := by
    rw [tx_available_eq, k2, k4]; unfold TX_BUFFER_SIZE; omega
  refine ⟨c, e, ?_, fun hw => process_pio_tx_stalled c.st hw hst, k5, k2, ?_, ?_, k4, ?_, hav, ?_⟩
  · intro hne
    rw [k2] at hne
    exact k8 hne
  · intro hpos
    exact k8 (by omega)
  · intro call c1 h1
    obtain ⟨c2, e2, _, hm⟩ := session_step_inv pio fuel c call hinv2 hf
    rw [e2] at h1
    cases h1
    exact hm
  · unfold TX_BUFFER_SIZE; omega
  · intro data len hlen
    cases hr : (kmbox_interface_send c.st data len).1 with
    | false => rfl
    | true =>
      have := ((send_true_iff c.st data len).mp hr).2.2.2
      rw [hav] at this
      omega

/-- C19, worked example: from `init` with the default UART configuration, a
5-byte send is accepted, `process` hands nothing over, and a 251-byte send is
refused (250 bytes are free); 5 bytes are accepted in total and
`tx_in_progress` stays set. -/
theorem tx_never_drained_witness :
    ∃ c, session_run false 2 sample_io_calls
        (session_start
          (kmbox_interface_init false g_interface (some KMBOX_UART_DEFAULT_CONFIG) sample_sdk).2.1)
        = some c ∧
      c.accepted = 5 ∧ c.pushed = 0 ∧ c.st.tx_tail = 0 ∧ c.st.tx_head = 5 ∧
      c.st.tx_in_progress = true := by
  obtain ⟨c, e, _, _, h3, h4, h5, _, h7, _⟩ :=
    tx_never_drained false 2 g_interface KMBOX_UART_DEFAULT_CONFIG sample_sdk sample_io_calls
      (by decide) (by decide)
  have ha : (session_run false 2 sample_io_calls
      (session_start
        (kmbox_interface_init false g_interface (some KMBOX_UART_DEFAULT_CONFIG) sample_sdk).2.1)).map
      session_t.accepted = some 5 := by decide
  rw [e] at ha
  have ha2 : c.accepted = 5 := by simpa using ha
  exact ⟨c, e, ha2, h3, h4, by rw [← h7, ha2], h5 (by omega)⟩

/-- C20.  Cursor range invariant: from a successful `init`, any sequence of
`send` and `process` calls runs to completion with `rx_head, rx_tail < 512` and
`tx_head, tx_tail < 256`; every index the send loop uses is below 256; the head
computed on the DMA path is below 512 for every `write_addr`; every span handed
to the callback lies inside `rx_buffer`; and in the state reached, the receive
half of `process` returns within two iterations of the consumption loop with
`rx_tail` equal to the computed head (the DMA head, or the polled `rx_head`),
cursors in range and spans inside the buffer. -/
theorem cursor_range_invariant (pio : Bool) (fuel : Nat) (s : kmbox_interface_state_t)
    (cfg : kmbox_interface_config_t) (hw0 : sdk_hw_t) (calls : List io_call)
    (hinit : (kmbox_interface_init pio s (some cfg) hw0).1 = true) (hf : 2 ≤ fuel) :
    ∃ c, session_run pio fuel calls
        (session_start (kmbox_interface_init pio s (some cfg) hw0).2.1) = some c ∧
      c.st.rx_head < RX_BUFFER_SIZE ∧ c.st.rx_tail < RX_BUFFER_SIZE ∧
      c.st.tx_head < TX_BUFFER_SIZE ∧ c.st.tx_tail < TX_BUFFER_SIZE ∧
      (∀ i, (c.st.tx_head + i) &&& TX_BUFFER_MASK < TX_BUFFER_SIZE) ∧
      (∀ hw, dma_head hw < RX_BUFFER_SIZE) ∧
      (∀ sp, sp ∈ c.spans → 0 < sp.len ∧ sp.start + sp.len ≤ RX_BUFFER_SIZE) ∧
      (∀ hw, ∃ s1 spans, process_rx 2 c.st hw = some (s1, spans) ∧
        s1.rx_tail = (if (c.st.config.use_dma && decide (c.st.dma_rx_chan ≥ 0)) = true
                      then dma_head hw else s1.rx_head) ∧
        s1.rx_head < RX_BUFFER_SIZE ∧ s1.rx_tail < RX_BUFFER_SIZE ∧
        (∀ sp, sp ∈ spans → 0 < sp.len ∧ sp.start + sp.len ≤ RX_BUFFER_SIZE)) := by
  obtain ⟨c, e, hinv⟩ := session_run_inv pio fuel hf calls _
    (session_start_inv _ (init_success_fresh pio s cfg hw0 hinit))
  obtain ⟨_, k2, k3, _, _, k6, k7, _, k9⟩ := hinv
  refine ⟨c, e, k6, k7, k3, by rw [k2]; decide, ?_, dma_head_lt, k9, ?_⟩
  · intro i
    rw [and_tx_mask]
    exact Nat.mod_lt _ (by decide)
  · intro hw
    obtain ⟨s1, spans, e1, r1, r2, r3, r4, _⟩ := process_rx_full 2 c.st hw k6 k7 (by decide)
    exact ⟨s1, spans, e1, r3, r1, r2, r4⟩

/-- C20, worked example: the three-call session from `init` with the default
UART configuration ends with all four cursors in range. -/
theorem cursor_range_invariant_witness :
    ∃ c, session_run false 2 sample_io_calls
        (session_start
          (kmbox_interface_init false g_interface (some KMBOX_UART_DEFAULT_CONFIG) sample_sdk).2.1)
        = some c ∧
      c.st.rx_head < 512 ∧ c.st.rx_tail < 512 ∧ c.st.tx_head < 256 ∧ c.st.tx_tail < 256 := by
  obtain ⟨c, e, h1, h2, h3, h4, _⟩ :=
    cursor_range_invariant false 2 g_interface KMBOX_UART_DEFAULT_CONFIG sample_sdk
      sample_io_calls (by decide) (by decide)
  exact ⟨c, e, h1, h2, h3, h4⟩

/-! ## PIO rollback -/

/-- The rollback of `init_pio_uart` releases exactly what the RX claim took when
the failed TX claim leaves the shared `pio` handle on the block the RX claim
used. -/
theorem pio_rollback_same_block (s : kmbox_interface_state_t) (cfg : kmbox_interface_config_t)
    (hw : sdk_hw_t) (held : List pio_resource_t)
    (hrx : hw.rx_claim.ok = true) (htx : hw.tx_claim.ok = false)
    (hsame : hw.tx_claim.pio = hw.rx_claim.pio) :
    (init_pio_uart s cfg hw).1 = false ∧
    pio_held_after (init_pio_uart s cfg hw).2.2 held = held := by
  unfold init_pio_uart
  simp [hrx, htx, hsame, pio_held_after]

/-- C17, the code at the failing input.  The RX claim is granted on block 2 and
the TX claim fails, leaving the shared `pio` handle at block 0: `init` returns
false and `initialized` stays false, but the rollback call names block 0, so
the RX program and state machine on block 2 are still held afterwards. -/
theorem pio_rollback_wrong_block :
    (kmbox_interface_init true g_interface (some sample_pio_config) sdk_tx_claim_fails).1 = false ∧
    (kmbox_interface_init true g_interface (some sample_pio_config) sdk_tx_claim_fails).2.1.initialized
      = false ∧
    (kmbox_interface_init true g_interface (some sample_pio_config) sdk_tx_claim_fails).2.2 =
      [sdk_call.pio_claim_program true 5 { ok := true, pio := 2, sm := 0, offset := 0 },
       sdk_call.pio_claim_program false 4 { ok := false, pio := 0, sm := 0, offset := 0 },
       sdk_call.pio_remove_program_and_unclaim_sm true 0 0 0] ∧
    pio_held_after
      (kmbox_interface_init true g_interface (some sample_pio_config) sdk_tx_claim_fails).2.2 [] =
      [{ rx := true, pio := 2, sm := 0, offset := 0 }] := by
  refine ⟨by decide, by decide, by decide, by decide⟩

/-! ## HID report queues -/

/-- The first loop of `process_queued_reports` on a non-empty keyboard queue:
its body changes nothing, so no iteration bound lets it return. -/
theorem kbd_drain_loop_stuck (st : hid_state_t) (h : is_kbd_buffer_empty st = false) :
    ∀ fuel, kbd_drain_loop fuel st = none := by
  intro fuel
  induction fuel with
  | zero => simp [kbd_drain_loop, h]
  | succ fuel ih => rw [kbd_drain_loop]; simp [h, ih]

/-- C16.  Mouse button masking: for every mouse report `r`,
`process_mouse_report_internal` makes exactly one call into the device stack,
`tud_hid_mouse_report(REPORT_ID_MOUSE, r.buttons & 0x07, r.x, r.y, r.wheel, 0)`,
whatever the five high bits of the button byte are (the forwarded value is the
button byte modulo 8), and returns what the stack returns; for a null report it
forwards nothing and returns false.  On the software path of
`process_mouse_report` that call is among the calls made, and a null report
makes no call at all. -/
theorem mouse_button_masking (defs : hid_defines_t) (st : hid_state_t)
    (r : hid_mouse_report_t) (hw : hid_hw_t) :
    process_mouse_report_internal defs (some r) hw =
      (hw.tud_ok,
       [hid_call.tud_hid_mouse_report defs.REPORT_ID_MOUSE (r.buttons &&& 0x07) r.x r.y r.wheel 0]) ∧
    r.buttons &&& 0x07 = r.buttons % 8 ∧
    r.buttons &&& 0x07 < 8 ∧
    process_mouse_report_internal defs none hw = (false, []) ∧
    (software_path defs hw →
      hid_call.tud_hid_mouse_report defs.REPORT_ID_MOUSE (r.buttons &&& 0x07) r.x r.y r.wheel 0
        ∈ (process_mouse_report defs st (some r) hw).2) ∧
    process_mouse_report defs st none hw = (st, []) := by
  have hm : r.buttons &&& 0x07 = r.buttons % 8 := Nat.and_pow_two_sub_one_eq_mod r.buttons 3
  refine ⟨rfl, hm, ?_, rfl, ?_, rfl⟩
  · rw [hm]; exact Nat.mod_lt _ (by decide)
  · intro hsw
    have hin : hid_call.tud_hid_mouse_report defs.REPORT_ID_MOUSE (r.buttons &&& 0x07)
        r.x r.y r.wheel 0 ∈ (process_mouse_report_internal defs (some r) hw).2 := by
      simp [process_mouse_report_internal]
    unfold process_mouse_report
    simp only
    have hc2 : hid_call.tud_hid_mouse_report defs.REPORT_ID_MOUSE (r.buttons &&& 0x07)
        r.x r.y r.wheel 0 ∈
        (if defs.RP2350 then
          if hw.hw_accel_enabled then
            if hw.hw_accel_handled then [hid_call.hw_accel_process_mouse_report r]
            else [hid_call.hw_accel_process_mouse_report r] ++
              (process_mouse_report_internal defs (some r) hw).2
          else (process_mouse_report_internal defs (some r) hw).2
        else (process_mouse_report_internal defs (some r) hw).2) := by
      rcases hsw with h | h | h
      · simp only [h, Bool.false_eq_true, if_false]; exact hin
      · cases defs.RP2350
        · simp only [Bool.false_eq_true, if_false]; exact hin
        · simp only [h, Bool.false_eq_true, if_false, if_true]; exact hin
      · cases defs.RP2350
        · simp only [Bool.false_eq_true, if_false]; exact hin
        · cases hw.hw_accel_enabled
          · simp only [Bool.false_eq_true, if_false, if_true]; exact hin
          · simp only [h, Bool.false_eq_true, if_false, if_true]
            exact List.mem_append_right _ hin
    split
    · exact List.mem_append_left _ (List.mem_append_right _ hc2)
    · exact List.mem_append_right _ hc2

theorem queue_mask_step (q : dma_circular_buffer_t) (hq : queue_in_range q) :
    u32 (q.read_idx + 1) &&& q.mask = (q.read_idx + 1) % q.size := by
  obtain ⟨⟨k, hk, hs⟩, hm, _, _⟩ := hq
  have e : q.mask = 2 ^ k - 1 := by omega
  rw [e, Nat.and_pow_two_sub_one_eq_mod, hs]
  unfold u32
  have hd : 2 ^ k ∣ 4294967296 := by
    have : (4294967296 : Nat) = 2 ^ 32 := by norm_num
    rw [this]
    exact Nat.pow_dvd_pow 2 hk
  exact Nat.mod_mod_of_dvd _ hd

/-- What `dequeue_and_process_mouse_report` does on a non-empty queue. -/
theorem dequeue_nonempty (defs : hid_defines_t) (st : hid_state_t) (hw : hid_hw_t)
    (h : is_mouse_buffer_empty st = false) :
    dequeue_and_process_mouse_report defs st hw =
      ({ st with mouse_circular_buffer :=
           { st.mouse_circular_buffer with
             read_idx := u32 (st.mouse_circular_buffer.read_idx + 1) &&&
               st.mouse_circular_buffer.mask } },
       [mouse_forward defs (st.mouse_buffer st.mouse_circular_buffer.read_idx)]) := by
  unfold dequeue_and_process_mouse_report
  simp only [h, Bool.false_eq_true, if_false]
  rfl

theorem dequeue_empty (defs : hid_defines_t) (st : hid_state_t) (hw : hid_hw_t)
    (h : is_mouse_buffer_empty st = true) :
    dequeue_and_process_mouse_report defs st hw = (st, []) := by
  unfold dequeue_and_process_mouse_report
  simp only [h, if_true]

/-- What `process_mouse_report` does to the two control blocks, for a non-null
report: the keyboard block is untouched, the mouse block is what one
`dequeue_and_process_mouse_report` makes of it. -/
theorem process_mouse_report_queues (defs : hid_defines_t) (st : hid_state_t)
    (r : hid_mouse_report_t) (hw : hid_hw_t) :
    (process_mouse_report defs st (some r) hw).1.kbd_circular_buffer = st.kbd_circular_buffer ∧
    (process_mouse_report defs st (some r) hw).1.mouse_circular_buffer =
      (dequeue_and_process_mouse_report defs st hw).1.mouse_circular_buffer := by
  cases he : is_mouse_buffer_empty st with
  | true =>
    have he1 : is_mouse_buffer_empty
        { st with mouse_activity_counter := u32 (st.mouse_activity_counter + 1) } = true := he
    rw [dequeue_empty defs st hw he]
    unfold process_mouse_report
    simp only [he1, Bool.not_true, Bool.false_eq_true, if_false]
    constructor <;> trivial
  | false =>
    have he1 : is_mouse_buffer_empty
        { st with mouse_activity_counter := u32 (st.mouse_activity_counter + 1) } = false := he
    rw [dequeue_nonempty defs st hw he]
    unfold process_mouse_report
    simp only [he1, Bool.not_false, if_true, dequeue_nonempty defs _ hw he1]
    constructor <;> trivial

theorem process_kbd_report_queues (defs : hid_defines_t) (st : hid_state_t)
    (report : Option hid_keyboard_report_t) (hw : hid_hw_t) :
    (process_kbd_report defs st report hw).1.kbd_circular_buffer = st.kbd_circular_buffer ∧
    (process_kbd_report defs st report hw).1.mouse_circular_buffer = st.mouse_circular_buffer := by
  cases report with
  | none => exact ⟨rfl, rfl⟩
  | some r =>
    unfold process_kbd_report
    simp only
    cases defs.RP2350 <;> cases hw.hw_accel_enabled <;> cases hw.hw_accel_handled <;>
      exact ⟨rfl, rfl⟩

/-- With the keyboard queue empty, `process_queued_reports` is its second
loop. -/
theorem process_queued_reports_kbd_empty (defs : hid_defines_t) (hw : hid_hw_t) (fuel : Nat)
    (st : hid_state_t) (h : is_kbd_buffer_empty st = true) :
    process_queued_reports defs hw fuel st = mouse_drain_loop defs hw fuel st := by
  unfold process_queued_reports
  have e : kbd_drain_loop fuel st = some st := by
    cases fuel <;> simp [kbd_drain_loop, h]
  rw [e]

/-! ## HID report queues: the states the file can reach -/

theorem hid_boot_idle : hid_queues_idle hid_boot := ⟨rfl, rfl, rfl, rfl⟩

theorem hid_idle_empty (st : hid_state_t) (h : hid_queues_idle st) :
    is_kbd_buffer_empty st = true ∧ is_mouse_buffer_empty st = true := by
  obtain ⟨h1, h2, h3, h4⟩ := h
  unfold is_kbd_buffer_empty is_mouse_buffer_empty
  rw [h1, h2, h3, h4]
  exact ⟨rfl, rfl⟩

theorem init_hid_dma_idle (defs : hid_defines_t) (st : hid_state_t) (hw : hid_init_hw_t) :
    hid_queues_idle (init_hid_dma defs st hw).1 := by
  unfold init_hid_dma
  cases hw.kbd_channel_ok <;> cases hw.mouse_channel_ok <;> exact ⟨rfl, rfl, rfl, rfl⟩

/-- On an empty mouse queue `process_mouse_report` leaves both control blocks
as they are, whatever the report (null included). -/
theorem process_mouse_report_empty (defs : hid_defines_t) (st : hid_state_t)
    (report : Option hid_mouse_report_t) (hw : hid_hw_t)
    (h : is_mouse_buffer_empty st = true) :
    (process_mouse_report defs st report hw).1.kbd_circular_buffer = st.kbd_circular_buffer ∧
    (process_mouse_report defs st report hw).1.mouse_circular_buffer =
      st.mouse_circular_buffer := by
  cases report with
  | none => exact ⟨rfl, rfl⟩
  | some r =>
    obtain ⟨e1, e2⟩ := process_mouse_report_queues defs st r hw
    rw [e1, e2, dequeue_empty defs st hw h]
    exact ⟨rfl, rfl⟩

/-- With both queues empty `process_queued_reports` returns at once, for
every iteration bound, with the state as it was and nothing forwarded. -/
theorem process_queued_reports_idle (defs : hid_defines_t) (hw : hid_hw_t) (fuel : Nat)
    (st : hid_state_t) (hk : is_kbd_buffer_empty st = true)
    (hm : is_mouse_buffer_empty st = true) :
    process_queued_reports defs hw fuel st = some (st, []) := by
  rw [process_queued_reports_kbd_empty defs hw fuel st hk]
  cases fuel <;> simp [mouse_drain_loop, hm]

theorem hid_step_idle (defs : hid_defines_t) (fuel : Nat) (st : hid_state_t)
    (c : hid_api_call) (h : hid_queues_idle st) :
    ∃ st1, hid_step defs fuel st c = some st1 ∧ hid_queues_idle st1 := by
  have he := hid_idle_empty st h
  cases c with
  | init_hid_dma hw => exact ⟨_, rfl, init_hid_dma_idle defs st hw⟩
  | process_kbd_report report hw =>
    refine ⟨_, rfl, ?_⟩
    obtain ⟨e1, e2⟩ := process_kbd_report_queues defs st report hw
    unfold hid_queues_idle
    rw [e1, e2]
    exact h
  | process_mouse_report report hw =>
    refine ⟨_, rfl, ?_⟩
    obtain ⟨e1, e2⟩ := process_mouse_report_empty defs st report hw he.2
    unfold hid_queues_idle
    rw [e1, e2]
    exact h
  | is_mouse_buffer_empty => exact ⟨st, rfl, h⟩
  | is_kbd_buffer_empty => exact ⟨st, rfl, h⟩
  | process_queued_reports hw =>
    refine ⟨st, ?_, h⟩
    have e := process_queued_reports_idle defs hw fuel st he.1 he.2
    simp only [hid_step, e]

/-- Every sequence of calls from a state with both queues idle runs to the
end, for every iteration bound, and leaves both queues idle. -/
theorem hid_run_idle (defs : hid_defines_t) (fuel : Nat) (calls : List hid_api_call) :
    ∀ st, hid_queues_idle st →
      ∃ st1, hid_run defs fuel calls st = some st1 ∧ hid_queues_idle st1 := by
  induction calls with
  | nil => intro st h; exact ⟨st, rfl, h⟩
  | cons c rest ih =>
    intro st h
    obtain ⟨st1, e1, h1⟩ := hid_step_idle defs fuel st c h
    obtain ⟨st2, e2, h2⟩ := ih st1 h1
    refine ⟨st2, ?_, h2⟩
    rw [hid_run]
    simp only [e1]
    exact e2

/-- C18.  Empty check.  For every state, `is_kbd_buffer_empty` /
`is_mouse_buffer_empty` are true exactly when that queue's
`read_idx == write_idx`, and a call of either leaves the state as it is.
`process_kbd_report` never changes a cursor of either queue.
`process_mouse_report`, for every report, and
`dequeue_and_process_mouse_report` leave an empty mouse queue empty.  On a
non-empty mouse queue set up by `init_hid_dma`,
`dequeue_and_process_mouse_report` and `process_mouse_report` with a report
advance `read_idx` by exactly one modulo the queue size and leave `write_idx`
and the keyboard queue alone.  In every state that the functions of the file
can reach from program start both queues are empty, so there every call of
`process_mouse_report`, with or without a report, leaves the cursors as they
are and the result of the empty checks does not change.  The one case outside
this statement is a null report on a non-empty mouse queue, where
`process_mouse_report` returns at its first line without dequeuing; nothing in
the file enqueues, so no sequence of calls produces that state. -/
theorem empty_check_changes_by_dequeue (defs : hid_defines_t) (hw : hid_hw_t) :
    (∀ (st : hid_state_t) (fuel : Nat),
      (is_kbd_buffer_empty st = true ↔
        st.kbd_circular_buffer.read_idx = st.kbd_circular_buffer.write_idx) ∧
      (is_mouse_buffer_empty st = true ↔
        st.mouse_circular_buffer.read_idx = st.mouse_circular_buffer.write_idx) ∧
      hid_step defs fuel st hid_api_call.is_kbd_buffer_empty = some st ∧
      hid_step defs fuel st hid_api_call.is_mouse_buffer_empty = some st ∧
      (∀ report,
        (process_kbd_report defs st report hw).1.kbd_circular_buffer = st.kbd_circular_buffer ∧
        (process_kbd_report defs st report hw).1.mouse_circular_buffer =
          st.mouse_circular_buffer) ∧
      (is_mouse_buffer_empty st = true →
        dequeue_and_process_mouse_report defs st hw = (st, []) ∧
        ∀ report,
          (process_mouse_report defs st report hw).1.kbd_circular_buffer =
            st.kbd_circular_buffer ∧
          (process_mouse_report defs st report hw).1.mouse_circular_buffer =
            st.mouse_circular_buffer) ∧
      (is_mouse_buffer_empty st = false → queue_in_range st.mouse_circular_buffer →
        (dequeue_and_process_mouse_report defs st hw).1.mouse_circular_buffer =
          { st.mouse_circular_buffer with
            read_idx := (st.mouse_circular_buffer.read_idx + 1) %
              st.mouse_circular_buffer.size } ∧
        (dequeue_and_process_mouse_report defs st hw).1.kbd_circular_buffer =
          st.kbd_circular_buffer ∧
        ∀ r,
          (process_mouse_report defs st (some r) hw).1.mouse_circular_buffer =
            { st.mouse_circular_buffer with
              read_idx := (st.mouse_circular_buffer.read_idx + 1) %
                st.mouse_circular_buffer.size } ∧
          (process_mouse_report defs st (some r) hw).1.kbd_circular_buffer =
            st.kbd_circular_buffer)) ∧
    (∀ (calls : List hid_api_call) (fuel : Nat), ∃ st,
      hid_run defs fuel calls hid_boot = some st ∧
      is_kbd_buffer_empty st = true ∧ is_mouse_buffer_empty st = true ∧
      ∀ report,
        is_mouse_buffer_empty (process_mouse_report defs st report hw).1 = true ∧
        (process_mouse_report defs st report hw).1.mouse_circular_buffer =
          st.mouse_circular_buffer ∧
        (process_mouse_report defs st report hw).1.kbd_circular_buffer =
          st.kbd_circular_buffer) := by
  constructor
  · intro st fuel
    refine ⟨by simp [is_kbd_buffer_empty], by simp [is_mouse_buffer_empty], rfl, rfl,
      fun report => process_kbd_report_queues defs st report hw,
      fun h => ⟨dequeue_empty defs st hw h,
        fun report => process_mouse_report_empty defs st report hw h⟩, ?_⟩
    intro h hq
    have e := dequeue_nonempty defs st hw h
    rw [queue_mask_step _ hq] at e
    refine ⟨by rw [e], by rw [e], fun r => ?_⟩
    obtain ⟨e1, e2⟩ := process_mouse_report_queues defs st r hw
    rw [e1, e2, e]
    exact ⟨rfl, rfl⟩
  · intro calls fuel
    obtain ⟨st, e, h⟩ := hid_run_idle defs fuel calls hid_boot hid_boot_idle
    have he := hid_idle_empty st h
    refine ⟨st, e, he.1, he.2, fun report => ?_⟩
    obtain ⟨e1, e2⟩ := process_mouse_report_empty defs st report hw he.2
    refine ⟨?_, e2, e1⟩
    have hm := he.2
    unfold is_mouse_buffer_empty at hm ⊢
    rw [e2]; exact hm

/-- C18, worked examples: after the sample run from program start a null
mouse report leaves the empty mouse queue as it is; on the state with two
mouse reports queued in a 16-slot queue a mouse report moves `read_idx` from 0
to 1. -/
theorem empty_check_changes_by_dequeue_witness :
    (∃ st, hid_run sample_hid_defines 0 sample_hid_calls hid_boot = some st ∧
      is_mouse_buffer_empty (process_mouse_report sample_hid_defines st none
        sample_hid_hw).1 = true) ∧
    (process_mouse_report sample_hid_defines sample_hid_state (some (sample_mouse_slots 7))
      sample_hid_hw).1.mouse_circular_buffer.read_idx = 1 := by
  have h := empty_check_changes_by_dequeue sample_hid_defines sample_hid_hw
  constructor
  · obtain ⟨st, e, _, _, h3⟩ := h.2 sample_hid_calls 0
    exact ⟨st, e, (h3 none).1⟩
  · have h7 := ((h.1 sample_hid_state 0).2.2.2.2.2.2 (by decide)
      ⟨⟨4, by decide, by decide⟩, by decide, by decide, by decide⟩).2.2 (sample_mouse_slots 7)
    rw [h7.1]
    decide

end KMBox
